import Mathlib

/-!
# csWarp Ethernet and frame buffer drivers

A shallow embedding of the dual-port-RAM transport (`sendMsgToArm`), of the
budgeted receive poll (`warpnet_napi_poll`) and of the other entry points of the
Amiga / csWarp network driver (`drivers/net/ethernet/amiwarpnet.c`), together
with the frame constants and declarations of `asm/cswarpamicommdata.h`, and of
the mode check, colour registers and panning of the frame buffer driver
(`drivers/video/fbdev/amiwarpfb.c`).

The driver talks to the ARM peer through a control register and a shared frame
window.  The embedding is an explicit state-passing interpreter:

* every access of the driver to the control register, to the frame window and
  to the kernel services it calls is appended to an event trace;
* the peer is a script: each volatile read of the control register consumes one
  `PeerStep`, which gives the value the read returns and the bytes the peer
  stored in the window since the previous read.  A busy-wait that exhausts the
  script has not returned (result `none`).

Machine integers are naturals with explicit reduction: the statistics counters
are `unsigned long` (32 bits on m68k), `pktSize` is a big-endian `uint16_t`,
`budget` and `rx_count` are C `int`s (the loop keeps `rx_count <= budget`, so no
overflow occurs).  The results of `netdev_alloc_skb` are a script in the state; the
unchecked use of a failed allocation is a fault from which the call does not return.
-/

namespace AmiWarp

/-! ## Constants of `asm/cswarpamicommdata.h` -/

/-- Selector bit: set bits in register. -/
def DPREG_CR_SET : Nat := 0x80000000
/-- Selector value: clear bits in register. -/
def DPREG_CR_CLR : Nat := 0x00000000
/-- ARM irq enable. -/
def DPREG_CR_IE_ARM : Nat := 1 <<< 0
/-- 68K irq enable. -/
def DPREG_CR_IE_68K : Nat := 1 <<< 1
/-- Msg pending (ARM). -/
def DPREG_CR_MP_ARM : Nat := 1 <<< 2
/-- Msg pending (68K). -/
def DPREG_CR_MP_68K : Nat := 1 <<< 3
/-- Msg received (ARM). -/
def DPREG_CR_MR_ARM : Nat := 1 <<< 4
/-- Msg received (68K). -/
def DPREG_CR_MR_68K : Nat := 1 <<< 5
/-- ETH rx irq enable. -/
def DPREG_CR_IE_ETHRX : Nat := 1 <<< 6
/-- ETH tx irq enable. -/
def DPREG_CR_IE_ETHTX : Nat := 1 <<< 7
/-- ETH state irq enable. -/
def DPREG_CR_IE_ETHST : Nat := 1 <<< 8
/-- ETH rx irq. -/
def DPREG_CR_IF_ETHRX : Nat := 1 <<< 9
/-- ETH tx irq. -/
def DPREG_CR_IF_ETHTX : Nat := 1 <<< 10
/-- ETH state irq. -/
def DPREG_CR_IF_ETHST : Nat := 1 <<< 11

/-- Size of the packet field: `ETH_MTU_AND_HDR_SIZE`. -/
def ETH_MTU_AND_HDR_SIZE : Nat := 1500 + 14
/-- Bytes of a MAC address: `ETH_MAC_SIZE`. -/
def ETH_MAC_SIZE : Nat := 6
/-- Modelled from the spec: the kernel constant `ETH_ALEN` of `linux/if_ether.h` (not under
`src/`), the length of the destination address the filter compares; an Ethernet address has
6 octets, as `ETH_MAC_SIZE` above. -/
def ETH_ALEN : Nat := 6

/-- Status enumeration `WarpAmiCommStatus`. -/
inductive WarpAmiCommStatus where
  | wacOK
  | wacTIMEOUT
  | wacBREAK
  | wacNOTINITIALIZED
  | wacCOMERR
  | wacBUFFERR
  deriving DecidableEq, Repr

/-- Command discriminants `DprCmd`, numbered from 0 in declaration order. -/
inductive DprCmd where
  | dpcmdNop
  | dpcmdDbgMsg
  | dpcmdJpegTest
  | dpcmdAudioTest
  | dpcmdSetCpuTurbo
  | dpcmdSelectKick
  | dpcmdGetDiag
  | dpcmdSetIdeMode
  | dpcmdSetIdeSpeed
  | dpcmdSetHIDMouseRes
  | dpcmdSetWiFiSSID
  | dpcmdSetWiFiPass
  | dpcmdSetTempRegulator
  | dpcmdSetTimeZoneShift
  | dpcmdOpenDir
  | dpcmdCloseDir
  | dpcmdReadDir
  | dpcmdSDGetInfo
  | dpcmdDiskWriteBlocks
  | dpcmdDiskReadBlocks
  | dpcmdGetHIDMouseRes
  | dpcmdUSBDiskGetInfo
  | dpcmdGetARMInfo
  | dpcmdEthTransmit
  | dpcmdEthReceive
  | dpcmdEthGetMACAddr
  | dpcmdGetMouseWheelData
  deriving DecidableEq, Repr

/-- Reply discriminants `DprRpl`, numbered from 0 in declaration order. -/
inductive DprRpl where
  | dprplNop
  | dprplDiagFrame
  | dprplOpenDirStatus
  | dprplReadDir
  | dprplSDGetInfo
  | dprplDiskReadBlocks
  | dprplDiskWriteBlocks
  | dprplGetHIDMouseRes
  | dprplUSBGetInfo
  | dprplARMInfo
  | dprplEthReceive
  | dprplEthMACAddr
  | dprplMouseWheelData
  deriving DecidableEq, Repr

/-- Integer value of a command discriminant (C enum numbering). -/
def DprCmd.val (c : DprCmd) : Nat := c.toCtorIdx
/-- Integer value of a reply discriminant (C enum numbering). -/
def DprRpl.val (r : DprRpl) : Nat := r.toCtorIdx

/-! ## Frame window: bytes and big-endian fields -/

/-- One byte of memory. -/
abbrev Byte := Fin 256

/-- Memory seen through a base pointer: offset to byte. -/
abbrev Mem := Nat → Byte

/-- Offset of `header.cmd` / `header.rpl` in every frame variant. -/
def OFF_header : Nat := 0
/-- Offset of `ethRecv.pktSize` / `ethSend.pktSize` (after the 4-byte header). -/
def OFF_pktSize : Nat := 4
/-- Offset of `ethRecv.packet` / `ethSend.packet` (2-byte packing). -/
def OFF_packet : Nat := 6

/-- Big-endian bytes of a `uint32_t`. -/
def enc32 (v : Nat) : List Byte :=
  [Fin.ofNat (v / 16777216), Fin.ofNat (v / 65536), Fin.ofNat (v / 256), Fin.ofNat v]

/-- Load of a big-endian `uint32_t` at `off`. -/
def rd32 (d : Mem) (off : Nat) : Nat :=
  (d off).val * 16777216 + (d (off + 1)).val * 65536 + (d (off + 2)).val * 256 + (d (off + 3)).val

/-- Load of a big-endian `uint16_t` at `off`. -/
def rd16 (d : Mem) (off : Nat) : Nat :=
  (d off).val * 256 + (d (off + 1)).val

/-- The `n` bytes starting at `off`. -/
def rdBytes (d : Mem) (off n : Nat) : List Byte :=
  (List.range n).map (fun i => d (off + i))

/-- Store of the bytes `bs` at `off`. -/
def storeBytes (d : Mem) (off : Nat) (bs : List Byte) : Mem :=
  fun i => if off ≤ i then (bs[i - off]?).getD (d i) else d i

/-- Modelled from the spec: the kernel's `memcmp` (`lib/string.c`, not under `src/`), with
which the driver tests whether the destination address matches the interface's own or the
broadcast address.  On two byte strings of equal length it is zero when they are equal, else
the difference of the first differing bytes (C semantics). -/
def memcmpList : List Byte → List Byte → Int
  | x :: xs, y :: ys => if x = y then memcmpList xs ys else (x.val : Int) - (y.val : Int)
  | _, _ => 0

/-- Modelled from the spec: `memcmp(a, b, n)` on the first `n` bytes behind two pointers. -/
def memcmp (a b : Mem) (n : Nat) : Int :=
  memcmpList (rdBytes a 0 n) (rdBytes b 0 n)

/-- Broadcast address `bcast_addr`. -/
def bcast_addr : Mem := fun _ => 0xff

/-! ## Events, peer script and state -/

/-- Kernel services the driver calls besides those that are events of their own.
`null_deref` is the fault of `skb_put_data` on the unchecked NULL result of
`netdev_alloc_skb` (`amiwarpnet.c`, lines 315-316). -/
inductive KCall where
  | napi_schedule
  | napi_enable
  | napi_disable
  | netif_start_queue
  | netif_stop_queue
  | netif_wake_queue
  | netif_carrier_on
  | netif_carrier_off
  | netif_trans_update
  | mod_timer (expires : Nat)
  | del_timer_sync
  | timer_setup
  | dev_kfree_skb
  | alloc_etherdev
  | free_netdev
  | netif_napi_add_weight (weight : Nat)
  | register_netdev
  | request_irq
  | eth_hw_addr_set
  | eth_hw_addr_random
  | dev_err
  | null_deref
  deriving DecidableEq

/-- Observable actions of the driver, in program order. -/
inductive Ev where
  | crWrite (v : Nat)
  | crRead (v : Nat)
  | dpramWrite (off : Nat) (bytes : List Byte)
  | dpramRead (off len : Nat)
  | lock
  | unlock
  | netif_receive_skb (data : List Byte)
  | netdev_err
  | napi_complete_done (work_done : Int)
  | call (c : KCall)
  deriving DecidableEq

/-- What the peer did up to one read of the control register: the bytes it stored in the
window (offset, value; in order) and the value the read returns. -/
structure PeerStep where
  cr : Nat
  wr : List (Nat × Byte) := []

/-- Driver state (`WarpNetPriv`, the statistics, queue state and watchdog time of its
`net_device`, the expiry of `pollTimer` when armed), the frame window, the kernel clock
`jiffies`, the remaining peer script, the trace of events so far, and the results of the
coming calls of `netdev_alloc_skb` (`skb_allocs`, `false` for a call that returns NULL; calls
beyond the script return a buffer). -/
structure World where
  dpram : Mem := fun _ => 0
  promisc : Bool := false
  dev_addr : Mem := fun _ => 0
  rx_packets : Nat := 0
  rx_bytes : Nat := 0
  tx_packets : Nat := 0
  tx_bytes : Nat := 0
  tx_errors : Nat := 0
  napi_sched : Bool := true
  peer : List PeerStep := []
  trace : List Ev := []
  jiffies : Nat := 0
  trans_start : Nat := 0
  queue_stopped : Bool := false
  carrier : Bool := false
  timer : Option Nat := none
  watchdog_timeo : Int := 0
  skb_allocs : List Bool := []

/-- Modelled from the spec: the receive and transmit counters live in the kernel's
`struct net_device_stats` (`linux/netdevice.h`, not under `src/`); they are `unsigned long`,
32 bits wide on m68k, and this is their modulus. -/
def ULONG_MOD : Nat := 4294967296

/-- Append one event to the trace. -/
def emit (e : Ev) (m : World) : World := { m with trace := m.trace ++ [e] }

/-- Effect of the peer's stores on the window. -/
def applyWr (wr : List (Nat × Byte)) (d : Mem) : Mem :=
  wr.foldl (fun d w => Function.update d w.1 w.2) d

/-- Window after a run of peer steps. -/
def peerWrites (ps : List PeerStep) (d : Mem) : Mem :=
  ps.foldl (fun d p => applyWr p.wr d) d

/-- Register writes `*dp_reg_cr = v`. -/
def crWrite (v : Nat) (m : World) : World := emit (Ev.crWrite v) m

/-- Store of a 32-bit field of the frame window by the driver. -/
def dpramWrite32 (off v : Nat) (m : World) : World :=
  emit (Ev.dpramWrite off (enc32 v)) { m with dpram := storeBytes m.dpram off (enc32 v) }

/-- Lock `spin_lock_irqsave(&priv->dpram_lock, irqFlags)`, recorded as an event. -/
def spin_lock_irqsave (m : World) : World := emit Ev.lock m

/-- Unlock `spin_unlock_irqrestore(&priv->dpram_lock, irqFlags)`, recorded as an event. -/
def spin_unlock_irqrestore (m : World) : World := emit Ev.unlock m

/-- Busy-wait `while((*dp_reg_cr & mask) == 0);` against the peer script `ps`: each
iteration is one read.  The flag is `false` when the script ran out first. -/
def busyWait (mask : Nat) (m : World) : List PeerStep → World × Bool
  | [] => ({ m with peer := [] }, false)
  | p :: rest =>
    let m1 := emit (Ev.crRead p.cr) { m with dpram := applyWr p.wr m.dpram }
    if p.cr &&& mask = 0 then busyWait mask m1 rest
    else ({ m1 with peer := rest }, true)

/-- Busy-wait on the script held in the state. -/
def spin (mask : Nat) (m : World) : World × Bool := busyWait mask m m.peer

/-- Transport `sendMsgToArm(priv, waitForReply)`; `none` when a busy-wait never ended. -/
def sendMsgToArm (m : World) (waitForReply : Bool) : World × Option WarpAmiCommStatus :=
  -- send irq to ARM
  let m := crWrite (DPREG_CR_SET ||| DPREG_CR_MP_ARM ||| DPREG_CR_IE_ARM) m
  -- wait for ARM has processed the message
  match spin DPREG_CR_MR_ARM m with
  | (m, false) => (m, none)
  | (m, true) =>
    -- clear flag
    let m := crWrite (DPREG_CR_CLR ||| DPREG_CR_MR_ARM ||| DPREG_CR_IE_ARM) m
    if waitForReply then
      -- wait for ARM reply
      match spin DPREG_CR_MP_68K m with
      | (m, false) => (m, none)
      | (m, true) =>
        -- clear flag
        let m := crWrite (DPREG_CR_CLR ||| DPREG_CR_MP_68K) m
        (m, some WarpAmiCommStatus.wacOK)
    else
      (m, some WarpAmiCommStatus.wacOK)

/-- Modelled from the spec: the kernel's `napi_complete_done(napi, work_done)` (not under
`src/`) marks polling complete; the poll-scheduled flag is cleared. -/
def napi_complete_done (work_done : Int) (m : World) : World :=
  emit (Ev.napi_complete_done work_done) { m with napi_sched := false }

/-- How one execution of the loop body leaves the `for` loop. -/
inductive LoopCtl where
  | brk
  | next
  deriving DecidableEq, Repr

/-- Destination filter of the loop body (lines 307-309), with C short-circuit order:
`!priv->promisc && memcmp(packet, dev_addr) != 0 && memcmp(packet, bcast_addr) != 0`. -/
def dstFilter (m : World) : World × Bool :=
  if m.promisc then (m, false)
  else
    let m := emit (Ev.dpramRead OFF_packet ETH_ALEN) m
    if memcmp (fun i => m.dpram (OFF_packet + i)) m.dev_addr ETH_ALEN = 0 then (m, false)
    else
      let m := emit (Ev.dpramRead OFF_packet ETH_ALEN) m
      (m, decide (memcmp (fun i => m.dpram (OFF_packet + i)) bcast_addr ETH_ALEN ≠ 0))

/-- Modelled from the spec: the kernel's `netdev_alloc_skb` (not under `src/`) returns a
buffer or NULL; here the next entry of the script `skb_allocs` tells which (`true`: a
buffer), and a call beyond the script returns a buffer. -/
def netdev_alloc_skb (m : World) : World × Bool :=
  match m.skb_allocs with
  | [] => (m, true)
  | b :: rest => ({ m with skb_allocs := rest }, b)

/-- One execution of the body of the receive loop (lines 291-322).  The frame handed to
`netif_receive_skb` is the data `skb_put_data` copied into the buffer; `eth_type_trans` only
classifies it.  The result of `netdev_alloc_skb` is used unchecked: when it is NULL,
`skb_put_data` dereferences it before it reads the window, and the call does not return
(event `null_deref`, result `none`) with the lock still held. -/
def pollBody (m : World) : World × Option LoopCtl :=
  let m := spin_lock_irqsave m
  let m := dpramWrite32 OFF_header DprCmd.dpcmdEthReceive.val m
  match sendMsgToArm m true with
  | (m, none) => (m, none)
  | (m, some _) =>
    let m := emit (Ev.dpramRead OFF_header 4) m
    if rd32 m.dpram OFF_header ≠ DprRpl.dprplEthReceive.val then
      let m := spin_unlock_irqrestore m
      let m := emit Ev.netdev_err m
      (m, some LoopCtl.brk)
    else
      let m := emit (Ev.dpramRead OFF_pktSize 2) m
      let rx_len := rd16 m.dpram OFF_pktSize
      if rx_len = 0 then
        (spin_unlock_irqrestore m, some LoopCtl.brk)
      else
        match dstFilter m with
        | (m, true) =>
          -- not promiscuous mode and dst MAC is not ours
          (spin_unlock_irqrestore m, some LoopCtl.brk)
        | (m, false) =>
          match netdev_alloc_skb m with
          | (m, false) => (emit (Ev.call KCall.null_deref) m, none)
          | (m, true) =>
            let m := emit (Ev.dpramRead OFF_packet rx_len) m
            let skb := rdBytes m.dpram OFF_packet rx_len
            let m := spin_unlock_irqrestore m
            let m := emit (Ev.netif_receive_skb skb) m
            let m := { m with rx_packets := (m.rx_packets + 1) % ULONG_MOD }
            let m := { m with rx_bytes := (m.rx_bytes + rx_len) % ULONG_MOD }
            (m, some LoopCtl.next)

/-- Code after the loop (lines 325-328). -/
def pollEnd (budget rx_count : Int) (m : World) : World × Option Int :=
  if rx_count < budget then (napi_complete_done rx_count m, some rx_count)
  else (m, some rx_count)

/-- The `for(rx_count = 0; rx_count < budget; rx_count++)` loop from a given `rx_count`,
followed by the code after it.  `fuel` bounds the number of iterations; with none left and
the loop condition still true the result is `none`. -/
def pollLoop (budget : Int) : Nat → Int → World → World × Option Int
  | 0, rx_count, m =>
    if rx_count < budget then (m, none) else pollEnd budget rx_count m
  | fuel + 1, rx_count, m =>
    if rx_count < budget then
      match pollBody m with
      | (m, none) => (m, none)
      | (m, some LoopCtl.brk) => pollEnd budget rx_count m
      | (m, some LoopCtl.next) => pollLoop budget fuel (rx_count + 1) m
    else pollEnd budget rx_count m

/-- Receive poll `warpnet_napi_poll(napi, budget)`: final state and return value, `none`
when a round trip never ended. -/
def warpnet_napi_poll (m : World) (budget : Int) : World × Option Int :=
  pollLoop budget budget.toNat 0 m

/-! ## Control register write rule -/

/-- Modelled from the spec: the control register (hardware, not under `src/`) is 32 bits wide
and a write performs `(value & 0x80000000) ? (register |= value) : (register &= ~value)`. -/
def dpregWrite (reg value : Nat) : Nat :=
  if value &&& 0x80000000 ≠ 0 then (reg ||| value) % 4294967296
  else (reg &&& (0xFFFFFFFF ^^^ value)) % 4294967296

/-! ## Address query, transmit, interrupt, timer, bring-up, shutdown, probe -/

/-- Offset of `ethMAC.mac` in the reply frame (after the 4-byte header). -/
def OFF_mac : Nat := 4

/-- Big-endian bytes of a `uint16_t`. -/
def enc16 (v : Nat) : List Byte := [Fin.ofNat (v / 256), Fin.ofNat v]

/-- Store of a 16-bit field of the frame window by the driver. -/
def dpramWrite16 (off v : Nat) (m : World) : World :=
  emit (Ev.dpramWrite off (enc16 v)) { m with dpram := storeBytes m.dpram off (enc16 v) }

/-- Copy `memcpy(window + off, bs, bs.length)` into the frame window by the driver. -/
def dpramWriteBytes (off : Nat) (bs : List Byte) (m : World) : World :=
  emit (Ev.dpramWrite off bs) { m with dpram := storeBytes m.dpram off bs }

/-- The constant `TX_TIMEOUT` (`2 * HZ`); `HZ` is the kernel's tick rate. -/
def TX_TIMEOUT (HZ : Nat) : Nat := 2 * HZ

/-- The constant `TMR_POLL_INTERVAL` (`100 * HZ / 1000`). -/
def TMR_POLL_INTERVAL (HZ : Nat) : Nat := 100 * HZ / 1000

/-- The function `cleanupIrqAndFlags(priv)`: one write of the clear-mask of all flags. -/
def cleanupIrqAndFlags (m : World) : World :=
  -- clear all IRQs and flags (ARM <-> 68k comm)
  crWrite (DPREG_CR_CLR |||
    DPREG_CR_MP_68K ||| DPREG_CR_MP_ARM |||
    DPREG_CR_MR_68K ||| DPREG_CR_MR_ARM |||
    DPREG_CR_IE_68K |||
    DPREG_CR_IE_ETHRX |||
    DPREG_CR_IE_ETHST |||
    DPREG_CR_IE_ETHTX |||
    DPREG_CR_IF_ETHRX |||
    DPREG_CR_IF_ETHST |||
    DPREG_CR_IF_ETHTX) m

/-- Kernel type `irqreturn_t`. -/
inductive irqreturn_t where
  | IRQ_NONE
  | IRQ_HANDLED
  deriving DecidableEq, Repr

/-- Kernel type `netdev_tx_t`. -/
inductive netdev_tx_t where
  | NETDEV_TX_OK
  | NETDEV_TX_BUSY
  deriving DecidableEq, Repr

/-- Modelled from the spec: the kernel's `napi_schedule_prep` (not under `src/`) is the
check-and-set of the poll-scheduled flag: it answers whether no poll was scheduled, and the
flag is set afterwards. -/
def napi_schedule_prep (m : World) : World × Bool :=
  ({ m with napi_sched := true }, !m.napi_sched)

/-- Modelled from the spec: the kernel's `__napi_schedule` (not under `src/`) enqueues one
invocation of the poll. -/
def __napi_schedule (m : World) : World := emit (Ev.call KCall.napi_schedule) m

/-- Modelled from the spec: the kernel's `napi_schedule` (not under `src/`) schedules a poll
if none is scheduled: `if (napi_schedule_prep(n)) __napi_schedule(n)`. -/
def napi_schedule (m : World) : World :=
  match napi_schedule_prep m with
  | (m, true) => __napi_schedule m
  | (m, false) => m

/-- Modelled from the spec: the kernel's `mod_timer(&priv->pollTimer, expires)` (not under
`src/`) arms the timer for `expires`. -/
def mod_timer (expires : Nat) (m : World) : World :=
  emit (Ev.call (KCall.mod_timer expires)) { m with timer := some expires }

/-- Modelled from the spec: the kernel's `del_timer_sync(&priv->pollTimer)` (not under
`src/`) disarms the timer, waiting for a running callback. -/
def del_timer_sync (m : World) : World :=
  emit (Ev.call KCall.del_timer_sync) { m with timer := none }

/-- Modelled from the spec: the kernel's `napi_enable` (not under `src/`) lets polls be
scheduled: the poll-scheduled flag is released. -/
def napi_enable (m : World) : World :=
  emit (Ev.call KCall.napi_enable) { m with napi_sched := false }

/-- Modelled from the spec: the kernel's `napi_disable` (not under `src/`) stops accepting
new polls: the poll-scheduled flag is held. -/
def napi_disable (m : World) : World :=
  emit (Ev.call KCall.napi_disable) { m with napi_sched := true }

/-- Modelled from the spec: the kernel's `netif_start_queue` (not under `src/`) marks the
transmit queue not stopped. -/
def netif_start_queue (m : World) : World :=
  emit (Ev.call KCall.netif_start_queue) { m with queue_stopped := false }

/-- Modelled from the spec: the kernel's `netif_stop_queue` (not under `src/`) marks the
transmit queue stopped. -/
def netif_stop_queue (m : World) : World :=
  emit (Ev.call KCall.netif_stop_queue) { m with queue_stopped := true }

/-- Modelled from the spec: the kernel's `netif_wake_queue` (not under `src/`) clears the
stopped state of the transmit queue. -/
def netif_wake_queue (m : World) : World :=
  emit (Ev.call KCall.netif_wake_queue) { m with queue_stopped := false }

/-- Modelled from the spec: the kernel's `netif_trans_update` (not under `src/`) sets the
transmit timestamp to the current `jiffies`. -/
def netif_trans_update (m : World) : World :=
  emit (Ev.call KCall.netif_trans_update) { m with trans_start := m.jiffies }

/-- Modelled from the spec: the kernel's `netif_carrier_on` (not under `src/`). -/
def netif_carrier_on (m : World) : World :=
  emit (Ev.call KCall.netif_carrier_on) { m with carrier := true }

/-- Modelled from the spec: the kernel's `netif_carrier_off` (not under `src/`). -/
def netif_carrier_off (m : World) : World :=
  emit (Ev.call KCall.netif_carrier_off) { m with carrier := false }

/-- One volatile read `*dp_reg_cr` outside a busy-wait: it consumes one peer step; `none`
when the script holds no further read. -/
def crReadOnce (m : World) : Option (Nat × World) :=
  match m.peer with
  | [] => none
  | p :: rest =>
    some (p.cr, emit (Ev.crRead p.cr) { m with dpram := applyWr p.wr m.dpram, peer := rest })

/-- Interrupt handler `warpnet_irq(irq, ndev_instance)`. -/
def warpnet_irq (m : World) : Option (World × irqreturn_t) :=
  match crReadOnce m with
  | none => none
  | some (v, m) =>
    if v &&& DPREG_CR_IF_ETHRX ≠ 0 then
      let m := crWrite (DPREG_CR_CLR ||| DPREG_CR_IF_ETHRX) m
      -- eth frame received
      let m :=
        match napi_schedule_prep m with
        | (m, true) => __napi_schedule m
        | (m, false) => m
      some (m, irqreturn_t.IRQ_HANDLED)
    else
      some (m, irqreturn_t.IRQ_NONE)

/-- Address query `ethGetMacAddress(priv, mac)`: final state, status and the caller's buffer
`mac` afterwards; `none` when the round trip never ended. -/
def ethGetMacAddress (m : World) (mac : Mem) : World × Option (WarpAmiCommStatus × Mem) :=
  let m := spin_lock_irqsave m
  let m := dpramWrite32 OFF_header DprCmd.dpcmdEthGetMACAddr.val m
  match sendMsgToArm m true with
  | (m, none) => (m, none)
  | (m, some _) =>
    let m := emit (Ev.dpramRead OFF_header 4) m
    if rd32 m.dpram OFF_header ≠ DprRpl.dprplEthMACAddr.val then
      let m := spin_unlock_irqrestore m
      (m, some (WarpAmiCommStatus.wacCOMERR, mac))
    else
      let m := emit (Ev.dpramRead OFF_mac ETH_ALEN) m
      let mac := storeBytes mac 0 (rdBytes m.dpram OFF_mac ETH_ALEN)
      let m := spin_unlock_irqrestore m
      (m, some (WarpAmiCommStatus.wacOK, mac))

/-- Bring-up `warpnet_open(ndev)`. -/
def warpnet_open (HZ : Nat) (m : World) : World × Int :=
  let m := cleanupIrqAndFlags m
  let m := if m.watchdog_timeo ≤ 0 then { m with watchdog_timeo := (TX_TIMEOUT HZ : Nat) } else m
  let m := napi_enable m
  let m := netif_start_queue m
  let m := netif_carrier_on m
  -- enable eth rx irq
  let m := crWrite (DPREG_CR_SET ||| DPREG_CR_IE_ETHRX) m
  let m := mod_timer ((m.jiffies + TMR_POLL_INTERVAL HZ) % ULONG_MOD) m
  (m, 0)

/-- Shutdown `warpnet_close(ndev)`. -/
def warpnet_close (m : World) : World × Int :=
  let m := del_timer_sync m
  let m := cleanupIrqAndFlags m
  let m := netif_carrier_off m
  let m := netif_stop_queue m
  let m := napi_disable m
  (m, 0)

/-- Transmit `warpnet_start_xmit(skb, ndev)`; `skb` is the packet data, `skb->len` its length;
`none` when the peer never took the command. -/
def warpnet_start_xmit (skb : List Byte) (m : World) : World × Option netdev_tx_t :=
  let tx_len := skb.length
  let m := spin_lock_irqsave m
  let m := dpramWrite32 OFF_header DprCmd.dpcmdEthTransmit.val m
  let m := dpramWrite16 OFF_pktSize tx_len m
  let m := dpramWriteBytes OFF_packet skb m
  match sendMsgToArm m false with
  | (m, none) => (m, none)
  | (m, some _) =>
    let m := spin_unlock_irqrestore m
    let m := emit (Ev.call KCall.dev_kfree_skb) m
    let m := { m with tx_packets := (m.tx_packets + 1) % ULONG_MOD }
    let m := { m with tx_bytes := (m.tx_bytes + tx_len) % ULONG_MOD }
    (m, some netdev_tx_t.NETDEV_TX_OK)

/-- Transmit watchdog `warpnet_tx_timeout(ndev, txqueue)`. -/
def warpnet_tx_timeout (m : World) : World :=
  let m := emit Ev.netdev_err m
  let m := netif_stop_queue m
  let m := { m with tx_errors := (m.tx_errors + 1) % ULONG_MOD }
  let m := netif_trans_update m
  let m := netif_wake_queue m
  m

/-- Timer callback `pollTimerCallback(t)`. -/
def pollTimerCallback (HZ : Nat) (m : World) : World :=
  let m := napi_schedule m
  let m := mod_timer ((m.jiffies + TMR_POLL_INTERVAL HZ) % ULONG_MOD) m
  m

/-- Kernel error numbers used by `warpnet_probe`. -/
def ENOMEM : Int := 12
/-- Kernel error number: no such device. -/
def ENODEV : Int := 19
/-- Kernel error number: I/O error. -/
def EIO : Int := 5

/-- What `warpnet_probe` gets from outside the driver: whether `alloc_etherdev` returned a
device, whether `zorro_find_device` found the Warp-CTRL card, the value `request_irq`
returned, the contents of the local buffer `warp_mac` on entry, and the address
`eth_hw_addr_random` generates. -/
structure ProbeEnv where
  alloc_ok : Bool := true
  ctrl_found : Bool := true
  request_irq_ret : Int := 0
  warp_mac : Mem := fun _ => 0
  random_addr : Mem := fun _ => 0

/-- Modelled from the spec: the kernel's `alloc_etherdev` (not under `src/`) returns a
zero-filled interface with its private data. -/
def alloc_etherdev (m : World) : World :=
  emit (Ev.call KCall.alloc_etherdev)
    { m with promisc := false, dev_addr := fun _ => 0, rx_packets := 0, rx_bytes := 0,
             tx_packets := 0, tx_bytes := 0, tx_errors := 0, trans_start := 0,
             queue_stopped := false, carrier := false, timer := none, watchdog_timeo := 0 }

/-- Modelled from the spec: the kernel's `eth_hw_addr_set(ndev, addr)` (not under `src/`)
makes the `ETH_ALEN` bytes at `addr` the interface address. -/
def eth_hw_addr_set (addr : Mem) (m : World) : World :=
  emit (Ev.call KCall.eth_hw_addr_set)
    { m with dev_addr := storeBytes m.dev_addr 0 (rdBytes addr 0 ETH_ALEN) }

/-- Modelled from the spec: the kernel's `eth_hw_addr_random(ndev)` (not under `src/`) makes
a locally generated address, here the `ETH_ALEN` bytes at `gen`, the interface address. -/
def eth_hw_addr_random (gen : Mem) (m : World) : World :=
  emit (Ev.call KCall.eth_hw_addr_random)
    { m with dev_addr := storeBytes m.dev_addr 0 (rdBytes gen 0 ETH_ALEN) }

/-- Device probe `warpnet_probe(z, id)`: final state and return value; `none` when the
address round trip never ended.  Informational log lines are not recorded. -/
def warpnet_probe (HZ : Nat) (env : ProbeEnv) (m : World) : World × Option Int :=
  if !env.alloc_ok then (m, some (-ENOMEM))
  else
    let m := alloc_etherdev m
    let m := { m with watchdog_timeo := (TX_TIMEOUT HZ : Nat) }
    -- Find Warp-CTRL Zorro device (card control registers)
    if !env.ctrl_found then
      let m := emit (Ev.call KCall.dev_err) m
      let m := emit (Ev.call KCall.free_netdev) m
      (m, some (-ENODEV))
    else
      let m := { m with promisc := false }
      let m := emit (Ev.call (KCall.netif_napi_add_weight 8)) { m with napi_sched := true }
      let m := emit (Ev.call KCall.register_netdev) m
      -- clear all IRQs and flags (ARM <-> 68k comm)
      let m := cleanupIrqAndFlags m
      let m := emit (Ev.call KCall.request_irq) m
      if env.request_irq_ret ≠ 0 then
        let m := emit Ev.netdev_err m
        let m := emit (Ev.call KCall.free_netdev) m
        (m, some (- EIO))
      else
        match ethGetMacAddress m env.warp_mac with
        | (m, none) => (m, none)
        | (m, some (warpStat, warp_mac)) =>
          let m :=
            if warpStat = WarpAmiCommStatus.wacOK then eth_hw_addr_set warp_mac m
            else eth_hw_addr_random env.random_addr (emit Ev.netdev_err m)
          -- setup polling timer
          let m := emit (Ev.call KCall.timer_setup) m
          (m, some 0)

/-- The state in which `warpnet_probe` calls `ethGetMacAddress` when the interface was
allocated, the control device found and the IRQ allocated (lines 372-414). -/
def probeQuery (HZ : Nat) (m : World) : World :=
  let m := alloc_etherdev m
  let m := { m with watchdog_timeo := (TX_TIMEOUT HZ : Nat) }
  let m := { m with promisc := false }
  let m := emit (Ev.call (KCall.netif_napi_add_weight 8)) { m with napi_sched := true }
  let m := emit (Ev.call KCall.register_netdev) m
  let m := cleanupIrqAndFlags m
  emit (Ev.call KCall.request_irq) m

/-! ## Reading traces and peer scripts -/

/-- The steps a busy-wait on `mask` consumes: up to and including the first step whose read
shows a bit of `mask` (all of them when there is none). -/
def spinPrefix (mask : Nat) : List PeerStep → List PeerStep
  | [] => []
  | p :: rest => if p.cr &&& mask = 0 then p :: spinPrefix mask rest else [p]

/-- The steps left after a busy-wait on `mask`. -/
def spinRest (mask : Nat) : List PeerStep → List PeerStep
  | [] => []
  | p :: rest => if p.cr &&& mask = 0 then spinRest mask rest else rest

/-- Whether some read of the script shows a bit of `mask`. -/
def spinOk (mask : Nat) : List PeerStep → Bool
  | [] => false
  | p :: rest => if p.cr &&& mask = 0 then spinOk mask rest else true

/-- The read events of a run of peer steps. -/
def reads (ps : List PeerStep) : List Ev := ps.map (fun p => Ev.crRead p.cr)

/-- Selects the value of a control-register write. -/
def selCrWrite : Ev → Option Nat
  | Ev.crWrite v => some v
  | _ => none

/-- Selects offset and bytes of a store into the frame window. -/
def selDpramWrite : Ev → Option (Nat × List Byte)
  | Ev.dpramWrite off bs => some (off, bs)
  | _ => none

/-- Selects the frame of a delivery. -/
def selDelivered : Ev → Option (List Byte)
  | Ev.netif_receive_skb d => some d
  | _ => none

/-- Selects the argument of a `napi_complete_done` call. -/
def selCompletion : Ev → Option Int
  | Ev.napi_complete_done n => some n
  | _ => none

/-- Values written to the control register, in order. -/
def crWrites (t : List Ev) : List Nat := t.filterMap selCrWrite

/-- The control register after the writes of the trace `t`, from the value `reg`, by the
write rule (the peer leaving it alone). -/
def dpregAfter (reg : Nat) (t : List Ev) : Nat := (crWrites t).foldl dpregWrite reg

/-- Kernel services called, in order. -/
def calls (t : List Ev) : List KCall :=
  t.filterMap (fun e => match e with | Ev.call c => some c | _ => none)

/-- Offsets and bytes of the driver's stores into the frame window, in order. -/
def dpramWrites (t : List Ev) : List (Nat × List Byte) := t.filterMap selDpramWrite

/-- Frames handed to `netif_receive_skb`, in order. -/
def delivered (t : List Ev) : List (List Byte) := t.filterMap selDelivered

/-- Arguments of the `napi_complete_done` calls, in order. -/
def completions (t : List Ev) : List Int := t.filterMap selCompletion

/-- Number of error messages logged. -/
def errors (t : List Ev) : Nat := t.count Ev.netdev_err

/-- Events a run has added: the trace of the state after it, less the trace of the state
before it. -/
def added (before after : World) : List Ev := after.trace.drop before.trace.length

/-- Peer steps consumed by one `sendMsgToArm` against the script `ps`. -/
def sendConsumed (ps : List PeerStep) (waitForReply : Bool) : List PeerStep :=
  spinPrefix DPREG_CR_MR_ARM ps ++
    (if spinOk DPREG_CR_MR_ARM ps && waitForReply
      then spinPrefix DPREG_CR_MP_68K (spinRest DPREG_CR_MR_ARM ps) else [])

/-- Peer steps left after one `sendMsgToArm` against the script `ps`. -/
def sendRest (ps : List PeerStep) (waitForReply : Bool) : List PeerStep :=
  if spinOk DPREG_CR_MR_ARM ps then
    (if waitForReply then spinRest DPREG_CR_MP_68K (spinRest DPREG_CR_MR_ARM ps)
      else spinRest DPREG_CR_MR_ARM ps)
  else []

/-- Whether one `sendMsgToArm` against the script `ps` returns. -/
def sendOk (ps : List PeerStep) (waitForReply : Bool) : Bool :=
  spinOk DPREG_CR_MR_ARM ps &&
    (!waitForReply || spinOk DPREG_CR_MP_68K (spinRest DPREG_CR_MR_ARM ps))

/-- Events of one `sendMsgToArm` against the script `ps`. -/
def sendTrace (ps : List PeerStep) (waitForReply : Bool) : List Ev :=
  Ev.crWrite (DPREG_CR_SET ||| DPREG_CR_MP_ARM ||| DPREG_CR_IE_ARM) ::
    reads (spinPrefix DPREG_CR_MR_ARM ps) ++
    (if spinOk DPREG_CR_MR_ARM ps then
      Ev.crWrite (DPREG_CR_CLR ||| DPREG_CR_MR_ARM ||| DPREG_CR_IE_ARM) ::
        (if waitForReply then
          reads (spinPrefix DPREG_CR_MP_68K (spinRest DPREG_CR_MR_ARM ps)) ++
            (if spinOk DPREG_CR_MP_68K (spinRest DPREG_CR_MR_ARM ps)
              then [Ev.crWrite (DPREG_CR_CLR ||| DPREG_CR_MP_68K)] else [])
        else [])
    else [])

/-- The state in which `ethGetMacAddress` inspects the reply: lock taken, address query
written, round trip done (lines 131-134). -/
def macRoundTrip (m : World) : World × Option WarpAmiCommStatus :=
  sendMsgToArm (dpramWrite32 OFF_header DprCmd.dpcmdEthGetMACAddr.val (spin_lock_irqsave m)) true

/-- The frame window as `warpnet_start_xmit` has it when it calls `sendMsgToArm`: the three
stores of lines 233-235 applied to the window `d`. -/
def xmitWindow (skb : List Byte) (d : Mem) : Mem :=
  storeBytes (storeBytes (storeBytes d OFF_header (enc32 DprCmd.dpcmdEthTransmit.val))
    OFF_pktSize (enc16 skb.length)) OFF_packet skb

/-- The state in which the loop body inspects the reply: lock taken, receive command
written, round trip done (lines 291-294). -/
def rxRoundTrip (m : World) : World × Option WarpAmiCommStatus :=
  sendMsgToArm (dpramWrite32 OFF_header DprCmd.dpcmdEthReceive.val (spin_lock_irqsave m)) true

/-- What a run `R` of the receive loop, entered with `rx_count` frames consumed in state `m`,
adds to the trace and does to the state. -/
def PollSummary (budget rx_count : Int) (m : World) (R : World × Option Int) : Prop :=
  ∃ t, R.1.trace = m.trace ++ t ∧
    (crWrites t).count 0x80000005 ≤ (budget - rx_count).toNat ∧
    (crWrites t).count 0x8 ≤ (budget - rx_count).toNat ∧
    (dpramWrites t).count (OFF_header, enc32 DprCmd.dpcmdEthReceive.val) ≤
      (budget - rx_count).toNat ∧
    (∀ v ∈ crWrites t, v = 0x80000005 ∨ v = 0x11 ∨ v = 0x8) ∧
    R.1.promisc = m.promisc ∧ R.1.dev_addr = m.dev_addr ∧
    R.1.tx_packets = m.tx_packets ∧ R.1.tx_bytes = m.tx_bytes ∧
    R.1.tx_errors = m.tx_errors ∧
    ∀ r, R.2 = some r →
      r = rx_count + (delivered t).length ∧
      (r ≤ budget ∨ r = rx_count) ∧
      R.1.rx_packets =
        (if (delivered t).length = 0 then m.rx_packets
         else (m.rx_packets + (delivered t).length) % ULONG_MOD) ∧
      R.1.rx_bytes =
        (if (delivered t).length = 0 then m.rx_bytes
         else (m.rx_bytes + ((delivered t).map List.length).sum) % ULONG_MOD) ∧
      completions t = (if r < budget then [r] else []) ∧
      R.1.napi_sched = (if r < budget then false else m.napi_sched)

/-- The peer script answers `n` successive waited round trips. -/
def responsive : Nat → List PeerStep → Bool
  | 0, _ => true
  | n + 1, ps => sendOk ps true && responsive n (sendRest ps true)

/-- Lock discipline of a run of events, scanned from left to right; `held` tells whether the
window lock is held.  Taking the lock while it is held, releasing it while it is not, a
store into or a load from the window or an access to the control register while it is not
held, and a delivery to `netif_receive_skb` while it is held, are violations (`none`).
Otherwise the result tells whether the lock is held at the end. -/
def lockScan : Bool → List Ev → Option Bool
  | held, [] => some held
  | held, Ev.lock :: t => if held then none else lockScan true t
  | held, Ev.unlock :: t => if held then lockScan false t else none
  | held, Ev.dpramWrite _ _ :: t => if held then lockScan true t else none
  | held, Ev.dpramRead _ _ :: t => if held then lockScan true t else none
  | held, Ev.crWrite _ :: t => if held then lockScan true t else none
  | held, Ev.crRead _ :: t => if held then lockScan true t else none
  | held, Ev.netif_receive_skb _ :: t => if held then none else lockScan false t
  | held, Ev.netdev_err :: t => lockScan held t
  | held, Ev.napi_complete_done _ :: t => lockScan held t
  | held, Ev.call _ :: t => lockScan held t

/-! ## Layout of the frame declarations (`cswarpamicommdata.h`) -/

mutual
/-- The C object types the frame declarations of `cswarpamicommdata.h` are built from. -/
inductive CType where
  | uint8_t
  | uint16_t
  | uint32_t
  | int32_t
  | char
  | array (t : CType) (n : Nat)
  | struct (fields : CFields)
  | union (members : CFields)
/-- The members of a `struct` or `union`, in declaration order, with their names. -/
inductive CFields where
  | nil
  | cons (name : String) (t : CType) (rest : CFields)
end

/-- The least multiple of `a` that is not below `x`. -/
def roundUp (x a : Nat) : Nat := (x + a - 1) / a * a

mutual
/-- Alignment of a type under `#pragma pack(pack)`: the natural alignment of a scalar (its
size) capped by `pack`; of an array that of its element; of a struct or union the largest
alignment of its members. -/
def CType.alignof (pack : Nat) : CType → Nat
  | .uint8_t => min 1 pack
  | .uint16_t => min 2 pack
  | .uint32_t => min 4 pack
  | .int32_t => min 4 pack
  | .char => min 1 pack
  | .array t _ => CType.alignof pack t
  | .struct fs => CFields.alignof pack fs
  | .union fs => CFields.alignof pack fs
/-- Largest alignment among the members. -/
def CFields.alignof (pack : Nat) : CFields → Nat
  | .nil => 1
  | .cons _ t rest => max (CType.alignof pack t) (CFields.alignof pack rest)
end

mutual
/-- Size of a type under `#pragma pack(pack)`: a struct ends after its last member, each
member placed at the next multiple of its alignment, and is padded to its own alignment; a
union is as large as its largest member, padded likewise. -/
def CType.sizeof (pack : Nat) : CType → Nat
  | .uint8_t => 1
  | .uint16_t => 2
  | .uint32_t => 4
  | .int32_t => 4
  | .char => 1
  | .array t n => n * CType.sizeof pack t
  | .struct fs => roundUp (CFields.endOffset pack 0 fs) (CFields.alignof pack fs)
  | .union fs => roundUp (CFields.maxSize pack fs) (CFields.alignof pack fs)
/-- Offset at which a struct with these members ends when the first is placed from `off`. -/
def CFields.endOffset (pack : Nat) (off : Nat) : CFields → Nat
  | .nil => off
  | .cons _ t rest =>
    CFields.endOffset pack (roundUp off (CType.alignof pack t) + CType.sizeof pack t) rest
/-- Size of the largest member. -/
def CFields.maxSize (pack : Nat) : CFields → Nat
  | .nil => 0
  | .cons _ t rest => max (CType.sizeof pack t) (CFields.maxSize pack rest)
end

/-- Offsets of the members of a struct, by name, the first placed from `off`. -/
def CFields.offsets (pack : Nat) (off : Nat) : CFields → List (String × Nat)
  | .nil => []
  | .cons name t rest =>
    (name, roundUp off (CType.alignof pack t)) ::
      CFields.offsets pack (roundUp off (CType.alignof pack t) + CType.sizeof pack t) rest

/-- The members as a list. -/
def CFields.toList : CFields → List (String × CType)
  | .nil => []
  | .cons name t rest => (name, t) :: CFields.toList rest

/-- The members of a struct or union type (none for the other types). -/
def CType.members : CType → CFields
  | .struct fs => fs
  | .union fs => fs
  | _ => .nil

/-- The packing in force for the frame declarations: `#pragma pack(2)`. -/
def PACK : Nat := 2

/-- The constant `AMICOMM_DBGMSG_LEN`. -/
def AMICOMM_DBGMSG_LEN : Nat := 256
/-- The constant `AMICOMM_PATH_LEN`. -/
def AMICOMM_PATH_LEN : Nat := 128
/-- The constant `AMICOMM_WIFI_SSID_LEN`. -/
def AMICOMM_WIFI_SSID_LEN : Nat := 128
/-- The constant `AMICOMM_WIFI_PASS_LEN`. -/
def AMICOMM_WIFI_PASS_LEN : Nat := 128
/-- The constant `DISK_MAX_DPRAM_TRANSFER`. -/
def DISK_MAX_DPRAM_TRANSFER : Nat := 7
/-- The constant `DISK_BLOCKSIZE`. -/
def DISK_BLOCKSIZE : Nat := 512

/-- The struct `DprCmdHeader`. -/
def DprCmdHeader : CType := .struct (.cons "cmd" .uint32_t .nil)

/-- The struct `DprCmdDbgMsg`. -/
def DprCmdDbgMsg : CType :=
  .struct (.cons "header" DprCmdHeader (.cons "msgType" .uint8_t
    (.cons "msg" (.array .char AMICOMM_DBGMSG_LEN) .nil)))

/-- The struct `DprCmdJpegTest`. -/
def DprCmdJpegTest : CType :=
  .struct (.cons "header" DprCmdHeader (.cons "bitsPerPixel" .uint8_t
    (.cons "fileName" (.array .char AMICOMM_PATH_LEN) .nil)))

/-- The struct `DprCmdAudioTest`. -/
def DprCmdAudioTest : CType :=
  .struct (.cons "header" DprCmdHeader (.cons "audioCmd" .uint8_t
    (.cons "volSetMask" .uint8_t (.cons "mixAmiga" .uint8_t (.cons "mixMp3" .uint8_t
    (.cons "masterVolume" .uint8_t
    (.cons "fileName" (.array .char AMICOMM_PATH_LEN) .nil)))))))

/-- The struct `DprCmdSetCpuTurbo`. -/
def DprCmdSetCpuTurbo : CType :=
  .struct (.cons "header" DprCmdHeader (.cons "turboLevel" .uint32_t .nil))

/-- The struct `DprCmdSelectKick`. -/
def DprCmdSelectKick : CType :=
  .struct (.cons "header" DprCmdHeader (.cons "kickNr" .uint8_t .nil))

/-- The struct `DprCmdIdeMode`. -/
def DprCmdIdeMode : CType :=
  .struct (.cons "header" DprCmdHeader (.cons "nativeIdeEnable" .uint8_t .nil))

/-- The struct `DprCmdIdeSpeed`. -/
def DprCmdIdeSpeed : CType :=
  .struct (.cons "header" DprCmdHeader (.cons "ataIOR_as" .uint8_t
    (.cons "ataIOR_ng" .uint8_t (.cons "ataIOW_as" .uint8_t (.cons "ataIOW_ng" .uint8_t
    (.cons "ataACK_as" .uint8_t .nil))))))

/-- The struct `DprCmdHIDMouseRes`. -/
def DprCmdHIDMouseRes : CType :=
  .struct (.cons "header" DprCmdHeader (.cons "hidMouseRes" .uint16_t .nil))

/-- The struct `DprCmdWiFiSSID`. -/
def DprCmdWiFiSSID : CType :=
  .struct (.cons "header" DprCmdHeader
    (.cons "ssid" (.array .char AMICOMM_WIFI_SSID_LEN) .nil))

/-- The struct `DprCmdWiFiPass`. -/
def DprCmdWiFiPass : CType :=
  .struct (.cons "header" DprCmdHeader
    (.cons "pass" (.array .char AMICOMM_WIFI_PASS_LEN) .nil))

/-- The struct `DprCmdTimeZoneShift`. -/
def DprCmdTimeZoneShift : CType :=
  .struct (.cons "header" DprCmdHeader (.cons "shiftSecs" .int32_t .nil))

/-- The struct `DprCmdTempReg`. -/
def DprCmdTempReg : CType :=
  .struct (.cons "header" DprCmdHeader (.cons "mc68kTemp" .int32_t
    (.cons "minPwmPercent" .int32_t .nil)))

/-- The struct `DprCmdOpenDir`. -/
def DprCmdOpenDir : CType :=
  .struct (.cons "header" DprCmdHeader (.cons "path" (.array .char AMICOMM_PATH_LEN) .nil))

/-- The struct `DprCmdDiskReadBlocks`. -/
def DprCmdDiskReadBlocks : CType :=
  .struct (.cons "header" DprCmdHeader (.cons "blockAddr" .uint32_t
    (.cons "readBlocksCnt" .uint32_t (.cons "dmaDdrAddr" .uint32_t
    (.cons "dmaEnable" .uint8_t (.cons "diskNr" .uint8_t .nil))))))

/-- The struct `DprCmdDiskWriteBlocks`. -/
def DprCmdDiskWriteBlocks : CType :=
  .struct (.cons "header" DprCmdHeader (.cons "blockAddr" .uint32_t
    (.cons "writeBlocksCnt" .uint32_t
    (.cons "data" (.array .uint8_t (DISK_MAX_DPRAM_TRANSFER * DISK_BLOCKSIZE))
    (.cons "dmaDdrAddr" .uint32_t (.cons "dmaEnable" .uint8_t
    (.cons "diskNr" .uint8_t .nil)))))))

/-- The struct `DprCmdEthSend`. -/
def DprCmdEthSend : CType :=
  .struct (.cons "header" DprCmdHeader (.cons "pktSize" .uint16_t
    (.cons "packet" (.array .uint8_t ETH_MTU_AND_HDR_SIZE) .nil)))

/-- The union `DprCmdFrame`, the command frame. -/
def DprCmdFrame : CType :=
  .union (.cons "header" DprCmdHeader (.cons "dbgMsg" DprCmdDbgMsg
    (.cons "jpegTest" DprCmdJpegTest (.cons "audioTest" DprCmdAudioTest
    (.cons "setCpuTurbo" DprCmdSetCpuTurbo (.cons "kickSel" DprCmdSelectKick
    (.cons "ideMode" DprCmdIdeMode (.cons "ideSpeed" DprCmdIdeSpeed
    (.cons "hidMouseRes" DprCmdHIDMouseRes (.cons "wifiSSID" DprCmdWiFiSSID
    (.cons "wifiPass" DprCmdWiFiPass (.cons "tempReg" DprCmdTempReg
    (.cons "timeZone" DprCmdTimeZoneShift (.cons "openDir" DprCmdOpenDir
    (.cons "diskRead" DprCmdDiskReadBlocks (.cons "diskWrite" DprCmdDiskWriteBlocks
    (.cons "ethSend" DprCmdEthSend .nil)))))))))))))))))

/-- The struct `DprRplHeader`. -/
def DprRplHeader : CType := .struct (.cons "rpl" .uint32_t .nil)

/-- The struct `DprRplEthRecv`. -/
def DprRplEthRecv : CType :=
  .struct (.cons "header" DprRplHeader (.cons "pktSize" .uint16_t
    (.cons "packet" (.array .uint8_t ETH_MTU_AND_HDR_SIZE) .nil)))

/-- The struct `DprRplEthMACAddr`. -/
def DprRplEthMACAddr : CType :=
  .struct (.cons "header" DprRplHeader (.cons "mac" (.array .uint8_t ETH_MAC_SIZE) .nil))

/-! ## Frame buffer driver (`amiwarpfb.c`, `amiwarpfb.h`)

`u32`, `u_int` and `u_long` are 32 bits wide on m68k; their arithmetic is written with an
explicit `% 4294967296`. -/

/-- The enum `CSScrMode` of `cswarpdefs.h`. -/
inductive CSScrMode where
  | SCR_320x256 | SCR_320x512 | SCR_640x256 | SCR_640x512 | SCR_1280x256 | SCR_1280x512
  | SCR_320x240 | SCR_640x480 | SCR_400x300 | SCR_800x600 | SCR_1024x768 | SCR_1280x720
  | SCR_1280x1024 | SCR_1920x1080
  deriving DecidableEq

/-- Modelled from the spec: the kernel's `struct fb_bitfield` (`uapi/linux/fb.h`, not under
`src/`). -/
structure fb_bitfield where
  offset : Nat := 0
  length : Nat := 0
  msb_right : Nat := 0
  deriving DecidableEq

/-- Modelled from the spec: the fields of the kernel's `struct fb_var_screeninfo`
(`uapi/linux/fb.h`, not under `src/`) that the driver reads or writes; all are `__u32`. -/
structure fb_var_screeninfo where
  xres : Nat := 0
  yres : Nat := 0
  xres_virtual : Nat := 0
  yres_virtual : Nat := 0
  xoffset : Nat := 0
  yoffset : Nat := 0
  bits_per_pixel : Nat := 0
  grayscale : Nat := 0
  red : fb_bitfield := {}
  green : fb_bitfield := {}
  blue : fb_bitfield := {}
  transp : fb_bitfield := {}
  vmode : Nat := 0
  deriving DecidableEq

/-- Modelled from the spec: the fields of the kernel's `struct fb_fix_screeninfo` that the
three functions below read. -/
structure fb_fix_screeninfo where
  visual : Nat := 0
  line_length : Nat := 0
  deriving DecidableEq

/-- The frame buffer device as the functions below see it: `info->var`, `info->fix`, the
table `info->pseudo_palette` (`par->pseudo_col`, 16 entries), the colour look-up table
`clut` (256 hardware registers) and the registers `disp_addr` and `disp_mcr` of
`par->mregs`. -/
structure fb_info where
  var : fb_var_screeninfo := {}
  fix : fb_fix_screeninfo := {}
  pseudo_palette : Nat → Nat := fun _ => 0
  clut : Nat → Nat := fun _ => 0
  disp_addr : Nat := 0
  disp_mcr : Nat := 0

/-- Kernel constant `FB_VISUAL_TRUECOLOR` (`uapi/linux/fb.h`, not under `src/`). -/
def FB_VISUAL_TRUECOLOR : Nat := 2
/-- Kernel constant `FB_VISUAL_PSEUDOCOLOR`. -/
def FB_VISUAL_PSEUDOCOLOR : Nat := 3
/-- Kernel constant `FB_VISUAL_DIRECTCOLOR`. -/
def FB_VISUAL_DIRECTCOLOR : Nat := 4
/-- Kernel constant `FB_VMODE_NONINTERLACED`. -/
def FB_VMODE_NONINTERLACED : Nat := 0
/-- Kernel constant `FB_VMODE_YWRAP`. -/
def FB_VMODE_YWRAP : Nat := 256
/-- Kernel constant `FB_VMODE_CONUPDATE`. -/
def FB_VMODE_CONUPDATE : Nat := 512
/-- Kernel error number: invalid argument. -/
def EINVAL : Int := 22

/-- The constant `VIDEOMEMSIZE` (24 MB). -/
def VIDEOMEMSIZE : Nat := 24 * 1024 * 1024

/-- The variable `videomemorysize`; the driver never assigns it after its initialisation. -/
def videomemorysize : Nat := VIDEOMEMSIZE

/-- Modelled from the spec: the fields of the kernel's `struct fb_videomode` (`linux/fb.h`,
not under `src/`), in the order of the initialisers of `vid_modedb`. -/
structure fb_videomode where
  name : String
  refresh : Nat
  xres : Nat
  yres : Nat
  pixclock : Nat
  left_margin : Nat
  right_margin : Nat
  upper_margin : Nat
  lower_margin : Nat
  hsync_len : Nat
  vsync_len : Nat
  sync : Nat
  vmode : Nat

/-- The table `vid_modedb` of predefined video modes. -/
def vid_modedb : List fb_videomode :=
  [ ⟨"640x480p@75", 75, 640, 480, 31700, 16, 120, 1, 16, 64, 3, 0, FB_VMODE_NONINTERLACED⟩,
    ⟨"800x600p@60", 60, 800, 600, 25000, 40, 88, 1, 23, 128, 4, 0, FB_VMODE_NONINTERLACED⟩,
    ⟨"1024x768p@60", 60, 1024, 768, 15400, 24, 160, 3, 29, 136, 6, 0, FB_VMODE_NONINTERLACED⟩,
    ⟨"1280x720p@60", 60, 1280, 720, 13500, 110, 220, 5, 20, 40, 5, 0, FB_VMODE_NONINTERLACED⟩,
    ⟨"1280x1024p@60", 60, 1280, 1024, 9300, 48, 248, 1, 38, 112, 3, 0,
      FB_VMODE_NONINTERLACED⟩ ]

/-- The function `getCSGfxMode(var)` of `amiwarpfb.h`. -/
def getCSGfxMode (var : fb_var_screeninfo) : CSScrMode :=
  let mode := CSScrMode.SCR_640x480
  let mode := if var.xres = 640 ∧ var.yres = 480 then CSScrMode.SCR_640x480 else mode
  let mode := if var.xres = 800 ∧ var.yres = 600 then CSScrMode.SCR_800x600 else mode
  let mode := if var.xres = 1024 ∧ var.yres = 768 then CSScrMode.SCR_1024x768 else mode
  let mode := if var.xres = 1280 ∧ var.yres = 720 then CSScrMode.SCR_1280x720 else mode
  let mode := if var.xres = 1280 ∧ var.yres = 1024 then CSScrMode.SCR_1280x1024 else mode
  mode

/-- The function `get_line_length(xres_virtual, bpp)`: the product is taken in 32 bits (the
bits of the `int` product, stored in a `u_long`), rounded up to a multiple of 32 and divided
by 8. -/
def get_line_length (xres_virtual bpp : Nat) : Nat :=
  let length := (xres_virtual * bpp) % 4294967296
  let length := ((length + 31) % 4294967296) &&& 0xFFFFFFE0
  length >>> 3

/-- The first `switch` of `warpfb_check_var` (lines 402-427): the resolution of the mode
`getCSGfxMode` found. -/
def check_var_resolution (var : fb_var_screeninfo) : fb_var_screeninfo :=
  match getCSGfxMode var with
  | CSScrMode.SCR_640x480 => { var with xres := 640, yres := 480 }
  | CSScrMode.SCR_800x600 => { var with xres := 800, yres := 600 }
  | CSScrMode.SCR_1024x768 => { var with xres := 1024, yres := 768 }
  | CSScrMode.SCR_1280x720 => { var with xres := 1280, yres := 720 }
  | CSScrMode.SCR_1280x1024 => { var with xres := 1280, yres := 1024 }
  | _ => { var with xres := 640, yres := 480 }

/-- The second `switch` of `warpfb_check_var` (lines 472-521) and the four assignments of
`msb_right` after it: the colour layout for the depth. -/
def check_var_colour (var : fb_var_screeninfo) : fb_var_screeninfo :=
  let var :=
    if var.bits_per_pixel = 1 ∨ var.bits_per_pixel = 8 then
      { var with red := { var.red with offset := 0, length := 8 },
                 green := { var.green with offset := 0, length := 8 },
                 blue := { var.blue with offset := 0, length := 8 },
                 transp := { var.transp with offset := 0, length := 0 } }
    else if var.bits_per_pixel = 16 then
      -- RGB 565
      { var with red := { var.red with offset := 11, length := 5 },
                 green := { var.green with offset := 5, length := 6 },
                 blue := { var.blue with offset := 0, length := 5 },
                 transp := { var.transp with offset := 0, length := 0 } }
    else if var.bits_per_pixel = 24 then
      -- RGB 888
      { var with red := { var.red with offset := 8, length := 8 },
                 green := { var.green with offset := 16, length := 8 },
                 blue := { var.blue with offset := 24, length := 8 },
                 transp := { var.transp with offset := 0, length := 0 } }
    else if var.bits_per_pixel = 32 then
      -- RGBA 8888
      { var with red := { var.red with offset := 8, length := 8 },
                 green := { var.green with offset := 16, length := 8 },
                 blue := { var.blue with offset := 24, length := 8 },
                 transp := { var.transp with offset := 0, length := 0 } }
    else var
  { var with red := { var.red with msb_right := 0 },
             green := { var.green with msb_right := 0 },
             blue := { var.blue with msb_right := 0 },
             transp := { var.transp with msb_right := 0 } }

/-- The part of `warpfb_check_var` after the depth has been rounded (lines 455-525). -/
def check_var_memory (var : fb_var_screeninfo) : fb_var_screeninfo × Int :=
  let var :=
    if var.xres_virtual < (var.xoffset + var.xres) % 4294967296 then
      { var with xres_virtual := (var.xoffset + var.xres) % 4294967296 }
    else var
  let var :=
    if var.yres_virtual < (var.yoffset + var.yres) % 4294967296 then
      { var with yres_virtual := (var.yoffset + var.yres) % 4294967296 }
    else var
  -- Memory limit
  let line_length := get_line_length var.xres_virtual var.bits_per_pixel
  if (line_length * var.yres_virtual) % 4294967296 > videomemorysize then
    (var, - ENOMEM)
  else
    (check_var_colour var, 0)

/-- The part of `warpfb_check_var` before the depth is looked at (lines 398-444). -/
def check_var_virtual (var : fb_var_screeninfo) (info : fb_info) : fb_var_screeninfo :=
  let var := check_var_resolution var
  let var :=
    if var.vmode &&& FB_VMODE_CONUPDATE ≠ 0 then
      { var with xoffset := info.var.xoffset, yoffset := info.var.yoffset }
    else var
  -- Some checks
  let var := if var.xres > var.xres_virtual then { var with xres_virtual := var.xres } else var
  let var := if var.yres > var.yres_virtual then { var with yres_virtual := var.yres } else var
  var

/-- Mode check `warpfb_check_var(var, info)`: the adjusted `*var` and the return value. -/
def warpfb_check_var (var : fb_var_screeninfo) (info : fb_info) : fb_var_screeninfo × Int :=
  let var := check_var_virtual var info
  if var.bits_per_pixel ≤ 8 then check_var_memory { var with bits_per_pixel := 8 }
  else if var.bits_per_pixel ≤ 16 then check_var_memory { var with bits_per_pixel := 16 }
  else if var.bits_per_pixel ≤ 32 then check_var_memory { var with bits_per_pixel := 32 }
  else (var, - EINVAL)

/-- The macro `CNVT_TOHW(val, width)` in `u_int` arithmetic:
`((val << width) + 0x7FFF - val) >> 16`. -/
def CNVT_TOHW (val width : Nat) : Nat :=
  (((val <<< width) % 4294967296 + 0x7FFF + (4294967296 - val % 4294967296)) % 4294967296) >>> 16

/-- The gray level `(red * 77 + green * 151 + blue * 28) >> 8` of `warpfb_setcolreg`. -/
def gray_level (red green blue : Nat) : Nat :=
  ((red * 77 + green * 151 + blue * 28) % 4294967296) >>> 8

/-- Colour register `warpfb_setcolreg(regno, red, green, blue, transp, info)`: the device
afterwards and the return value. -/
def warpfb_setcolreg (regno red green blue transp : Nat) (info : fb_info) : fb_info × Int :=
  if regno ≥ 256 then (info, 1)
  else
    -- grayscale works only partially under directcolor
    let gray := gray_level red green blue
    let red := if info.var.grayscale ≠ 0 then gray else red
    let green := if info.var.grayscale ≠ 0 then gray else green
    let blue := if info.var.grayscale ≠ 0 then gray else blue
    let pseudo := info.fix.visual = FB_VISUAL_PSEUDOCOLOR
    let red := if pseudo then red >>> 8 else red
    let green := if pseudo then green >>> 8 else green
    let blue := if pseudo then blue >>> 8 else blue
    let c := (red <<< 16) % 4294967296 ||| (green <<< 8) % 4294967296 ||| blue
    let info := if pseudo then { info with clut := Function.update info.clut regno c } else info
    let conv : Option (Nat × Nat × Nat × Nat) :=
      if info.fix.visual = FB_VISUAL_TRUECOLOR ∨ info.fix.visual = FB_VISUAL_PSEUDOCOLOR then
        some (info.var.red.length, info.var.green.length, info.var.blue.length,
          info.var.transp.length)
      else if info.fix.visual = FB_VISUAL_DIRECTCOLOR then some (8, 8, 8, 8)
      else none
    let red := match conv with | some w => CNVT_TOHW red w.1 | none => red
    let green := match conv with | some w => CNVT_TOHW green w.2.1 | none => green
    let blue := match conv with | some w => CNVT_TOHW blue w.2.2.1 | none => blue
    let transp := match conv with | some w => CNVT_TOHW transp w.2.2.2 | none => transp
    -- Truecolor has hardware independent palette
    if info.fix.visual = FB_VISUAL_TRUECOLOR then
      if regno ≥ 16 then (info, 1)
      else
        let v := (red <<< info.var.red.offset) % 4294967296 |||
          (green <<< info.var.green.offset) % 4294967296 |||
          (blue <<< info.var.blue.offset) % 4294967296 |||
          (transp <<< info.var.transp.offset) % 4294967296
        if info.var.bits_per_pixel = 16 ∨ info.var.bits_per_pixel = 24 ∨
            info.var.bits_per_pixel = 32 then
          ({ info with pseudo_palette := Function.update info.pseudo_palette regno v }, 0)
        else (info, 0)
    else (info, 0)

/-- Panning `warpfb_pan_display(var, info)`: the device afterwards, the counter
`stat_hw_pan_calls` afterwards and the return value. -/
def warpfb_pan_display (var : fb_var_screeninfo) (info : fb_info) (stat_hw_pan_calls : Nat) :
    fb_info × Nat × Int :=
  let stat_hw_pan_calls := (stat_hw_pan_calls + 1) % 4294967296
  if (var.xoffset + info.var.xres) % 4294967296 > info.var.xres_virtual ∨
      (var.yoffset + info.var.yres) % 4294967296 > info.var.yres_virtual then
    (info, stat_hw_pan_calls, - EINVAL)
  else
    let info := { info with var := { info.var with xoffset := var.xoffset } }
    let info := { info with var := { info.var with yoffset := var.yoffset } }
    -- YWARP is not supported
    let info := { info with
      var := { info.var with vmode := info.var.vmode &&& (0xFFFFFFFF ^^^ FB_VMODE_YWRAP) } }
    -- set panning in hardware
    let bppix := info.var.bits_per_pixel >>> 3
    let bpr := info.fix.line_length
    let xWordOffsetRounded := (((var.xoffset * bppix) % 4294967296 + 8) % 4294967296) >>> 4
    -- add xy offsets
    let dispWordOffset :=
      ((((info.var.xoffset * bpr) % 4294967296) >>> 4) + xWordOffsetRounded) % 4294967296
    -- set screen display start offset
    let info := { info with disp_addr := dispWordOffset }
    -- set screen words-per-row
    let mcr := info.disp_mcr
    let mcr := mcr &&& (0xFFFFFFFF ^^^ ((0x3ff <<< 22) % 4294967296))
    let mcr := mcr ||| (((bpr >>> 4) <<< 22) % 4294967296)
    let info := { info with disp_mcr := mcr }
    (info, stat_hw_pan_calls, 0)

/-! ## Concrete peers and states used as test inputs -/

/-- A read that shows no flag. -/
def exIdle : PeerStep := { cr := 0 }

/-- The peer acknowledges the command: the read shows message-received (bit 4). -/
def exAck : PeerStep := { cr := 0x10 }

/-- The peer stores the bytes `bs` at the start of the window and raises
message-pending-to-host (bit 3). -/
def exReply (bs : List Byte) : PeerStep :=
  { cr := 0x8, wr := (List.range bs.length).zip bs }

/-- A state whose peer answers one round trip with the reply `dprplARMInfo` (9). -/
def exWrongReply : World :=
  { peer := [exIdle, exAck, exIdle, exReply [0, 0, 0, 9, 0, 0, 0, 1, 0, 0, 0, 2]] }

/-- A reply `dprplEthMACAddr` (11) carrying the address `02:00:00:00:00:07`. -/
def exMacReply : List Byte := [0, 0, 0, 11, 2, 0, 0, 0, 0, 7]

/-- A state whose peer idles, acknowledges, idles, then stores `exMacReply` and raises
message-pending-to-host. -/
def exRoundTrip : World :=
  { peer := [exIdle, exAck, exIdle, exReply exMacReply] }

/-- An outbound packet of 8 bytes. -/
def exSkb : List Byte := [2, 0, 0, 0, 0, 1, 0xaa, 0x55]

/-- A state with 41 packets and 1000 bytes sent whose peer idles, then acknowledges. -/
def exXmit : World := { tx_packets := 41, tx_bytes := 1000, peer := [exIdle, exAck, exIdle] }

/-- What probe gets from outside: everything succeeds, the local buffer holds `0xee` bytes
and the generated address is `06:01:02:03:04:05`. -/
def exProbeEnv : ProbeEnv :=
  { warp_mac := fun _ => 0xee,
    random_addr := fun i => if i = 0 then 6 else if i < 6 then Fin.ofNat i else 0 }

/-- The peer raises message-pending-to-host after storing only behind the discriminant. -/
def exStaleStep : PeerStep := { cr := 0x8, wr := [(4, 0), (5, 8), (6, 0xff)] }

/-- A state whose peer acknowledges and answers without rewriting the discriminant. -/
def exStale : World := { peer := [exAck, exStaleStep] }

/-- A receive reply carrying an 8-byte frame addressed to the broadcast address. -/
def exFrameBcast : List Byte :=
  [0, 0, 0, 10, 0, 8, 0xff, 0xff, 0xff, 0xff, 0xff, 0xff, 1, 2]

/-- A receive reply carrying an 8-byte frame addressed to `02:00:00:00:00:01`. -/
def exFrameOther : List Byte :=
  [0, 0, 0, 10, 0, 8, 2, 0, 0, 0, 0, 1, 3, 4]

/-- A receive reply with payload length zero. -/
def exNoFrame : List Byte := [0, 0, 0, 10, 0, 0]

/-- An interface with address `00:00:00:00:00:00`, promiscuous mode off, whose peer answers
three receive round trips: a broadcast frame, a frame for another station, no frame. -/
def exRx : World :=
  { peer := [exIdle, exAck, exIdle, exReply exFrameBcast, exAck, exReply exFrameOther,
             exAck, exReply exNoFrame] }

/-- The same interface and peer in promiscuous mode. -/
def exRxPromisc : World := { exRx with promisc := true }

/-- A peer that answers the first receive round trip with a broadcast frame, while the
next call of `netdev_alloc_skb` returns NULL. -/
def exAllocFail : World :=
  { peer := [exAck, exReply exFrameBcast, exAck, exReply exNoFrame], skb_allocs := [false] }

/-- A peer that answers the first receive round trip with a frame for another station. -/
def exFiltered : World := { peer := [exAck, exReply exFrameOther] }

/-- A peer that answers the first receive round trip with payload length zero. -/
def exEmpty : World := { peer := [exAck, exReply exNoFrame] }

/-- A peer that answers the first receive round trip with a broadcast frame. -/
def exOneFrame : World := { peer := [exAck, exReply exFrameBcast] }

/-- A register read that shows the packet-arrived flag (bit 9) with the receive interrupt
enabled (bit 6). -/
def exIrqStep : PeerStep := { cr := 0x240 }

/-- An idle interface (no poll scheduled) whose next two register reads show the
packet-arrived flag. -/
def exIrq : World :=
  { napi_sched := false, peer := [exIrqStep, exIrqStep] }

/-- An interface whose next register read shows no packet-arrived flag. -/
def exIrqNone : World :=
  { napi_sched := false, peer := [{ cr := 0x40 }] }

/-- A peer that never acknowledges: five reads, none showing message-received. -/
def exSilent : World := { peer := [exIdle, exIdle, exIdle, exIdle, exIdle] }

/-! ## Frame buffer test inputs -/

/-- A request for 800x600 at 16 bits per pixel. -/
def exVar800 : fb_var_screeninfo := { xres := 800, yres := 600, bits_per_pixel := 16 }

/-- A 640x480 mode at 16 bits per pixel with a virtual screen of 960 lines, as
`warpfb_check_var` adjusts it; truecolor, 1280 bytes per line. -/
def exInfo565 : fb_info :=
  { var := (warpfb_check_var
      { xres := 640, yres := 480, yres_virtual := 960, bits_per_pixel := 16 } {}).1,
    fix := { visual := FB_VISUAL_TRUECOLOR, line_length := 1280 } }

/-- The same mode requested with `grayscale` set. -/
def exInfo565Gray : fb_info :=
  { var := (warpfb_check_var
      { xres := 640, yres := 480, yres_virtual := 960, bits_per_pixel := 16,
        grayscale := 1 } {}).1,
    fix := { visual := FB_VISUAL_TRUECOLOR, line_length := 1280 } }

/-- A 640x480 mode at 8 bits per pixel, pseudocolor, 640 bytes per line. -/
def exInfoPseudo : fb_info :=
  { var := (warpfb_check_var { xres := 640, yres := 480, bits_per_pixel := 8 } {}).1,
    fix := { visual := FB_VISUAL_PSEUDOCOLOR, line_length := 640 } }

/-- The same mode requested with `grayscale` set. -/
def exInfoPseudoGray : fb_info :=
  { var := (warpfb_check_var
      { xres := 640, yres := 480, bits_per_pixel := 8, grayscale := 1 } {}).1,
    fix := { visual := FB_VISUAL_PSEUDOCOLOR, line_length := 640 } }

/-- A request for 1024x768 at 32 bits per pixel with a virtual screen of 1048576 lines. -/
def exVarTall : fb_var_screeninfo :=
  { xres := 1024, yres := 768, xres_virtual := 1024, yres_virtual := 1048576,
    bits_per_pixel := 32 }

/-- A request for 640x480 at 16 bits per pixel with `xoffset` `0xFFFFFFFF`. -/
def exVarFar : fb_var_screeninfo :=
  { xres := 640, yres := 480, xoffset := 0xFFFFFFFF, bits_per_pixel := 16 }
/-! ## The transport: closed form of `sendMsgToArm` -/

open WarpAmiCommStatus DprCmd DprRpl

theorem busyWait_eq (mask : Nat) (ps : List PeerStep) (m : World) :
    busyWait mask m ps =
      ({ m with dpram := peerWrites (spinPrefix mask ps) m.dpram,
                trace := m.trace ++ reads (spinPrefix mask ps),
                peer := spinRest mask ps }, spinOk mask ps) := by
  induction ps generalizing m with
  | nil => simp [busyWait, spinPrefix, spinRest, spinOk, peerWrites, reads]
  | cons p rest ih =>
    by_cases h : p.cr &&& mask = 0
    · simp [busyWait, spinPrefix, spinRest, spinOk, h, ih, peerWrites, reads, emit]
    · simp [busyWait, spinPrefix, spinRest, spinOk, h, peerWrites, reads, emit]

theorem peerWrites_append (a b : List PeerStep) (d : Mem) :
    peerWrites (a ++ b) d = peerWrites b (peerWrites a d) := by
  simp [peerWrites]

theorem spinRest_of_not_ok (mask : Nat) (ps : List PeerStep) (h : spinOk mask ps = false) :
    spinRest mask ps = [] := by
  induction ps with
  | nil => rfl
  | cons p rest ih =>
    by_cases hp : p.cr &&& mask = 0
    · simp [spinOk, hp] at h
      simp [spinRest, hp, ih h]
    · simp [spinOk, hp] at h

theorem sendMsgToArm_eq (m : World) (w : Bool) :
    sendMsgToArm m w =
      ({ m with dpram := peerWrites (sendConsumed m.peer w) m.dpram,
                trace := m.trace ++ sendTrace m.peer w,
                peer := sendRest m.peer w },
        if sendOk m.peer w then some wacOK else none) := by
  unfold sendMsgToArm
  simp only [spin, busyWait_eq, crWrite, emit]
  cases h1 : spinOk DPREG_CR_MR_ARM m.peer <;> cases w <;>
    simp [sendConsumed, sendRest, sendOk, sendTrace, h1, peerWrites, busyWait_eq]
  · exact spinRest_of_not_ok _ _ h1
  · exact spinRest_of_not_ok _ _ h1
  · cases h2 : spinOk DPREG_CR_MP_68K (spinRest DPREG_CR_MR_ARM m.peer) <;> simp

theorem spin_split (mask : Nat) (ps : List PeerStep) (h : spinOk mask ps = true) :
    ∃ pre p, spinPrefix mask ps = pre ++ [p] ∧ (∀ q ∈ pre, q.cr &&& mask = 0) ∧
      p.cr &&& mask ≠ 0 ∧ ps = pre ++ p :: spinRest mask ps := by
  induction ps with
  | nil => simp [spinOk] at h
  | cons p rest ih =>
    by_cases hp : p.cr &&& mask = 0
    · simp [spinOk, hp] at h
      obtain ⟨pre, q, h1, h2, h3, h4⟩ := ih h
      refine ⟨p :: pre, q, ?_, ?_, h3, ?_⟩
      · simp [spinPrefix, hp, h1]
      · intro x hx
        rcases List.mem_cons.mp hx with rfl | hx
        · exact hp
        · exact h2 x hx
      · simp only [spinRest, hp, if_true, List.cons_append]
        rw [← h4]
    · exact ⟨[], p, by simp [spinPrefix, hp], by simp, hp, by simp [spinRest, hp]⟩

theorem spin_of_split (mask : Nat) (pre : List PeerStep) (p : PeerStep) (post : List PeerStep)
    (hpre : ∀ q ∈ pre, q.cr &&& mask = 0) (hp : p.cr &&& mask ≠ 0) :
    spinOk mask (pre ++ p :: post) = true ∧ spinPrefix mask (pre ++ p :: post) = pre ++ [p] ∧
      spinRest mask (pre ++ p :: post) = post := by
  induction pre with
  | nil => simp [spinOk, spinPrefix, spinRest, hp]
  | cons q pre ih =>
    have hq : q.cr &&& mask = 0 := hpre q (List.mem_cons_self _ _)
    have ih2 := ih (fun x hx => hpre x (List.mem_cons_of_mem _ hx))
    simp [spinOk, spinPrefix, spinRest, hq, ih2]

theorem filterMap_reads {α : Type} (f : Ev → Option α) (hf : ∀ v, f (Ev.crRead v) = none)
    (ps : List PeerStep) : (reads ps).filterMap f = [] := by
  induction ps with
  | nil => rfl
  | cons p rest ih =>
    simp only [reads, List.map_cons, List.filterMap_cons, hf]
    exact ih

theorem crWrites_reads (ps : List PeerStep) : crWrites (reads ps) = [] :=
  filterMap_reads _ (fun _ => rfl) ps

theorem dpramWrites_reads (ps : List PeerStep) : dpramWrites (reads ps) = [] :=
  filterMap_reads _ (fun _ => rfl) ps

theorem delivered_reads (ps : List PeerStep) : delivered (reads ps) = [] :=
  filterMap_reads _ (fun _ => rfl) ps

theorem completions_reads (ps : List PeerStep) : completions (reads ps) = [] :=
  filterMap_reads _ (fun _ => rfl) ps

theorem crWrites_nil : crWrites [] = [] := rfl

theorem dpramWrites_nil : dpramWrites [] = [] := rfl

theorem delivered_nil : delivered [] = [] := rfl

theorem completions_nil : completions [] = [] := rfl

theorem crWrites_append (a b : List Ev) : crWrites (a ++ b) = crWrites a ++ crWrites b := by
  simp [crWrites]

theorem crWrites_cons (e : Ev) (t : List Ev) :
    crWrites (e :: t) = (selCrWrite e).toList ++ crWrites t := by
  cases h : selCrWrite e <;> simp [crWrites, List.filterMap_cons, h]

theorem dpramWrites_append (a b : List Ev) :
    dpramWrites (a ++ b) = dpramWrites a ++ dpramWrites b := by
  simp [dpramWrites]

theorem dpramWrites_cons (e : Ev) (t : List Ev) :
    dpramWrites (e :: t) = (selDpramWrite e).toList ++ dpramWrites t := by
  cases h : selDpramWrite e <;> simp [dpramWrites, List.filterMap_cons, h]

theorem delivered_append (a b : List Ev) : delivered (a ++ b) = delivered a ++ delivered b := by
  simp [delivered]

theorem delivered_cons (e : Ev) (t : List Ev) :
    delivered (e :: t) = (selDelivered e).toList ++ delivered t := by
  cases h : selDelivered e <;> simp [delivered, List.filterMap_cons, h]

theorem completions_append (a b : List Ev) :
    completions (a ++ b) = completions a ++ completions b := by
  simp [completions]

theorem completions_cons (e : Ev) (t : List Ev) :
    completions (e :: t) = (selCompletion e).toList ++ completions t := by
  cases h : selCompletion e <;> simp [completions, List.filterMap_cons, h]

theorem crWrites_sendTrace (ps : List PeerStep) (w : Bool) (h : sendOk ps w = true) :
    crWrites (sendTrace ps w) =
      if w then [0x80000005, 0x11, 0x8] else [0x80000005, 0x11] := by
  have hA : DPREG_CR_SET ||| DPREG_CR_MP_ARM ||| DPREG_CR_IE_ARM = 0x80000005 := by decide
  have hB : DPREG_CR_CLR ||| DPREG_CR_MR_ARM ||| DPREG_CR_IE_ARM = 0x11 := by decide
  have hC : DPREG_CR_CLR ||| DPREG_CR_MP_68K = 0x8 := by decide
  simp only [sendOk, Bool.and_eq_true, Bool.or_eq_true, Bool.not_eq_true'] at h
  obtain ⟨h1, h2⟩ := h
  cases w with
  | false =>
    simp [sendTrace, h1, crWrites_append, crWrites_cons, crWrites_reads, crWrites_nil,
      selCrWrite, hA, hB]
  | true =>
    simp at h2
    simp [sendTrace, h1, h2, crWrites_append, crWrites_cons, crWrites_reads, crWrites_nil,
      selCrWrite, hA, hB, hC]

theorem dpramWrites_sendTrace (ps : List PeerStep) (w : Bool) :
    dpramWrites (sendTrace ps w) = [] := by
  unfold sendTrace
  split_ifs <;>
    simp [dpramWrites_append, dpramWrites_cons, dpramWrites_reads, dpramWrites_nil, selDpramWrite]

theorem memcmpList_eq_zero : ∀ (xs ys : List Byte), xs.length = ys.length →
    (memcmpList xs ys = 0 ↔ xs = ys)
  | [], [], _ => by simp [memcmpList]
  | [], _ :: _, h => by simp at h
  | _ :: _, [], h => by simp at h
  | x :: xs, y :: ys, h => by
    have ih := memcmpList_eq_zero xs ys (by simpa using h)
    by_cases hxy : x = y
    · simp [memcmpList, hxy, ih]
    · have hv : x.val ≠ y.val := fun hc => hxy (Fin.ext hc)
      simp only [memcmpList, hxy, if_false, List.cons.injEq, false_and, iff_false]
      omega

theorem rdBytes_length (d : Mem) (off n : Nat) : (rdBytes d off n).length = n := by
  simp [rdBytes]

theorem memcmp_eq_zero (a b : Mem) (n : Nat) :
    memcmp a b n = 0 ↔ rdBytes a 0 n = rdBytes b 0 n := by
  unfold memcmp
  exact memcmpList_eq_zero _ _ (by simp [rdBytes_length])

theorem rdBytes_shift (d : Mem) (off n : Nat) :
    rdBytes (fun i => d (off + i)) 0 n = rdBytes d off n := by
  simp [rdBytes]

theorem rdBytes_bcast (n : Nat) : rdBytes bcast_addr 0 n = List.replicate n 0xff := by
  apply List.ext_getElem
  · simp [rdBytes]
  · intro i h1 h2
    simp [rdBytes, bcast_addr]

theorem rxRoundTrip_eq (m : World) :
    rxRoundTrip m =
      ({ m with dpram := peerWrites (sendConsumed m.peer true)
                  (storeBytes m.dpram OFF_header (enc32 dpcmdEthReceive.val)),
                trace := m.trace ++
                  (Ev.lock :: Ev.dpramWrite OFF_header (enc32 dpcmdEthReceive.val) ::
                    sendTrace m.peer true),
                peer := sendRest m.peer true },
        if sendOk m.peer true then some wacOK else none) := by
  unfold rxRoundTrip
  rw [sendMsgToArm_eq]
  simp [dpramWrite32, spin_lock_irqsave, emit]

theorem pollBody_unfold (m : World) :
    pollBody m =
      match rxRoundTrip m with
      | (m, none) => (m, none)
      | (m, some _) =>
        let m := emit (Ev.dpramRead OFF_header 4) m
        if rd32 m.dpram OFF_header ≠ DprRpl.dprplEthReceive.val then
          let m := spin_unlock_irqrestore m
          let m := emit Ev.netdev_err m
          (m, some LoopCtl.brk)
        else
          let m := emit (Ev.dpramRead OFF_pktSize 2) m
          let rx_len := rd16 m.dpram OFF_pktSize
          if rx_len = 0 then
            (spin_unlock_irqrestore m, some LoopCtl.brk)
          else
            match dstFilter m with
            | (m, true) =>
              (spin_unlock_irqrestore m, some LoopCtl.brk)
            | (m, false) =>
              match netdev_alloc_skb m with
              | (m, false) => (emit (Ev.call KCall.null_deref) m, none)
              | (m, true) =>
                let m := emit (Ev.dpramRead OFF_packet rx_len) m
                let skb := rdBytes m.dpram OFF_packet rx_len
                let m := spin_unlock_irqrestore m
                let m := emit (Ev.netif_receive_skb skb) m
                let m := { m with rx_packets := (m.rx_packets + 1) % ULONG_MOD }
                let m := { m with rx_bytes := (m.rx_bytes + rx_len) % ULONG_MOD }
                (m, some LoopCtl.next) := rfl

theorem netdev_alloc_skb_eq (m : World) :
    netdev_alloc_skb m =
      ({ m with skb_allocs := m.skb_allocs.tail }, decide (m.skb_allocs.head? ≠ some false)) := by
  unfold netdev_alloc_skb
  cases m with
  | mk dpram promisc dev_addr rx_packets rx_bytes tx_packets tx_bytes tx_errors napi_sched peer
      trace jiffies trans_start queue_stopped carrier timer watchdog_timeo skb_allocs =>
    cases skb_allocs with
    | nil => simp
    | cons b rest => cases b <;> simp

theorem dstFilter_eq (m : World) :
    dstFilter m =
      ({ m with trace := m.trace ++
            (if m.promisc then []
             else if rdBytes m.dpram OFF_packet ETH_ALEN = rdBytes m.dev_addr 0 ETH_ALEN
               then [Ev.dpramRead OFF_packet ETH_ALEN]
               else [Ev.dpramRead OFF_packet ETH_ALEN, Ev.dpramRead OFF_packet ETH_ALEN]) },
        decide (m.promisc = false ∧
          rdBytes m.dpram OFF_packet ETH_ALEN ≠ rdBytes m.dev_addr 0 ETH_ALEN ∧
          rdBytes m.dpram OFF_packet ETH_ALEN ≠ List.replicate ETH_ALEN 0xff)) := by
  unfold dstFilter
  by_cases hp : m.promisc = true
  · cases m
    simp_all
  · have hp2 : m.promisc = false := by simpa using hp
    by_cases h1 : rdBytes m.dpram OFF_packet ETH_ALEN = rdBytes m.dev_addr 0 ETH_ALEN
    · simp [hp2, emit, memcmp_eq_zero, rdBytes_shift, rdBytes_bcast, h1]
    · simp [hp2, emit, memcmp_eq_zero, rdBytes_shift, rdBytes_bcast, h1]

theorem pollBody_eq (m : World) :
    pollBody m =
      if sendOk m.peer true = false then ((rxRoundTrip m).1, none)
      else if rd32 (rxRoundTrip m).1.dpram OFF_header ≠ dprplEthReceive.val then
        ({ (rxRoundTrip m).1 with trace := (rxRoundTrip m).1.trace ++
            [Ev.dpramRead OFF_header 4, Ev.unlock, Ev.netdev_err] }, some LoopCtl.brk)
      else if rd16 (rxRoundTrip m).1.dpram OFF_pktSize = 0 then
        ({ (rxRoundTrip m).1 with trace := (rxRoundTrip m).1.trace ++
            [Ev.dpramRead OFF_header 4, Ev.dpramRead OFF_pktSize 2, Ev.unlock] }, some LoopCtl.brk)
      else if m.promisc = false ∧
          rdBytes (rxRoundTrip m).1.dpram OFF_packet ETH_ALEN ≠ rdBytes m.dev_addr 0 ETH_ALEN ∧
          rdBytes (rxRoundTrip m).1.dpram OFF_packet ETH_ALEN ≠ List.replicate ETH_ALEN 0xff then
        ({ (rxRoundTrip m).1 with trace := (rxRoundTrip m).1.trace ++
            [Ev.dpramRead OFF_header 4, Ev.dpramRead OFF_pktSize 2,
             Ev.dpramRead OFF_packet ETH_ALEN, Ev.dpramRead OFF_packet ETH_ALEN, Ev.unlock] },
          some LoopCtl.brk)
      else if m.skb_allocs.head? = some false then
        ({ (rxRoundTrip m).1 with
            trace := (rxRoundTrip m).1.trace ++
              ([Ev.dpramRead OFF_header 4, Ev.dpramRead OFF_pktSize 2] ++
               (if m.promisc then []
                else if rdBytes (rxRoundTrip m).1.dpram OFF_packet ETH_ALEN =
                    rdBytes m.dev_addr 0 ETH_ALEN
                  then [Ev.dpramRead OFF_packet ETH_ALEN]
                  else [Ev.dpramRead OFF_packet ETH_ALEN, Ev.dpramRead OFF_packet ETH_ALEN]) ++
               [Ev.call KCall.null_deref]),
            skb_allocs := m.skb_allocs.tail }, none)
      else
        ({ (rxRoundTrip m).1 with
            trace := (rxRoundTrip m).1.trace ++
              ([Ev.dpramRead OFF_header 4, Ev.dpramRead OFF_pktSize 2] ++
               (if m.promisc then []
                else if rdBytes (rxRoundTrip m).1.dpram OFF_packet ETH_ALEN =
                    rdBytes m.dev_addr 0 ETH_ALEN
                  then [Ev.dpramRead OFF_packet ETH_ALEN]
                  else [Ev.dpramRead OFF_packet ETH_ALEN, Ev.dpramRead OFF_packet ETH_ALEN]) ++
               [Ev.dpramRead OFF_packet (rd16 (rxRoundTrip m).1.dpram OFF_pktSize), Ev.unlock,
                Ev.netif_receive_skb (rdBytes (rxRoundTrip m).1.dpram OFF_packet
                  (rd16 (rxRoundTrip m).1.dpram OFF_pktSize))]),
            rx_packets := (m.rx_packets + 1) % ULONG_MOD,
            rx_bytes := (m.rx_bytes + rd16 (rxRoundTrip m).1.dpram OFF_pktSize) % ULONG_MOD,
            skb_allocs := m.skb_allocs.tail },
          some LoopCtl.next) := by
  rw [pollBody_unfold]
  simp only [rxRoundTrip_eq]
  cases hok : sendOk m.peer true
  · simp
  · simp only [if_true, Bool.true_eq_false, if_false, dstFilter_eq, netdev_alloc_skb_eq, emit,
      spin_unlock_irqrestore]
    split_ifs <;> simp_all

theorem crWrites_sendTrace_cases (ps : List PeerStep) (w : Bool) :
    crWrites (sendTrace ps w) = [0x80000005] ∨ crWrites (sendTrace ps w) = [0x80000005, 0x11] ∨
      crWrites (sendTrace ps w) = [0x80000005, 0x11, 0x8] := by
  have hA : DPREG_CR_SET ||| DPREG_CR_MP_ARM ||| DPREG_CR_IE_ARM = 0x80000005 := by decide
  have hB : DPREG_CR_CLR ||| DPREG_CR_MR_ARM ||| DPREG_CR_IE_ARM = 0x11 := by decide
  have hC : DPREG_CR_CLR ||| DPREG_CR_MP_68K = 0x8 := by decide
  unfold sendTrace
  split_ifs <;>
    simp [crWrites_append, crWrites_cons, crWrites_reads, crWrites_nil, selCrWrite, hA, hB, hC]

theorem delivered_sendTrace (ps : List PeerStep) (w : Bool) : delivered (sendTrace ps w) = [] := by
  unfold sendTrace
  split_ifs <;>
    simp [delivered_append, delivered_cons, delivered_reads, delivered_nil, selDelivered]

theorem completions_sendTrace (ps : List PeerStep) (w : Bool) :
    completions (sendTrace ps w) = [] := by
  unfold sendTrace
  split_ifs <;>
    simp [completions_append, completions_cons, completions_reads, completions_nil,
      selCompletion]

theorem pollBody_shape (m : World) :
    ∃ tl, (pollBody m).1.trace = (rxRoundTrip m).1.trace ++ tl ∧
      crWrites tl = [] ∧ dpramWrites tl = [] ∧ completions tl = [] ∧
      (delivered tl).length = (if (pollBody m).2 = some LoopCtl.next then 1 else 0) ∧
      (pollBody m).1.rx_packets =
        (if (pollBody m).2 = some LoopCtl.next then (m.rx_packets + 1) % ULONG_MOD
         else m.rx_packets) ∧
      (pollBody m).1.rx_bytes =
        (if (pollBody m).2 = some LoopCtl.next
          then (m.rx_bytes + ((delivered tl).map List.length).sum) % ULONG_MOD
         else m.rx_bytes) ∧
      (pollBody m).1.promisc = m.promisc ∧ (pollBody m).1.dev_addr = m.dev_addr ∧
      (pollBody m).1.tx_packets = m.tx_packets ∧ (pollBody m).1.tx_bytes = m.tx_bytes ∧
      (pollBody m).1.tx_errors = m.tx_errors ∧ (pollBody m).1.napi_sched = m.napi_sched := by
  have hr := congrArg Prod.fst (rxRoundTrip_eq m)
  simp only at hr
  by_cases h1 : sendOk m.peer true = false
  · rw [pollBody_eq, if_pos h1]
    exact ⟨[], by simp, rfl, rfl, rfl, by simp [delivered_nil], by simp [hr], by simp [hr],
      by simp [hr], by simp [hr], by simp [hr], by simp [hr], by simp [hr], by simp [hr]⟩
  by_cases h2 : rd32 (rxRoundTrip m).1.dpram OFF_header ≠ dprplEthReceive.val
  · rw [pollBody_eq, if_neg h1, if_pos h2]
    exact ⟨[Ev.dpramRead OFF_header 4, Ev.unlock, Ev.netdev_err], rfl, rfl, rfl, rfl,
      by simp [delivered_cons, delivered_nil, selDelivered], by simp [hr], by simp [hr],
      by simp [hr], by simp [hr], by simp [hr], by simp [hr], by simp [hr], by simp [hr]⟩
  by_cases h3 : rd16 (rxRoundTrip m).1.dpram OFF_pktSize = 0
  · rw [pollBody_eq, if_neg h1, if_neg h2, if_pos h3]
    exact ⟨[Ev.dpramRead OFF_header 4, Ev.dpramRead OFF_pktSize 2, Ev.unlock], rfl, rfl, rfl,
      rfl, by simp [delivered_cons, delivered_nil, selDelivered], by simp [hr], by simp [hr],
      by simp [hr], by simp [hr], by simp [hr], by simp [hr], by simp [hr], by simp [hr]⟩
  by_cases h4 : m.promisc = false ∧
      rdBytes (rxRoundTrip m).1.dpram OFF_packet ETH_ALEN ≠ rdBytes m.dev_addr 0 ETH_ALEN ∧
      rdBytes (rxRoundTrip m).1.dpram OFF_packet ETH_ALEN ≠ List.replicate ETH_ALEN 0xff
  · rw [pollBody_eq, if_neg h1, if_neg h2, if_neg h3, if_pos h4]
    exact ⟨[Ev.dpramRead OFF_header 4, Ev.dpramRead OFF_pktSize 2,
      Ev.dpramRead OFF_packet ETH_ALEN, Ev.dpramRead OFF_packet ETH_ALEN, Ev.unlock], rfl, rfl,
      rfl, rfl, by simp [delivered_cons, delivered_nil, selDelivered], by simp [hr],
      by simp [hr], by simp [hr], by simp [hr], by simp [hr], by simp [hr], by simp [hr],
      by simp [hr]⟩
  by_cases h5 : m.skb_allocs.head? = some false
  · rw [pollBody_eq, if_neg h1, if_neg h2, if_neg h3, if_neg h4, if_pos h5]
    refine ⟨_, rfl, ?_, ?_, ?_, ?_, by simp [hr], by simp [hr], by simp [hr], by simp [hr],
      by simp [hr], by simp [hr], by simp [hr], by simp [hr]⟩
    · split_ifs <;> rfl
    · split_ifs <;> rfl
    · split_ifs <;> rfl
    · split_ifs <;> simp_all [delivered_cons, delivered_nil, selDelivered]
  rw [pollBody_eq, if_neg h1, if_neg h2, if_neg h3, if_neg h4, if_neg h5]
  refine ⟨_, rfl, ?_, ?_, ?_, ?_, by simp, ?_, by simp [hr], by simp [hr], by simp [hr],
    by simp [hr], by simp [hr], by simp [hr]⟩
  · split_ifs <;> rfl
  · split_ifs <;> rfl
  · split_ifs <;> rfl
  · split_ifs <;> simp_all [delivered_cons, delivered_nil, selDelivered]
  · split_ifs <;> simp_all [delivered_cons, delivered_nil, selDelivered, rdBytes_length]

theorem pollBody_summary (m : World) :
    ∃ t, (pollBody m).1.trace = m.trace ++ t ∧
      (crWrites t).count 0x80000005 = 1 ∧ (crWrites t).count 0x8 ≤ 1 ∧
      dpramWrites t = [(OFF_header, enc32 dpcmdEthReceive.val)] ∧
      (∀ v ∈ crWrites t, v = 0x80000005 ∨ v = 0x11 ∨ v = 0x8) ∧
      completions t = [] ∧
      (delivered t).length = (if (pollBody m).2 = some LoopCtl.next then 1 else 0) ∧
      (pollBody m).1.rx_packets =
        (if (pollBody m).2 = some LoopCtl.next then (m.rx_packets + 1) % ULONG_MOD
         else m.rx_packets) ∧
      (pollBody m).1.rx_bytes =
        (if (pollBody m).2 = some LoopCtl.next
          then (m.rx_bytes + ((delivered t).map List.length).sum) % ULONG_MOD
         else m.rx_bytes) ∧
      (pollBody m).1.promisc = m.promisc ∧ (pollBody m).1.dev_addr = m.dev_addr ∧
      (pollBody m).1.tx_packets = m.tx_packets ∧ (pollBody m).1.tx_bytes = m.tx_bytes ∧
      (pollBody m).1.tx_errors = m.tx_errors ∧ (pollBody m).1.napi_sched = m.napi_sched := by
  obtain ⟨tl, htr, hcr, hdw, hco, hdl, hrest⟩ := pollBody_shape m
  have hr := congrArg Prod.fst (rxRoundTrip_eq m)
  simp only at hr
  have ht : (rxRoundTrip m).1.trace = m.trace ++
      (Ev.lock :: Ev.dpramWrite OFF_header (enc32 dpcmdEthReceive.val) ::
        sendTrace m.peer true) := by rw [hr]
  have e : crWrites (Ev.lock :: Ev.dpramWrite OFF_header (enc32 dpcmdEthReceive.val) ::
        sendTrace m.peer true ++ tl) = crWrites (sendTrace m.peer true) := by
    simp [crWrites_cons, crWrites_append, selCrWrite, hcr]
  have ed : delivered (Ev.lock :: Ev.dpramWrite OFF_header (enc32 dpcmdEthReceive.val) ::
        sendTrace m.peer true ++ tl) = delivered tl := by
    simp [delivered_cons, delivered_append, selDelivered, delivered_sendTrace]
  refine ⟨Ev.lock :: Ev.dpramWrite OFF_header (enc32 dpcmdEthReceive.val) ::
      sendTrace m.peer true ++ tl, by simp [htr, ht], ?_, ?_, ?_, ?_, ?_, ?_⟩
  · rw [e]
    rcases crWrites_sendTrace_cases m.peer true with h | h | h <;> rw [h] <;> simp
  · rw [e]
    rcases crWrites_sendTrace_cases m.peer true with h | h | h <;> rw [h] <;> simp
  · simp [dpramWrites_cons, dpramWrites_append, selDpramWrite, dpramWrites_sendTrace, hdw]
  · rw [e]
    rcases crWrites_sendTrace_cases m.peer true with h | h | h <;> rw [h] <;> simp
  · simp [completions_cons, completions_append, selCompletion, completions_sendTrace, hco]
  · rw [ed]
    exact ⟨hdl, hrest⟩

theorem pollLoop_zero (budget rx_count : Int) (m : World) :
    pollLoop budget 0 rx_count m =
      if rx_count < budget then (m, none) else pollEnd budget rx_count m := by
  simp [pollLoop]

theorem pollLoop_succ (budget : Int) (fuel : Nat) (rx_count : Int) (m : World) :
    pollLoop budget (fuel + 1) rx_count m =
      if rx_count < budget then
        match pollBody m with
        | (m, none) => (m, none)
        | (m, some LoopCtl.brk) => pollEnd budget rx_count m
        | (m, some LoopCtl.next) => pollLoop budget fuel (rx_count + 1) m
      else pollEnd budget rx_count m := by
  simp [pollLoop]


theorem pollEnd_summary (budget rx_count : Int) (m0 m : World) (t : List Ev)
    (ht : m.trace = m0.trace ++ t)
    (h1 : (crWrites t).count 0x80000005 ≤ (budget - rx_count).toNat)
    (h2 : (crWrites t).count 0x8 ≤ (budget - rx_count).toNat)
    (h3 : (dpramWrites t).count (OFF_header, enc32 DprCmd.dpcmdEthReceive.val) ≤
      (budget - rx_count).toNat)
    (h4 : ∀ v ∈ crWrites t, v = 0x80000005 ∨ v = 0x11 ∨ v = 0x8)
    (hc : completions t = []) (hd : delivered t = [])
    (f1 : m.promisc = m0.promisc) (f2 : m.dev_addr = m0.dev_addr)
    (f3 : m.tx_packets = m0.tx_packets) (f4 : m.tx_bytes = m0.tx_bytes)
    (f5 : m.tx_errors = m0.tx_errors) (f6 : m.napi_sched = m0.napi_sched)
    (f7 : m.rx_packets = m0.rx_packets) (f8 : m.rx_bytes = m0.rx_bytes) :
    PollSummary budget rx_count m0 (pollEnd budget rx_count m) := by
  unfold pollEnd
  by_cases hlt : rx_count < budget
  · rw [if_pos hlt]
    refine ⟨t ++ [Ev.napi_complete_done rx_count], ?_, ?_, ?_, ?_, ?_, f1, f2, f3, f4, f5, ?_⟩
    · simp [napi_complete_done, emit, ht]
    · simpa [crWrites_append, crWrites_cons, crWrites_nil, selCrWrite] using h1
    · simpa [crWrites_append, crWrites_cons, crWrites_nil, selCrWrite] using h2
    · simpa [dpramWrites_append, dpramWrites_cons, dpramWrites_nil, selDpramWrite] using h3
    · simpa [crWrites_append, crWrites_cons, crWrites_nil, selCrWrite] using h4
    · intro r hr
      simp only [Option.some.injEq] at hr
      subst hr
      simp [delivered_append, delivered_cons, delivered_nil, selDelivered, hd,
        completions_append, completions_cons, completions_nil, selCompletion, hc, hlt,
        napi_complete_done, emit, f7, f8]
  · rw [if_neg hlt]
    refine ⟨t, ht, h1, h2, h3, h4, f1, f2, f3, f4, f5, ?_⟩
    intro r hr
    simp only [Option.some.injEq] at hr
    subst hr
    simp [hd, hc, hlt, f6, f7, f8, delivered_nil]

theorem pollLoop_summary (budget : Int) : ∀ (fuel : Nat) (rx_count : Int) (m : World),
    PollSummary budget rx_count m (pollLoop budget fuel rx_count m) := by
  intro fuel
  induction fuel with
  | zero =>
    intro rx_count m
    rw [pollLoop_zero]
    by_cases hlt : rx_count < budget
    · rw [if_pos hlt]
      refine ⟨[], by simp, by simp [crWrites_nil], by simp [crWrites_nil],
        by simp [dpramWrites_nil], by simp [crWrites_nil], rfl, rfl, rfl, rfl, rfl, ?_⟩
      intro r hr
      simp at hr
    · rw [if_neg hlt]
      exact pollEnd_summary budget rx_count m m [] (by simp) (by simp [crWrites_nil])
        (by simp [crWrites_nil]) (by simp [dpramWrites_nil]) (by simp [crWrites_nil])
        rfl rfl rfl rfl rfl rfl rfl rfl rfl rfl
  | succ fuel ih =>
    intro rx_count m
    rw [pollLoop_succ]
    by_cases hlt : rx_count < budget
    · rw [if_pos hlt]
      obtain ⟨tb, b1, b2, b3, b4, b5, b6, b7, b8, b9, g1, g2, g3, g4, g5, g6⟩ :=
        pollBody_summary m
      have hpos : 1 ≤ (budget - rx_count).toNat := by omega
      rcases hb : pollBody m with ⟨m1, _ | ctl⟩
      · rw [hb] at b1 g1 g2 g3 g4 g5
        refine ⟨tb, b1, by omega, by omega, by simp [b4]; omega, b5, g1, g2, g3, g4, g5, ?_⟩
        intro r hr
        simp at hr
      · cases ctl with
        | brk =>
          rw [hb] at b1 b7 b8 b9 g1 g2 g3 g4 g5 g6
          simp only [reduceCtorEq, if_false, Option.some.injEq] at b7 b8 b9
          exact pollEnd_summary budget rx_count m m1 tb b1 (by omega) (by omega)
            (by simp [b4]; omega) b5 b6 (List.length_eq_zero.mp b7) g1 g2 g3 g4 g5 g6 b8 b9
        | next =>
          rw [hb] at b1 b7 b8 b9 g1 g2 g3 g4 g5 g6
          simp only [if_true] at b7 b8 b9
          obtain ⟨t2, c1, c2, c3, c4, c5, d1, d2, d3, d4, d5, hres⟩ := ih (rx_count + 1) m1
          refine ⟨tb ++ t2, ?_, ?_, ?_, ?_, ?_, ?_, ?_, ?_, ?_, ?_, ?_⟩
          · simp only at c1 ⊢
            rw [c1, b1, List.append_assoc]
          · rw [crWrites_append, List.count_append]
            omega
          · rw [crWrites_append, List.count_append]
            omega
          · rw [dpramWrites_append, List.count_append, b4]
            simp
            omega
          · intro v hv
            rw [crWrites_append, List.mem_append] at hv
            rcases hv with hv | hv
            · exact b5 v hv
            · exact c5 v hv
          · exact d1.trans g1
          · exact d2.trans g2
          · exact d3.trans g3
          · exact d4.trans g4
          · exact d5.trans g5
          · intro r hr
            obtain ⟨e1, e2, e3, e4, e5, e6⟩ := hres r hr
            simp only at e3 e4 e6 ⊢
            rw [delivered_append, List.length_append, List.map_append, List.sum_append,
              completions_append, b6, List.nil_append]
            refine ⟨by push_cast; omega, by omega, ?_, ?_, e5, ?_⟩
            · rw [e3, b8]
              simp only [ULONG_MOD]
              split_ifs <;> omega
            · rw [e4, b9]
              simp only [ULONG_MOD]
              split_ifs with q1 q2 q3
              · omega
              · have : delivered t2 = [] := List.length_eq_zero.mp q1
                simp [this]
              · omega
              · omega
            · rw [e6, g6]
    · rw [if_neg hlt]
      exact pollEnd_summary budget rx_count m m [] (by simp) (by simp [crWrites_nil])
        (by simp [crWrites_nil]) (by simp [dpramWrites_nil]) (by simp [crWrites_nil])
        rfl rfl rfl rfl rfl rfl rfl rfl rfl rfl
theorem rxRoundTrip_snd (m : World) :
    (rxRoundTrip m).2 = if sendOk m.peer true then some wacOK else none := by
  rw [rxRoundTrip_eq]

theorem rxRoundTrip_returns (m : World) (st : WarpAmiCommStatus)
    (h : (rxRoundTrip m).2 = some st) : sendOk m.peer true = true := by
  rw [rxRoundTrip_snd] at h
  by_contra hc
  simp [hc] at h

theorem pollBody_peer (m : World) : (pollBody m).1.peer = sendRest m.peer true := by
  have hr := congrArg Prod.fst (rxRoundTrip_eq m)
  simp only at hr
  rw [pollBody_eq]
  split_ifs <;> simp [hr]

theorem pollBody_none (m : World) (ha : m.skb_allocs.head? ≠ some false) :
    (pollBody m).2 = none ↔ sendOk m.peer true = false := by
  rw [pollBody_eq]
  split_ifs with h1 <;> simp [h1]

theorem pollBody_none_cases (m : World) (h : (pollBody m).2 = none) :
    sendOk m.peer true = false ∨
      (m.skb_allocs.head? = some false ∧
        (pollBody m).1.trace.getLast? = some (Ev.call KCall.null_deref)) := by
  rw [pollBody_eq] at h ⊢
  by_cases h1 : sendOk m.peer true = false
  · exact Or.inl h1
  by_cases h2 : rd32 (rxRoundTrip m).1.dpram OFF_header ≠ dprplEthReceive.val
  · rw [if_neg h1, if_pos h2] at h
    simp at h
  by_cases h3 : rd16 (rxRoundTrip m).1.dpram OFF_pktSize = 0
  · rw [if_neg h1, if_neg h2, if_pos h3] at h
    simp at h
  by_cases h4 : m.promisc = false ∧
      rdBytes (rxRoundTrip m).1.dpram OFF_packet ETH_ALEN ≠ rdBytes m.dev_addr 0 ETH_ALEN ∧
      rdBytes (rxRoundTrip m).1.dpram OFF_packet ETH_ALEN ≠ List.replicate ETH_ALEN 0xff
  · rw [if_neg h1, if_neg h2, if_neg h3, if_pos h4] at h
    simp at h
  by_cases h5 : m.skb_allocs.head? = some false
  · rw [if_neg h1, if_neg h2, if_neg h3, if_neg h4, if_pos h5]
    refine Or.inr ⟨h5, ?_⟩
    simp only [← List.append_assoc]
    exact List.getLast?_concat _
  · rw [if_neg h1, if_neg h2, if_neg h3, if_neg h4, if_neg h5] at h
    simp at h

theorem pollBody_allocs (m : World) (h : ∀ b ∈ m.skb_allocs, b = true) :
    m.skb_allocs.head? ≠ some false ∧ ∀ b ∈ (pollBody m).1.skb_allocs, b = true := by
  have hr := congrArg Prod.fst (rxRoundTrip_eq m)
  simp only at hr
  have hh : m.skb_allocs.head? ≠ some false := by
    intro hc
    have := h false (List.mem_of_mem_head? hc)
    cases this
  have ht : ∀ b ∈ m.skb_allocs.tail, b = true := fun b hb => h b (List.mem_of_mem_tail hb)
  refine ⟨hh, ?_⟩
  rw [pollBody_eq]
  split_ifs <;> simp only [hr] <;> first | exact h | exact ht

theorem pollEnd_snd (budget rx_count : Int) (m : World) :
    (pollEnd budget rx_count m).2 = some rx_count := by
  unfold pollEnd
  split_ifs <;> rfl

theorem pollLoop_returns (budget : Int) : ∀ (fuel : Nat) (rx_count : Int) (m : World),
    (budget - rx_count).toNat ≤ fuel → responsive (budget - rx_count).toNat m.peer = true →
    (∀ b ∈ m.skb_allocs, b = true) →
    ∃ r, (pollLoop budget fuel rx_count m).2 = some r := by
  intro fuel
  induction fuel with
  | zero =>
    intro rx_count m hf _ _
    rw [pollLoop_zero, if_neg (by omega)]
    exact ⟨rx_count, pollEnd_snd _ _ _⟩
  | succ fuel ih =>
    intro rx_count m hf hresp hall
    rw [pollLoop_succ]
    by_cases hlt : rx_count < budget
    · rw [if_pos hlt]
      obtain ⟨k, hk⟩ : ∃ k, (budget - rx_count).toNat = k + 1 :=
        ⟨(budget - rx_count).toNat - 1, by omega⟩
      rw [hk] at hresp
      simp only [responsive, Bool.and_eq_true] at hresp
      have hp := pollBody_peer m
      obtain ⟨hhd, hall1⟩ := pollBody_allocs m hall
      have hn := pollBody_none m hhd
      rcases hb : pollBody m with ⟨m1, _ | ctl⟩
      · rw [hb] at hn
        simp [hresp.1] at hn
      · cases ctl with
        | brk => exact ⟨rx_count, pollEnd_snd _ _ _⟩
        | next =>
          rw [hb] at hp hall1
          simp only at hp hall1
          have hk2 : (budget - (rx_count + 1)).toNat = k := by omega
          exact ih (rx_count + 1) m1 (by omega) (by rw [hk2, hp]; exact hresp.2) hall1
    · rw [if_neg hlt]
      exact ⟨rx_count, pollEnd_snd _ _ _⟩

theorem warpnet_napi_poll_summary (m : World) (budget : Int) :
    PollSummary budget 0 m (warpnet_napi_poll m budget) :=
  pollLoop_summary budget budget.toNat 0 m

theorem ulong_mod_eq : ULONG_MOD = 2 ^ 32 := by decide

theorem errors_append (a b : List Ev) : errors (a ++ b) = errors a + errors b := by
  simp [errors]

theorem errors_reads (ps : List PeerStep) : errors (reads ps) = 0 := by
  induction ps with
  | nil => rfl
  | cons p rest ih =>
    simp only [errors, reads, List.map_cons] at ih ⊢
    rw [List.count_cons, ih]
    simp

theorem errors_sendTrace (ps : List PeerStep) (w : Bool) : errors (sendTrace ps w) = 0 := by
  have hc : ∀ (v : Nat) (t : List Ev), errors (Ev.crWrite v :: t) = errors t := by
    intro v t
    simp [errors, List.count_cons]
  unfold sendTrace
  split_ifs <;> simp [hc, errors_append, errors_reads] <;> rfl

theorem rxRoundTrip_facts (m : World) (st : WarpAmiCommStatus)
    (h : (rxRoundTrip m).2 = some st) :
    (rxRoundTrip m).1.trace = m.trace ++
        Ev.lock :: Ev.dpramWrite OFF_header (enc32 dpcmdEthReceive.val) :: sendTrace m.peer true ∧
      crWrites (rxRoundTrip m).1.trace = crWrites m.trace ++ [0x80000005, 0x11, 0x8] ∧
      dpramWrites (rxRoundTrip m).1.trace =
        dpramWrites m.trace ++ [(OFF_header, enc32 dpcmdEthReceive.val)] ∧
      delivered (rxRoundTrip m).1.trace = delivered m.trace ∧
      completions (rxRoundTrip m).1.trace = completions m.trace ∧
      errors (rxRoundTrip m).1.trace = errors m.trace ∧
      (rxRoundTrip m).1.peer = sendRest m.peer true ∧
      (rxRoundTrip m).1.promisc = m.promisc ∧ (rxRoundTrip m).1.dev_addr = m.dev_addr ∧
      (rxRoundTrip m).1.rx_packets = m.rx_packets ∧ (rxRoundTrip m).1.rx_bytes = m.rx_bytes ∧
      (rxRoundTrip m).1.tx_packets = m.tx_packets ∧ (rxRoundTrip m).1.tx_bytes = m.tx_bytes ∧
      (rxRoundTrip m).1.tx_errors = m.tx_errors ∧
      (rxRoundTrip m).1.napi_sched = m.napi_sched := by
  have hok := rxRoundTrip_returns m st h
  have hr := congrArg Prod.fst (rxRoundTrip_eq m)
  simp only at hr
  have hc := crWrites_sendTrace m.peer true hok
  simp only [if_true] at hc
  rw [hr]
  refine ⟨rfl, ?_, ?_, ?_, ?_, ?_, rfl, rfl, rfl, rfl, rfl, rfl, rfl, rfl, rfl⟩
  · simp [crWrites_append, crWrites_cons, selCrWrite, hc]
  · simp [dpramWrites_append, dpramWrites_cons, selDpramWrite, dpramWrites_sendTrace]
  · simp [delivered_append, delivered_cons, selDelivered, delivered_sendTrace]
  · simp [completions_append, completions_cons, selCompletion, completions_sendTrace]
  · simp [errors_append, errors, List.count_cons]
    exact errors_sendTrace m.peer true

theorem pollLoop_brk (budget : Int) (fuel : Nat) (rx_count : Int) (m m1 : World)
    (hlt : rx_count < budget) (hb : pollBody m = (m1, some LoopCtl.brk)) :
    pollLoop budget (fuel + 1) rx_count m =
      ({ m1 with trace := m1.trace ++ [Ev.napi_complete_done rx_count], napi_sched := false },
        some rx_count) := by
  rw [pollLoop_succ, if_pos hlt, hb]
  simp [pollEnd, hlt, napi_complete_done, emit]

theorem pollLoop_next (budget : Int) (fuel : Nat) (rx_count : Int) (m m1 : World)
    (hlt : rx_count < budget) (hb : pollBody m = (m1, some LoopCtl.next)) :
    pollLoop budget (fuel + 1) rx_count m = pollLoop budget fuel (rx_count + 1) m1 := by
  rw [pollLoop_succ, if_pos hlt, hb]

theorem delivered_dpramReads (fr : List Ev) (off len : Nat)
    (h : ∀ e ∈ fr, e = Ev.dpramRead off len) : delivered fr = [] := by
  induction fr with
  | nil => rfl
  | cons e rest ih =>
    rw [delivered_cons, h e (List.mem_cons_self _ _),
      ih (fun x hx => h x (List.mem_cons_of_mem _ hx))]
    rfl

theorem sendRest_of_not_ok (ps : List PeerStep) (w : Bool) (h : sendOk ps w = false) :
    sendRest ps w = [] := by
  unfold sendRest
  unfold sendOk at h
  cases h1 : spinOk DPREG_CR_MR_ARM ps
  · simp
  · cases w
    · simp [h1] at h
    · simp only [h1, Bool.true_and, Bool.not_true, Bool.false_or] at h
      simp [spinRest_of_not_ok _ _ h]

theorem pollLoop_none (budget : Int) : ∀ (fuel : Nat) (rx_count : Int) (m : World),
    (budget - rx_count).toNat ≤ fuel → (pollLoop budget fuel rx_count m).2 = none →
    (pollLoop budget fuel rx_count m).1.peer = [] ∨
      (pollLoop budget fuel rx_count m).1.trace.getLast? =
        some (Ev.call KCall.null_deref) := by
  intro fuel
  induction fuel with
  | zero =>
    intro rx_count m hf hn
    rw [pollLoop_zero, if_neg (by omega), pollEnd_snd] at hn
    cases hn
  | succ fuel ih =>
    intro rx_count m hf hn
    rw [pollLoop_succ] at hn ⊢
    by_cases hlt : rx_count < budget
    · rw [if_pos hlt] at hn ⊢
      have hp := pollBody_peer m
      rcases hb : pollBody m with ⟨m1, _ | ctl⟩
      · have hc := pollBody_none_cases m (by rw [hb])
        rw [hb] at hp hc
        simp only at hp hc ⊢
        rcases hc with hc | ⟨-, hc⟩
        · rw [hp]
          exact Or.inl (sendRest_of_not_ok _ _ hc)
        · exact Or.inr hc
      · cases ctl with
        | brk =>
          rw [hb] at hn
          simp only [pollEnd_snd] at hn
          cases hn
        | next =>
          rw [hb] at hn
          exact ih (rx_count + 1) m1 (by omega) hn
    · rw [if_neg hlt, pollEnd_snd] at hn
      cases hn

theorem pollLoop_none_alloc (budget : Int) : ∀ (fuel : Nat) (rx_count : Int) (m : World),
    (budget - rx_count).toNat ≤ fuel → (∀ b ∈ m.skb_allocs, b = true) →
    (pollLoop budget fuel rx_count m).2 = none →
    (pollLoop budget fuel rx_count m).1.peer = [] := by
  intro fuel
  induction fuel with
  | zero =>
    intro rx_count m hf _ hn
    rw [pollLoop_zero, if_neg (by omega), pollEnd_snd] at hn
    cases hn
  | succ fuel ih =>
    intro rx_count m hf hall hn
    rw [pollLoop_succ] at hn ⊢
    by_cases hlt : rx_count < budget
    · rw [if_pos hlt] at hn ⊢
      have hp := pollBody_peer m
      obtain ⟨hhd, hall1⟩ := pollBody_allocs m hall
      have hnone := pollBody_none m hhd
      rcases hb : pollBody m with ⟨m1, _ | ctl⟩
      · rw [hb] at hp hnone
        simp only [true_iff] at hnone
        simp only at hp ⊢
        rw [hp]
        exact sendRest_of_not_ok _ _ hnone
      · cases ctl with
        | brk =>
          rw [hb] at hn
          simp only [pollEnd_snd] at hn
          cases hn
        | next =>
          rw [hb] at hn hall1
          exact ih (rx_count + 1) m1 (by omega) hall1 hn
    · rw [if_neg hlt, pollEnd_snd] at hn
      cases hn

/-! ## The control register write rule -/

theorem and_selector_of_lt (b : Nat) (h : b < 2 ^ 31) : b &&& 0x80000000 = 0 := by
  apply Nat.eq_of_testBit_eq
  intro i
  have e : (0x80000000 : Nat) = 2 ^ 31 := by norm_num
  rw [e, Nat.testBit_and, Nat.testBit_two_pow, Nat.zero_testBit]
  by_cases hi : 31 = i
  · subst hi
    simp [Nat.testBit_lt_two_pow h]
  · simp [hi]

theorem selector_or_and (b : Nat) : (0x80000000 ||| b) &&& 0x80000000 ≠ 0 := by
  intro h
  have ht := congrArg (fun x => Nat.testBit x 31) h
  have e : (0x80000000 : Nat) = 2 ^ 31 := by norm_num
  simp only [e, Nat.testBit_and, Nat.testBit_or, Nat.testBit_two_pow_self, Bool.true_or,
    Bool.and_self, Nat.zero_testBit] at ht
  cases ht

theorem dpregWrite_set_testBit (reg b i : Nat) (hi : i < 31) :
    (dpregWrite reg (DPREG_CR_SET ||| b)).testBit i = (reg.testBit i || b.testBit i) := by
  have hs : DPREG_CR_SET = 0x80000000 := rfl
  have e : (0x80000000 : Nat) = 2 ^ 31 := by norm_num
  have e32 : (4294967296 : Nat) = 2 ^ 32 := by norm_num
  unfold dpregWrite
  rw [hs, if_pos (selector_or_and b), e, e32, Nat.testBit_mod_two_pow, Nat.testBit_or,
    Nat.testBit_or, Nat.testBit_two_pow]
  have h1 : decide (i < 32) = true := by simp; omega
  have h2 : decide (31 = i) = false := by simp; omega
  simp [h1, h2]

theorem dpregWrite_clr_testBit (reg b i : Nat) (hb : b < 2 ^ 31) (hi : i < 32) :
    (dpregWrite reg (DPREG_CR_CLR ||| b)).testBit i = (reg.testBit i && !b.testBit i) := by
  have hs : DPREG_CR_CLR = 0 := rfl
  have e32 : (4294967296 : Nat) = 2 ^ 32 := by norm_num
  have em : (0xFFFFFFFF : Nat) = 2 ^ 32 - 1 := by norm_num
  unfold dpregWrite
  rw [hs, Nat.zero_or, if_neg (by simp [and_selector_of_lt b hb]), e32, em,
    Nat.testBit_mod_two_pow, Nat.testBit_and, Nat.testBit_xor, Nat.testBit_two_pow_sub_one]
  have h1 : decide (i < 32) = true := by simp; omega
  simp [h1]

theorem and_two_pow_ne_zero (x k : Nat) : x &&& 2 ^ k ≠ 0 ↔ x.testBit k = true := by
  constructor
  · intro h
    by_contra hc
    apply h
    apply Nat.eq_of_testBit_eq
    intro i
    rw [Nat.testBit_and, Nat.testBit_two_pow, Nat.zero_testBit]
    by_cases hi : k = i
    · subst hi
      simp [hc]
    · simp [hi]
  · intro h hz
    have ht := congrArg (fun y => Nat.testBit y k) hz
    simp [Nat.testBit_and, Nat.testBit_two_pow_self, h] at ht

theorem cleanup_mask_eq :
    DPREG_CR_CLR ||| DPREG_CR_MP_68K ||| DPREG_CR_MP_ARM ||| DPREG_CR_MR_68K |||
      DPREG_CR_MR_ARM ||| DPREG_CR_IE_68K ||| DPREG_CR_IE_ETHRX ||| DPREG_CR_IE_ETHST |||
      DPREG_CR_IE_ETHTX ||| DPREG_CR_IF_ETHRX ||| DPREG_CR_IF_ETHST ||| DPREG_CR_IF_ETHTX =
    0xFFE := by decide

theorem calls_append (a b : List Ev) : calls (a ++ b) = calls a ++ calls b := by
  simp [calls]

theorem dpregAfter_append (reg : Nat) (a b : List Ev) :
    dpregAfter reg (a ++ b) = dpregAfter (dpregAfter reg a) b := by
  simp [dpregAfter, crWrites_append]

theorem warpnet_open_eq (HZ : Nat) (m : World) :
    warpnet_open HZ m =
      ({ m with
          trace := m.trace ++
            [Ev.crWrite 0xFFE, Ev.call KCall.napi_enable, Ev.call KCall.netif_start_queue,
             Ev.call KCall.netif_carrier_on, Ev.crWrite 0x80000040,
             Ev.call (KCall.mod_timer ((m.jiffies + TMR_POLL_INTERVAL HZ) % 2 ^ 32))],
          watchdog_timeo :=
            if m.watchdog_timeo ≤ 0 then (TX_TIMEOUT HZ : Nat) else m.watchdog_timeo,
          napi_sched := false, queue_stopped := false, carrier := true,
          timer := some ((m.jiffies + TMR_POLL_INTERVAL HZ) % 2 ^ 32) }, 0) := by
  have h1 : DPREG_CR_SET ||| DPREG_CR_IE_ETHRX = 0x80000040 := by decide
  unfold warpnet_open cleanupIrqAndFlags
  rw [cleanup_mask_eq, h1, ulong_mod_eq]
  by_cases hw : m.watchdog_timeo ≤ 0
  · simp [crWrite, emit, napi_enable, netif_start_queue, netif_carrier_on, mod_timer, hw]
  · simp [crWrite, emit, napi_enable, netif_start_queue, netif_carrier_on, mod_timer, hw]

theorem warpnet_close_eq (m : World) :
    warpnet_close m =
      ({ m with
          trace := m.trace ++
            [Ev.call KCall.del_timer_sync, Ev.crWrite 0xFFE, Ev.call KCall.netif_carrier_off,
             Ev.call KCall.netif_stop_queue, Ev.call KCall.napi_disable],
          napi_sched := true, queue_stopped := true, carrier := false, timer := none }, 0) := by
  unfold warpnet_close cleanupIrqAndFlags
  rw [cleanup_mask_eq]
  simp [crWrite, emit, napi_disable, netif_stop_queue, netif_carrier_off, del_timer_sync]

theorem dpregWrite_cleanup_testBit (reg i : Nat) (hi : i < 32) :
    (dpregWrite reg 0xFFE).testBit i = (reg.testBit i && !(Nat.testBit 0xFFE i)) := by
  have h := dpregWrite_clr_testBit reg 0xFFE i (by norm_num) hi
  have e : DPREG_CR_CLR ||| 0xFFE = 0xFFE := by decide
  rw [e] at h
  exact h

theorem dpregWrite_enable_testBit (reg i : Nat) (hi : i < 31) :
    (dpregWrite reg 0x80000040).testBit i = (reg.testBit i || Nat.testBit 0x40 i) := by
  have h := dpregWrite_set_testBit reg 0x40 i hi
  have e : DPREG_CR_SET ||| 0x40 = 0x80000040 := by decide
  rw [e] at h
  exact h

theorem testBit_cleanup_mask (i : Nat) (h1 : 1 ≤ i) (h2 : i ≤ 11) :
    Nat.testBit 0xFFE i = true := by
  interval_cases i <;> decide

theorem testBit_enable_mask (i : Nat) (h : i ≠ 6) : Nat.testBit 0x40 i = false := by
  have e : (0x40 : Nat) = 2 ^ 6 := by norm_num
  rw [e]
  exact Nat.testBit_two_pow_of_ne (fun hc => h hc.symm)

/-! ## Interrupt, timer and watchdog: closed forms -/

theorem warpnet_irq_eq (m : World) (p : PeerStep) (rest : List PeerStep)
    (hpeer : m.peer = p :: rest) :
    warpnet_irq m =
      if p.cr &&& 0x200 ≠ 0 then
        some ({ m with dpram := applyWr p.wr m.dpram, peer := rest, napi_sched := true,
                       trace := m.trace ++ ([Ev.crRead p.cr, Ev.crWrite 0x200] ++
                         (if m.napi_sched then [] else [Ev.call KCall.napi_schedule])) },
              irqreturn_t.IRQ_HANDLED)
      else
        some ({ m with dpram := applyWr p.wr m.dpram, peer := rest,
                       trace := m.trace ++ [Ev.crRead p.cr] }, irqreturn_t.IRQ_NONE) := by
  have h2 : DPREG_CR_CLR ||| DPREG_CR_IF_ETHRX = 0x200 := by decide
  have h1 : DPREG_CR_IF_ETHRX = 0x200 := by decide
  unfold warpnet_irq crReadOnce
  rw [hpeer, h2, h1]
  by_cases hb : p.cr &&& 0x200 ≠ 0
  · rw [if_pos hb]
    simp only [if_pos hb]
    cases hs : m.napi_sched <;>
      simp [napi_schedule_prep, __napi_schedule, crWrite, emit, hs]
  · rw [if_neg hb]
    simp only [if_neg hb]
    simp [emit]

theorem pollTimerCallback_eq (HZ : Nat) (m : World) :
    pollTimerCallback HZ m =
      { m with napi_sched := true,
               timer := some ((m.jiffies + TMR_POLL_INTERVAL HZ) % 2 ^ 32),
               trace := m.trace ++ ((if m.napi_sched then [] else [Ev.call KCall.napi_schedule]) ++
                 [Ev.call (KCall.mod_timer ((m.jiffies + TMR_POLL_INTERVAL HZ) % 2 ^ 32))]) } := by
  unfold pollTimerCallback napi_schedule
  rw [ulong_mod_eq]
  cases hs : m.napi_sched <;>
    simp [napi_schedule_prep, __napi_schedule, mod_timer, emit, hs]

theorem warpnet_tx_timeout_eq (m : World) :
    warpnet_tx_timeout m =
      { m with tx_errors := (m.tx_errors + 1) % 2 ^ 32, trans_start := m.jiffies,
               queue_stopped := false,
               trace := m.trace ++ [Ev.netdev_err, Ev.call KCall.netif_stop_queue,
                 Ev.call KCall.netif_trans_update, Ev.call KCall.netif_wake_queue] } := by
  unfold warpnet_tx_timeout
  rw [ulong_mod_eq]
  simp [netif_stop_queue, netif_trans_update, netif_wake_queue, emit]

/-! ## When the transport returns -/

theorem spinOk_iff (mask : Nat) (ps : List PeerStep) :
    spinOk mask ps = true ↔ ∃ p ∈ ps, p.cr &&& mask ≠ 0 := by
  induction ps with
  | nil => simp [spinOk]
  | cons p rest ih =>
    by_cases hp : p.cr &&& mask = 0
    · simp [spinOk, hp, ih]
    · simp [spinOk, hp]

theorem spinRest_suffix (mask : Nat) (pre : List PeerStep) (a : PeerStep)
    (rest : List PeerStep) (ha : a.cr &&& mask ≠ 0) :
    ∃ mid, spinRest mask (pre ++ a :: rest) = mid ++ rest := by
  induction pre with
  | nil => exact ⟨[], by simp [spinRest, ha]⟩
  | cons q pre ih =>
    by_cases hq : q.cr &&& mask = 0
    · obtain ⟨mid, hmid⟩ := ih
      exact ⟨mid, by simp [spinRest, hq, hmid]⟩
    · exact ⟨pre ++ [a], by simp [spinRest, hq]⟩

theorem spinOk_false_of_all (mask : Nat) (ps : List PeerStep)
    (h : ∀ p ∈ ps, p.cr &&& mask = 0) : spinOk mask ps = false := by
  cases hs : spinOk mask ps
  · rfl
  · obtain ⟨p, hp, hne⟩ := (spinOk_iff mask ps).mp hs
    exact absurd (h p hp) hne

theorem spinPrefix_of_all (mask : Nat) (ps : List PeerStep)
    (h : ∀ p ∈ ps, p.cr &&& mask = 0) : spinPrefix mask ps = ps := by
  induction ps with
  | nil => rfl
  | cons p rest ih =>
    have hp : p.cr &&& mask = 0 := h p (List.mem_cons_self _ _)
    simp [spinPrefix, hp, ih (fun q hq => h q (List.mem_cons_of_mem _ hq))]

theorem sendOk_iff (ps : List PeerStep) (w : Bool) :
    sendOk ps w = true ↔
      ∃ pre a rest, ps = pre ++ a :: rest ∧ a.cr &&& 0x10 ≠ 0 ∧
        (w = true → ∃ b ∈ rest, b.cr &&& 0x8 ≠ 0) := by
  have hm1 : DPREG_CR_MR_ARM = 0x10 := by decide
  have hm2 : DPREG_CR_MP_68K = 0x8 := by decide
  unfold sendOk
  rw [hm1, hm2]
  constructor
  · intro h
    simp only [Bool.and_eq_true, Bool.or_eq_true, Bool.not_eq_true'] at h
    obtain ⟨h1, h2⟩ := h
    obtain ⟨pre, a, -, -, ha, hsplit⟩ := spin_split _ _ h1
    refine ⟨pre, a, spinRest 0x10 ps, hsplit, ha, ?_⟩
    intro hw
    rcases h2 with h2 | h2
    · rw [hw] at h2
      cases h2
    · exact (spinOk_iff _ _).mp h2
  · rintro ⟨pre, a, rest, hps, ha, hw⟩
    have h1 : spinOk 0x10 ps = true :=
      (spinOk_iff _ _).mpr ⟨a, by rw [hps]; simp, ha⟩
    simp only [Bool.and_eq_true, Bool.or_eq_true, Bool.not_eq_true']
    refine ⟨h1, ?_⟩
    cases w with
    | false => exact Or.inl rfl
    | true =>
      right
      obtain ⟨b, hb, hbne⟩ := hw rfl
      obtain ⟨mid, hmid⟩ := spinRest_suffix 0x10 pre a rest ha
      rw [hps, hmid]
      exact (spinOk_iff _ _).mpr ⟨b, by simp [hb], hbne⟩

/-! ## Address query and frame window stores -/

theorem storeBytes_of_lt (d : Mem) (off : Nat) (bs : List Byte) (i : Nat) (h : i < off) :
    storeBytes d off bs i = d i := by
  unfold storeBytes
  rw [if_neg (by omega)]

theorem storeBytes_of_ge (d : Mem) (off : Nat) (bs : List Byte) (i : Nat)
    (h : off + bs.length ≤ i) : storeBytes d off bs i = d i := by
  unfold storeBytes
  split_ifs with h1
  · have : bs[i - off]? = none := List.getElem?_eq_none (by omega)
    rw [this]
    rfl
  · rfl

theorem storeBytes_of_mem (d : Mem) (off : Nat) (bs : List Byte) (k : Nat)
    (h : k < bs.length) : storeBytes d off bs (off + k) = bs[k] := by
  unfold storeBytes
  rw [if_pos (by omega)]
  have e : off + k - off = k := by omega
  rw [e, List.getElem?_eq_getElem h]
  rfl

theorem rdBytes_storeBytes (d : Mem) (off : Nat) (bs : List Byte) :
    rdBytes (storeBytes d off bs) off bs.length = bs := by
  apply List.ext_getElem
  · simp [rdBytes]
  · intro k h1 h2
    simp only [rdBytes, List.getElem_map, List.getElem_range]
    exact storeBytes_of_mem d off bs k h2

theorem rdBytes_congr (d1 d2 : Mem) (off n : Nat)
    (h : ∀ k, k < n → d1 (off + k) = d2 (off + k)) : rdBytes d1 off n = rdBytes d2 off n := by
  apply List.ext_getElem
  · simp [rdBytes]
  · intro k h1 h2
    simp only [rdBytes, List.getElem_map, List.getElem_range]
    simp only [rdBytes, List.length_map, List.length_range] at h1
    exact h k h1

theorem macRoundTrip_eq (m : World) :
    macRoundTrip m =
      ({ m with dpram := peerWrites (sendConsumed m.peer true)
                  (storeBytes m.dpram OFF_header (enc32 dpcmdEthGetMACAddr.val)),
                trace := m.trace ++
                  (Ev.lock :: Ev.dpramWrite OFF_header (enc32 dpcmdEthGetMACAddr.val) ::
                    sendTrace m.peer true),
                peer := sendRest m.peer true },
        if sendOk m.peer true then some wacOK else none) := by
  unfold macRoundTrip
  rw [sendMsgToArm_eq]
  simp [dpramWrite32, spin_lock_irqsave, emit]

theorem ethGetMacAddress_eq (m : World) (mac : Mem) :
    ethGetMacAddress m mac =
      if sendOk m.peer true = false then ((macRoundTrip m).1, none)
      else if rd32 (macRoundTrip m).1.dpram OFF_header ≠ dprplEthMACAddr.val then
        ({ (macRoundTrip m).1 with trace := (macRoundTrip m).1.trace ++
            [Ev.dpramRead OFF_header 4, Ev.unlock] }, some (wacCOMERR, mac))
      else
        ({ (macRoundTrip m).1 with trace := (macRoundTrip m).1.trace ++
            [Ev.dpramRead OFF_header 4, Ev.dpramRead OFF_mac ETH_ALEN, Ev.unlock] },
          some (wacOK, storeBytes mac 0 (rdBytes (macRoundTrip m).1.dpram OFF_mac ETH_ALEN))) := by
  have hu : ethGetMacAddress m mac =
      match macRoundTrip m with
      | (m, none) => (m, none)
      | (m, some _) =>
        let m := emit (Ev.dpramRead OFF_header 4) m
        if rd32 m.dpram OFF_header ≠ DprRpl.dprplEthMACAddr.val then
          let m := spin_unlock_irqrestore m
          (m, some (WarpAmiCommStatus.wacCOMERR, mac))
        else
          let m := emit (Ev.dpramRead OFF_mac ETH_ALEN) m
          let mac := storeBytes mac 0 (rdBytes m.dpram OFF_mac ETH_ALEN)
          let m := spin_unlock_irqrestore m
          (m, some (WarpAmiCommStatus.wacOK, mac)) := rfl
  rw [hu]
  simp only [macRoundTrip_eq]
  cases hok : sendOk m.peer true
  · simp
  · simp only [if_true, Bool.true_eq_false, if_false, emit, spin_unlock_irqrestore]
    split_ifs <;> simp_all

theorem macRoundTrip_returns (m : World) (st : WarpAmiCommStatus)
    (h : (macRoundTrip m).2 = some st) : sendOk m.peer true = true := by
  rw [macRoundTrip_eq] at h
  by_contra hc
  simp [hc] at h

theorem macRoundTrip_facts (m : World) (st : WarpAmiCommStatus)
    (h : (macRoundTrip m).2 = some st) :
    (macRoundTrip m).1.trace = m.trace ++
        Ev.lock :: Ev.dpramWrite OFF_header (enc32 dpcmdEthGetMACAddr.val) ::
          sendTrace m.peer true ∧
      crWrites (macRoundTrip m).1.trace = crWrites m.trace ++ [0x80000005, 0x11, 0x8] ∧
      dpramWrites (macRoundTrip m).1.trace =
        dpramWrites m.trace ++ [(OFF_header, enc32 dpcmdEthGetMACAddr.val)] ∧
      (macRoundTrip m).1.dpram = peerWrites (sendConsumed m.peer true)
        (storeBytes m.dpram OFF_header (enc32 dpcmdEthGetMACAddr.val)) ∧
      (macRoundTrip m).1.peer = sendRest m.peer true ∧
      (macRoundTrip m).1.dev_addr = m.dev_addr := by
  have hok := macRoundTrip_returns m st h
  have hr := congrArg Prod.fst (macRoundTrip_eq m)
  simp only at hr
  have hc := crWrites_sendTrace m.peer true hok
  simp only [if_true] at hc
  rw [hr]
  refine ⟨rfl, ?_, ?_, rfl, rfl, rfl⟩
  · simp [crWrites_append, crWrites_cons, selCrWrite, hc]
  · simp [dpramWrites_append, dpramWrites_cons, selDpramWrite, dpramWrites_sendTrace]

theorem rd16_storeBytes_enc16 (d : Mem) (off v : Nat) (hv : v < 65536) :
    rd16 (storeBytes d off (enc16 v)) off = v := by
  have h0 := storeBytes_of_mem d off (enc16 v) 0 (by simp [enc16])
  have h1 := storeBytes_of_mem d off (enc16 v) 1 (by simp [enc16])
  simp only [Nat.add_zero] at h0
  unfold rd16
  rw [h0, h1]
  simp [enc16, Fin.ofNat]
  omega

theorem rd32_storeBytes_enc32 (d : Mem) (off v : Nat) (hv : v < 4294967296) :
    rd32 (storeBytes d off (enc32 v)) off = v := by
  have h0 := storeBytes_of_mem d off (enc32 v) 0 (by simp [enc32])
  have h1 := storeBytes_of_mem d off (enc32 v) 1 (by simp [enc32])
  have h2 := storeBytes_of_mem d off (enc32 v) 2 (by simp [enc32])
  have h3 := storeBytes_of_mem d off (enc32 v) 3 (by simp [enc32])
  simp only [Nat.add_zero] at h0
  unfold rd32
  rw [h0, h1, h2, h3]
  simp [enc32, Fin.ofNat]
  omega

theorem xmitWindow_header (skb : List Byte) (d : Mem) :
    rd32 (xmitWindow skb d) OFF_header = dpcmdEthTransmit.val := by
  have h := rd32_storeBytes_enc32 d OFF_header dpcmdEthTransmit.val (by decide)
  unfold rd32 at h ⊢
  unfold xmitWindow
  rw [storeBytes_of_lt _ OFF_packet skb _ (by decide),
    storeBytes_of_lt _ OFF_packet skb _ (by decide),
    storeBytes_of_lt _ OFF_packet skb _ (by decide),
    storeBytes_of_lt _ OFF_packet skb _ (by decide),
    storeBytes_of_lt _ OFF_pktSize _ _ (by decide),
    storeBytes_of_lt _ OFF_pktSize _ _ (by decide),
    storeBytes_of_lt _ OFF_pktSize _ _ (by decide),
    storeBytes_of_lt _ OFF_pktSize _ _ (by decide)]
  exact h

theorem xmitWindow_pktSize (skb : List Byte) (d : Mem) (hlen : skb.length < 65536) :
    rd16 (xmitWindow skb d) OFF_pktSize = skb.length := by
  have h := rd16_storeBytes_enc16 (storeBytes d OFF_header (enc32 dpcmdEthTransmit.val))
    OFF_pktSize skb.length hlen
  unfold rd16 at h ⊢
  unfold xmitWindow
  rw [storeBytes_of_lt _ OFF_packet skb _ (by decide),
    storeBytes_of_lt _ OFF_packet skb _ (by decide)]
  exact h

theorem xmitWindow_packet (skb : List Byte) (d : Mem) :
    rdBytes (xmitWindow skb d) OFF_packet skb.length = skb :=
  rdBytes_storeBytes _ OFF_packet skb

theorem xmitWindow_beyond (skb : List Byte) (d : Mem) (i : Nat)
    (hi : OFF_packet + skb.length ≤ i) : xmitWindow skb d i = d i := by
  have h6 : OFF_packet = 6 := rfl
  unfold xmitWindow
  rw [storeBytes_of_ge _ _ _ _ hi,
    storeBytes_of_ge _ _ _ _ (by simp [enc16, OFF_pktSize]; omega),
    storeBytes_of_ge _ _ _ _ (by simp [enc32, OFF_header]; omega)]

theorem warpnet_start_xmit_eq (skb : List Byte) (m : World) :
    warpnet_start_xmit skb m =
      if sendOk m.peer false then
        ({ m with
            dpram := peerWrites (sendConsumed m.peer false) (xmitWindow skb m.dpram),
            trace := m.trace ++ [Ev.lock, Ev.dpramWrite OFF_header (enc32 dpcmdEthTransmit.val),
              Ev.dpramWrite OFF_pktSize (enc16 skb.length), Ev.dpramWrite OFF_packet skb] ++
              sendTrace m.peer false ++ [Ev.unlock, Ev.call KCall.dev_kfree_skb],
            peer := sendRest m.peer false,
            tx_packets := (m.tx_packets + 1) % ULONG_MOD,
            tx_bytes := (m.tx_bytes + skb.length) % ULONG_MOD },
          some netdev_tx_t.NETDEV_TX_OK)
      else
        ({ m with
            dpram := peerWrites (sendConsumed m.peer false) (xmitWindow skb m.dpram),
            trace := m.trace ++ [Ev.lock, Ev.dpramWrite OFF_header (enc32 dpcmdEthTransmit.val),
              Ev.dpramWrite OFF_pktSize (enc16 skb.length), Ev.dpramWrite OFF_packet skb] ++
              sendTrace m.peer false,
            peer := sendRest m.peer false }, none) := by
  unfold warpnet_start_xmit
  simp only [sendMsgToArm_eq]
  cases h : sendOk (dpramWriteBytes OFF_packet skb (dpramWrite16 OFF_pktSize skb.length
      (dpramWrite32 OFF_header dpcmdEthTransmit.val (spin_lock_irqsave m)))).peer false <;>
    simp [dpramWriteBytes, dpramWrite16, dpramWrite32, spin_lock_irqsave,
      spin_unlock_irqrestore, emit, xmitWindow] at h ⊢ <;> simp [h]

theorem warpnet_probe_eq (HZ : Nat) (env : ProbeEnv) (m : World)
    (halloc : env.alloc_ok = true) (hctrl : env.ctrl_found = true)
    (hirq : env.request_irq_ret = 0) :
    warpnet_probe HZ env m =
      match ethGetMacAddress (probeQuery HZ m) env.warp_mac with
      | (m, none) => (m, none)
      | (m, some (warpStat, warp_mac)) =>
        (emit (Ev.call KCall.timer_setup)
          (if warpStat = wacOK then eth_hw_addr_set warp_mac m
            else eth_hw_addr_random env.random_addr (emit Ev.netdev_err m)), some 0) := by
  unfold warpnet_probe probeQuery
  simp only [halloc, hctrl, hirq, Bool.not_true, Bool.false_eq_true, if_false, ne_eq,
    not_true_eq_false]

theorem probeQuery_facts (HZ : Nat) (m : World) :
    (probeQuery HZ m).peer = m.peer ∧ (probeQuery HZ m).dpram = m.dpram ∧
      (probeQuery HZ m).trace = m.trace ++ [Ev.call KCall.alloc_etherdev,
        Ev.call (KCall.netif_napi_add_weight 8), Ev.call KCall.register_netdev,
        Ev.crWrite 0xFFE, Ev.call KCall.request_irq] := by
  refine ⟨rfl, rfl, ?_⟩
  simp [probeQuery, alloc_etherdev, cleanupIrqAndFlags, crWrite, emit, cleanup_mask_eq]

theorem calls_cons (e : Ev) (t : List Ev) :
    calls (e :: t) = (match e with | Ev.call c => [c] | _ => []) ++ calls t := by
  cases e <;> simp [calls, List.filterMap_cons]

theorem calls_nil : calls [] = [] := rfl

theorem calls_reads (ps : List PeerStep) : calls (reads ps) = [] := by
  induction ps with
  | nil => rfl
  | cons p ps ih =>
    have h : reads (p :: ps) = Ev.crRead p.cr :: reads ps := rfl
    rw [h, calls_cons, ih]
    rfl

theorem calls_sendTrace (ps : List PeerStep) (w : Bool) : calls (sendTrace ps w) = [] := by
  unfold sendTrace
  split_ifs <;> simp [calls_append, calls_cons, calls_reads, calls_nil]

theorem rdBytes_storeBytes_len (d : Mem) (off n : Nat) (bs : List Byte)
    (h : bs.length = n) : rdBytes (storeBytes d off bs) off n = bs := by
  subst h
  exact rdBytes_storeBytes d off bs

theorem peerWrites_of_no_wr : ∀ (ps : List PeerStep) (d : Mem), (∀ q ∈ ps, q.wr = []) →
    peerWrites ps d = d := by
  intro ps
  induction ps with
  | nil => intro d _; rfl
  | cons p ps ih =>
    intro d h
    have hp := h p (List.mem_cons_self _ _)
    have := ih d (fun q hq => h q (List.mem_cons_of_mem _ hq))
    simpa [peerWrites, applyWr, hp] using this

/-! ## Lock discipline -/

theorem lockScan_append (a b : List Ev) : ∀ held : Bool,
    lockScan held (a ++ b) = (lockScan held a).bind (fun h => lockScan h b) := by
  induction a with
  | nil => intro held; rfl
  | cons e a ih =>
    intro held
    cases e <;> cases held <;> simp [lockScan, ih]

theorem lockScan_reads (ps : List PeerStep) : lockScan true (reads ps) = some true := by
  induction ps with
  | nil => rfl
  | cons p ps ih =>
    have h : reads (p :: ps) = Ev.crRead p.cr :: reads ps := rfl
    rw [h]
    simpa [lockScan] using ih

theorem lockScan_sendTrace (ps : List PeerStep) (w : Bool) :
    lockScan true (sendTrace ps w) = some true := by
  unfold sendTrace
  split_ifs <;> simp [lockScan, lockScan_append, lockScan_reads]

theorem count_lock_reads (ps : List PeerStep) :
    (reads ps).count Ev.lock = 0 ∧ (reads ps).count Ev.unlock = 0 := by
  induction ps with
  | nil => exact ⟨rfl, rfl⟩
  | cons p ps ih =>
    have h : reads (p :: ps) = Ev.crRead p.cr :: reads ps := rfl
    rw [h]
    simpa [List.count_cons] using ih

theorem count_lock_sendTrace (ps : List PeerStep) (w : Bool) :
    (sendTrace ps w).count Ev.lock = 0 ∧ (sendTrace ps w).count Ev.unlock = 0 := by
  unfold sendTrace
  split_ifs <;> simp [List.count_cons, List.count_append, count_lock_reads]
theorem lockScan_roundTrip (c : Nat) (ps : List PeerStep) (tl : List Ev) :
    lockScan false (Ev.lock :: Ev.dpramWrite OFF_header (enc32 c) :: sendTrace ps true ++ tl) =
      lockScan true tl := by
  have h := lockScan_append (sendTrace ps true) tl true
  rw [lockScan_sendTrace] at h
  simpa [lockScan] using h

theorem count_roundTrip (c : Nat) (ps : List PeerStep) (tl : List Ev) :
    (Ev.lock :: Ev.dpramWrite OFF_header (enc32 c) :: sendTrace ps true ++ tl).count Ev.lock =
        1 + tl.count Ev.lock ∧
      (Ev.lock :: Ev.dpramWrite OFF_header (enc32 c) :: sendTrace ps true ++ tl).count
        Ev.unlock = tl.count Ev.unlock := by
  obtain ⟨h1, h2⟩ := count_lock_sendTrace ps true
  constructor
  · simp [List.count_cons, List.count_append, h1]
    omega
  · simp [List.count_cons, List.count_append, h2]

theorem pollBody_lock (m : World) :
    ∃ t, (pollBody m).1.trace = m.trace ++ t ∧ t.count Ev.lock = 1 ∧
      ((pollBody m).2 = none → lockScan false t = some true ∧ t.count Ev.unlock = 0) ∧
      (∀ c, (pollBody m).2 = some c → lockScan false t = some false ∧ t.count Ev.unlock = 1) ∧
      ((pollBody m).2 = some LoopCtl.brk → delivered t = []) := by
  have hr := congrArg Prod.fst (rxRoundTrip_eq m)
  simp only at hr
  have ht : (rxRoundTrip m).1.trace = m.trace ++
      (Ev.lock :: Ev.dpramWrite OFF_header (enc32 dpcmdEthReceive.val) ::
        sendTrace m.peer true) := by rw [hr]
  have key : ∀ (tl : List Ev) (w : World) (r : Option LoopCtl),
      pollBody m = (w, r) → w.trace = (rxRoundTrip m).1.trace ++ tl →
      tl.count Ev.lock = 0 →
      (r = none → lockScan true tl = some true ∧ tl.count Ev.unlock = 0) →
      (∀ c, r = some c → lockScan true tl = some false ∧ tl.count Ev.unlock = 1) →
      (r = some LoopCtl.brk → delivered tl = []) →
      ∃ t, (pollBody m).1.trace = m.trace ++ t ∧ t.count Ev.lock = 1 ∧
        ((pollBody m).2 = none → lockScan false t = some true ∧ t.count Ev.unlock = 0) ∧
        (∀ c, (pollBody m).2 = some c →
          lockScan false t = some false ∧ t.count Ev.unlock = 1) ∧
        ((pollBody m).2 = some LoopCtl.brk → delivered t = []) := by
    intro tl w r hb hw h0 hn hs hd
    obtain ⟨c1, c2⟩ := count_roundTrip dpcmdEthReceive.val m.peer tl
    refine ⟨Ev.lock :: Ev.dpramWrite OFF_header (enc32 dpcmdEthReceive.val) ::
      sendTrace m.peer true ++ tl, ?_, ?_, ?_, ?_, ?_⟩
    · rw [hb]
      simp only
      rw [hw, ht]
      simp
    · rw [c1, h0]
    · rw [hb]
      intro h
      rw [lockScan_roundTrip, c2]
      exact hn h
    · rw [hb]
      intro c h
      rw [lockScan_roundTrip, c2]
      exact hs c h
    · rw [hb]
      intro h
      simp only [List.cons_append, delivered_cons, delivered_append, delivered_sendTrace,
        selDelivered, Option.toList, List.nil_append]
      exact hd h
  by_cases h1 : sendOk m.peer true = false
  · refine key [] _ _ (by rw [pollBody_eq, if_pos h1]) (by simp) rfl ?_ ?_ ?_
    · intro _; exact ⟨rfl, rfl⟩
    · intro c h; simp at h
    · intro h; simp at h
  by_cases h2 : rd32 (rxRoundTrip m).1.dpram OFF_header ≠ dprplEthReceive.val
  · refine key [Ev.dpramRead OFF_header 4, Ev.unlock, Ev.netdev_err] _ _
      (by rw [pollBody_eq, if_neg h1, if_pos h2]) rfl (by simp [List.count_cons]) ?_ ?_ ?_
    · intro h; simp at h
    · intro c _; exact ⟨rfl, by simp [List.count_cons]⟩
    · intro _; rfl
  by_cases h3 : rd16 (rxRoundTrip m).1.dpram OFF_pktSize = 0
  · refine key [Ev.dpramRead OFF_header 4, Ev.dpramRead OFF_pktSize 2, Ev.unlock] _ _
      (by rw [pollBody_eq, if_neg h1, if_neg h2, if_pos h3]) rfl (by simp [List.count_cons])
      ?_ ?_ ?_
    · intro h; simp at h
    · intro c _; exact ⟨rfl, by simp [List.count_cons]⟩
    · intro _; rfl
  by_cases h4 : m.promisc = false ∧
      rdBytes (rxRoundTrip m).1.dpram OFF_packet ETH_ALEN ≠ rdBytes m.dev_addr 0 ETH_ALEN ∧
      rdBytes (rxRoundTrip m).1.dpram OFF_packet ETH_ALEN ≠ List.replicate ETH_ALEN 0xff
  · refine key [Ev.dpramRead OFF_header 4, Ev.dpramRead OFF_pktSize 2,
      Ev.dpramRead OFF_packet ETH_ALEN, Ev.dpramRead OFF_packet ETH_ALEN, Ev.unlock] _ _
      (by rw [pollBody_eq, if_neg h1, if_neg h2, if_neg h3, if_pos h4]) rfl
      (by simp [List.count_cons]) ?_ ?_ ?_
    · intro h; simp at h
    · intro c _; exact ⟨rfl, by simp [List.count_cons]⟩
    · intro _; rfl
  by_cases h5 : m.skb_allocs.head? = some false
  · refine key _ _ _
      (by rw [pollBody_eq, if_neg h1, if_neg h2, if_neg h3, if_neg h4, if_pos h5]) rfl
      ?_ ?_ ?_ ?_
    · split_ifs <;> simp [List.count_cons]
    · intro _
      split_ifs <;> simp [lockScan, List.count_cons]
    · intro c h; simp at h
    · intro h; simp at h
  refine key _ _ _
    (by rw [pollBody_eq, if_neg h1, if_neg h2, if_neg h3, if_neg h4, if_neg h5]) rfl
    ?_ ?_ ?_ ?_
  · split_ifs <;> simp [List.count_cons]
  · intro h; simp at h
  · intro c _
    split_ifs <;> simp [lockScan, List.count_cons]
  · intro h; simp at h
theorem pollEnd_lock (budget rx_count : Int) (m : World) :
    ∃ t, (pollEnd budget rx_count m).1.trace = m.trace ++ t ∧
      lockScan false t = some false ∧ t.count Ev.lock = 0 ∧ t.count Ev.unlock = 0 ∧
      delivered t = [] ∧ ∃ r, (pollEnd budget rx_count m).2 = some r := by
  unfold pollEnd
  split_ifs
  · exact ⟨[Ev.napi_complete_done rx_count], by simp [napi_complete_done, emit], rfl,
      by simp [List.count_cons], by simp [List.count_cons], rfl, _, rfl⟩
  · exact ⟨[], by simp, rfl, rfl, rfl, rfl, _, rfl⟩

theorem pollLoop_lock (budget : Int) : ∀ (fuel : Nat) (rx_count : Int) (m : World),
    ∃ t h, (pollLoop budget fuel rx_count m).1.trace = m.trace ++ t ∧
      lockScan false t = some h ∧
      (∀ r, (pollLoop budget fuel rx_count m).2 = some r →
        h = false ∧ t.count Ev.lock = t.count Ev.unlock) := by
  intro fuel
  induction fuel with
  | zero =>
    intro rx_count m
    rw [pollLoop_zero]
    by_cases hlt : rx_count < budget
    · rw [if_pos hlt]
      exact ⟨[], false, by simp, rfl, fun r hr => by simp at hr⟩
    · rw [if_neg hlt]
      obtain ⟨t, e1, e2, e3, e4, -, -⟩ := pollEnd_lock budget rx_count m
      exact ⟨t, false, e1, e2, fun _ _ => ⟨rfl, by rw [e3, e4]⟩⟩
  | succ fuel ih =>
    intro rx_count m
    rw [pollLoop_succ]
    by_cases hlt : rx_count < budget
    · rw [if_pos hlt]
      obtain ⟨tb, b1, b2, b3, b4, -⟩ := pollBody_lock m
      rcases hb : pollBody m with ⟨m1, _ | ctl⟩
      · rw [hb] at b1 b3
        exact ⟨tb, true, b1, (b3 rfl).1, fun r hr => by simp at hr⟩
      · rw [hb] at b1 b4
        obtain ⟨s1, s2⟩ := b4 ctl rfl
        cases ctl with
        | brk =>
          obtain ⟨t, e1, e2, e3, e4, -, -⟩ := pollEnd_lock budget rx_count m1
          refine ⟨tb ++ t, false, ?_, ?_, ?_⟩
          · simp only at b1 ⊢
            rw [e1, b1, List.append_assoc]
          · rw [lockScan_append, s1]
            exact e2
          · intro r _
            exact ⟨rfl, by rw [List.count_append, List.count_append, b2, s2, e3, e4]⟩
        | next =>
          obtain ⟨t, h, e1, e2, e3⟩ := ih (rx_count + 1) m1
          refine ⟨tb ++ t, h, ?_, ?_, ?_⟩
          · simp only at b1 ⊢
            rw [e1, b1, List.append_assoc]
          · rw [lockScan_append, s1]
            exact e2
          · intro r hr
            obtain ⟨f1, f2⟩ := e3 r hr
            exact ⟨f1, by rw [List.count_append, List.count_append, b2, s2, f2]⟩
    · rw [if_neg hlt]
      obtain ⟨t, e1, e2, e3, e4, -, -⟩ := pollEnd_lock budget rx_count m
      exact ⟨t, false, e1, e2, fun _ _ => ⟨rfl, by rw [e3, e4]⟩⟩

theorem ethGetMacAddress_lock (m : World) (mac : Mem) :
    ∃ t, (ethGetMacAddress m mac).1.trace = m.trace ++ t ∧ t.count Ev.lock = 1 ∧
      ((ethGetMacAddress m mac).2 = none →
        lockScan false t = some true ∧ t.count Ev.unlock = 0) ∧
      (∀ r, (ethGetMacAddress m mac).2 = some r →
        lockScan false t = some false ∧ t.count Ev.unlock = 1) := by
  have hr := congrArg Prod.fst (macRoundTrip_eq m)
  simp only at hr
  have ht : (macRoundTrip m).1.trace = m.trace ++
      (Ev.lock :: Ev.dpramWrite OFF_header (enc32 dpcmdEthGetMACAddr.val) ::
        sendTrace m.peer true) := by rw [hr]
  have key : ∀ (tl : List Ev) (w : World) (r : Option (WarpAmiCommStatus × Mem)),
      ethGetMacAddress m mac = (w, r) → w.trace = (macRoundTrip m).1.trace ++ tl →
      tl.count Ev.lock = 0 →
      (r = none → lockScan true tl = some true ∧ tl.count Ev.unlock = 0) →
      (∀ c, r = some c → lockScan true tl = some false ∧ tl.count Ev.unlock = 1) →
      ∃ t, (ethGetMacAddress m mac).1.trace = m.trace ++ t ∧ t.count Ev.lock = 1 ∧
        ((ethGetMacAddress m mac).2 = none →
          lockScan false t = some true ∧ t.count Ev.unlock = 0) ∧
        (∀ r, (ethGetMacAddress m mac).2 = some r →
          lockScan false t = some false ∧ t.count Ev.unlock = 1) := by
    intro tl w r hb hw h0 hn hs
    obtain ⟨c1, c2⟩ := count_roundTrip dpcmdEthGetMACAddr.val m.peer tl
    refine ⟨Ev.lock :: Ev.dpramWrite OFF_header (enc32 dpcmdEthGetMACAddr.val) ::
      sendTrace m.peer true ++ tl, ?_, ?_, ?_, ?_⟩
    · rw [hb]
      simp only
      rw [hw, ht]
      simp
    · rw [c1, h0]
    · rw [hb]
      intro h
      rw [lockScan_roundTrip, c2]
      exact hn h
    · rw [hb]
      intro c h
      rw [lockScan_roundTrip, c2]
      exact hs c h
  by_cases h1 : sendOk m.peer true = false
  · refine key [] _ _ (by rw [ethGetMacAddress_eq, if_pos h1]) (by simp) rfl ?_ ?_
    · intro _; exact ⟨rfl, rfl⟩
    · intro c h; simp at h
  by_cases h2 : rd32 (macRoundTrip m).1.dpram OFF_header ≠ dprplEthMACAddr.val
  · refine key [Ev.dpramRead OFF_header 4, Ev.unlock] _ _
      (by rw [ethGetMacAddress_eq, if_neg h1, if_pos h2]) rfl (by simp [List.count_cons]) ?_ ?_
    · intro h; simp at h
    · intro c _; exact ⟨rfl, by simp [List.count_cons]⟩
  · refine key [Ev.dpramRead OFF_header 4, Ev.dpramRead OFF_mac ETH_ALEN, Ev.unlock] _ _
      (by rw [ethGetMacAddress_eq, if_neg h1, if_neg h2]) rfl (by simp [List.count_cons]) ?_ ?_
    · intro h; simp at h
    · intro c _; exact ⟨rfl, by simp [List.count_cons]⟩

theorem warpnet_start_xmit_lock (skb : List Byte) (m : World) :
    ∃ t, (warpnet_start_xmit skb m).1.trace = m.trace ++ t ∧ t.count Ev.lock = 1 ∧
      ((warpnet_start_xmit skb m).2 = none →
        lockScan false t = some true ∧ t.count Ev.unlock = 0) ∧
      (∀ r, (warpnet_start_xmit skb m).2 = some r →
        lockScan false t = some false ∧ t.count Ev.unlock = 1) := by
  obtain ⟨c1, c2⟩ := count_lock_sendTrace m.peer false
  have hs : lockScan true (sendTrace m.peer false) = some true := lockScan_sendTrace _ _
  have hpre : ∀ tl, lockScan false ([Ev.lock,
      Ev.dpramWrite OFF_header (enc32 dpcmdEthTransmit.val),
      Ev.dpramWrite OFF_pktSize (enc16 skb.length), Ev.dpramWrite OFF_packet skb] ++
      (sendTrace m.peer false ++ tl)) = lockScan true tl := by
    intro tl
    have h := lockScan_append (sendTrace m.peer false) tl true
    rw [hs] at h
    simpa only [lockScan, List.cons_append, List.nil_append, Bool.false_eq_true, if_false,
      if_true, Option.bind] using h
  rw [warpnet_start_xmit_eq]
  by_cases h : sendOk m.peer false = true
  · rw [if_pos h]
    refine ⟨[Ev.lock, Ev.dpramWrite OFF_header (enc32 dpcmdEthTransmit.val),
      Ev.dpramWrite OFF_pktSize (enc16 skb.length), Ev.dpramWrite OFF_packet skb] ++
      (sendTrace m.peer false ++ [Ev.unlock, Ev.call KCall.dev_kfree_skb]),
      by simp only [List.append_assoc], ?_, fun h => by simp at h, fun r _ => ⟨?_, ?_⟩⟩
    · simp only [List.count_append, c1]
      simp [List.count_cons]
    · rw [hpre]
      rfl
    · simp only [List.count_append, c2]
      simp [List.count_cons]
  · rw [if_neg h]
    refine ⟨[Ev.lock, Ev.dpramWrite OFF_header (enc32 dpcmdEthTransmit.val),
      Ev.dpramWrite OFF_pktSize (enc16 skb.length), Ev.dpramWrite OFF_packet skb] ++
      (sendTrace m.peer false ++ []),
      by simp only [List.append_assoc, List.append_nil], ?_, fun _ => ⟨?_, ?_⟩,
      fun r h => by simp at h⟩
    · simp only [List.count_append, c1]
      simp [List.count_cons]
    · rw [hpre]
      rfl
    · simp only [List.count_append, c2]
      simp [List.count_cons]

/-! ## A window the peer did not rewrite -/

theorem applyWr_keep (wr : List (Nat × Byte)) (i : Nat) : ∀ (d : Mem),
    (∀ w ∈ wr, w.1 ≠ i) → applyWr wr d i = d i := by
  induction wr with
  | nil => intro d _; rfl
  | cons w wr ih =>
    intro d h
    have hw := h w (List.mem_cons_self _ _)
    have := ih (Function.update d w.1 w.2) (fun x hx => h x (List.mem_cons_of_mem _ hx))
    simp only [applyWr, List.foldl_cons] at this ⊢
    rw [this, Function.update_noteq (Ne.symm hw)]

theorem peerWrites_keep (ps : List PeerStep) (i : Nat) : ∀ (d : Mem),
    (∀ q ∈ ps, ∀ w ∈ q.wr, w.1 ≠ i) → peerWrites ps d i = d i := by
  induction ps with
  | nil => intro d _; rfl
  | cons p ps ih =>
    intro d h
    have := ih (applyWr p.wr d) (fun q hq => h q (List.mem_cons_of_mem _ hq))
    simp only [peerWrites, List.foldl_cons] at this ⊢
    rw [this, applyWr_keep p.wr i d (h p (List.mem_cons_self _ _))]

theorem rd32_peerWrites_keep (ps : List PeerStep) (d : Mem)
    (h : ∀ q ∈ ps, ∀ w ∈ q.wr, 4 ≤ w.1) : rd32 (peerWrites ps d) 0 = rd32 d 0 := by
  have k : ∀ i, i < 4 → peerWrites ps d i = d i := fun i hi =>
    peerWrites_keep ps i d (fun q hq w hw => by have := h q hq w hw; omega)
  unfold rd32
  rw [k 0 (by omega), k (0 + 1) (by omega), k (0 + 2) (by omega), k (0 + 3) (by omega)]

theorem sendConsumed_of_split (pre1 : List PeerStep) (a : PeerStep) (pre2 : List PeerStep)
    (b : PeerStep) (post : List PeerStep)
    (hpre1 : ∀ q ∈ pre1, q.cr &&& 0x10 = 0) (ha : a.cr &&& 0x10 ≠ 0)
    (hpre2 : ∀ q ∈ pre2, q.cr &&& 0x8 = 0) (hb : b.cr &&& 0x8 ≠ 0) :
    sendOk (pre1 ++ a :: (pre2 ++ b :: post)) true = true ∧
      sendConsumed (pre1 ++ a :: (pre2 ++ b :: post)) true = pre1 ++ a :: (pre2 ++ [b]) ∧
      sendRest (pre1 ++ a :: (pre2 ++ b :: post)) true = post := by
  have hm1 : DPREG_CR_MR_ARM = 0x10 := by decide
  have hm2 : DPREG_CR_MP_68K = 0x8 := by decide
  obtain ⟨o1, p1, r1⟩ := spin_of_split DPREG_CR_MR_ARM pre1 a (pre2 ++ b :: post)
    (by simpa [hm1] using hpre1) (by simpa [hm1] using ha)
  obtain ⟨o2, p2, r2⟩ := spin_of_split DPREG_CR_MP_68K pre2 b post
    (by simpa [hm2] using hpre2) (by simpa [hm2] using hb)
  refine ⟨?_, ?_, ?_⟩
  · simp [sendOk, o1, r1, o2]
  · simp [sendConsumed, o1, p1, r1, p2]
  · simp [sendRest, o1, r1, r2]

/-! ## Frame buffer: mode check -/

theorem check_var_colour_fields (v : fb_var_screeninfo) :
    (check_var_colour v).xres = v.xres ∧ (check_var_colour v).yres = v.yres ∧
      (check_var_colour v).xres_virtual = v.xres_virtual ∧
      (check_var_colour v).yres_virtual = v.yres_virtual ∧
      (check_var_colour v).xoffset = v.xoffset ∧ (check_var_colour v).yoffset = v.yoffset ∧
      (check_var_colour v).bits_per_pixel = v.bits_per_pixel ∧
      (check_var_colour v).grayscale = v.grayscale ∧ (check_var_colour v).vmode = v.vmode := by
  unfold check_var_colour
  simp only
  split_ifs <;> exact ⟨rfl, rfl, rfl, rfl, rfl, rfl, rfl, rfl, rfl⟩

theorem check_var_memory_fields (v : fb_var_screeninfo) :
    (check_var_memory v).1.xres = v.xres ∧ (check_var_memory v).1.yres = v.yres ∧
      (check_var_memory v).1.bits_per_pixel = v.bits_per_pixel ∧
      (check_var_memory v).1.grayscale = v.grayscale ∧
      ((check_var_memory v).2 = 0 ∨ (check_var_memory v).2 = - ENOMEM) ∧
      ((check_var_memory v).2 = 0 →
        ∃ w, (check_var_memory v).1 = check_var_colour w ∧
          w.bits_per_pixel = v.bits_per_pixel ∧ w.grayscale = v.grayscale) := by
  unfold check_var_memory
  simp only
  split_ifs <;>
    simp [(check_var_colour_fields _).1, (check_var_colour_fields _).2.1,
      (check_var_colour_fields _).2.2.2.2.2.2.1, (check_var_colour_fields _).2.2.2.2.2.2.2.1,
      ENOMEM] <;>
    exact ⟨_, rfl, rfl, rfl⟩

theorem check_var_resolution_fields (var : fb_var_screeninfo) :
    (check_var_resolution var).bits_per_pixel = var.bits_per_pixel ∧
      (check_var_resolution var).grayscale = var.grayscale ∧
      (check_var_resolution var).xres_virtual = var.xres_virtual ∧
      (check_var_resolution var).yres_virtual = var.yres_virtual ∧
      (check_var_resolution var).xoffset = var.xoffset ∧
      (check_var_resolution var).yoffset = var.yoffset ∧
      (check_var_resolution var).vmode = var.vmode := by
  unfold check_var_resolution
  split <;> exact ⟨rfl, rfl, rfl, rfl, rfl, rfl, rfl⟩

theorem check_var_virtual_fields (var : fb_var_screeninfo) (info : fb_info) :
    (check_var_virtual var info).xres = (check_var_resolution var).xres ∧
      (check_var_virtual var info).yres = (check_var_resolution var).yres ∧
      (check_var_virtual var info).bits_per_pixel = var.bits_per_pixel ∧
      (check_var_virtual var info).grayscale = var.grayscale := by
  obtain ⟨hb, hg, -⟩ := check_var_resolution_fields var
  unfold check_var_virtual
  simp only
  split_ifs <;> exact ⟨rfl, rfl, hb, hg⟩

theorem warpfb_check_var_depth (var : fb_var_screeninfo) (info : fb_info) :
    warpfb_check_var var info =
      if var.bits_per_pixel ≤ 8 then
        check_var_memory { check_var_virtual var info with bits_per_pixel := 8 }
      else if var.bits_per_pixel ≤ 16 then
        check_var_memory { check_var_virtual var info with bits_per_pixel := 16 }
      else if var.bits_per_pixel ≤ 32 then
        check_var_memory { check_var_virtual var info with bits_per_pixel := 32 }
      else (check_var_virtual var info, - EINVAL) := by
  unfold warpfb_check_var
  simp only [(check_var_virtual_fields var info).2.2.1]
theorem check_var_resolution_eq (var : fb_var_screeninfo) :
    ((check_var_resolution var).xres, (check_var_resolution var).yres) =
      if (var.xres, var.yres) ∈
          [(640, 480), (800, 600), (1024, 768), (1280, 720), (1280, 1024)]
      then (var.xres, var.yres) else (640, 480) := by
  unfold check_var_resolution getCSGfxMode
  simp only
  by_cases h1 : var.xres = 640 ∧ var.yres = 480
  · obtain ⟨a, b⟩ := h1
    simp [a, b]
  by_cases h2 : var.xres = 800 ∧ var.yres = 600
  · obtain ⟨a, b⟩ := h2
    simp [a, b]
  by_cases h3 : var.xres = 1024 ∧ var.yres = 768
  · obtain ⟨a, b⟩ := h3
    simp [a, b]
  by_cases h4 : var.xres = 1280 ∧ var.yres = 720
  · obtain ⟨a, b⟩ := h4
    simp [a, b]
  by_cases h5 : var.xres = 1280 ∧ var.yres = 1024
  · obtain ⟨a, b⟩ := h5
    simp [a, b]
  simp [h1, h2, h3, h4, h5]

theorem warpfb_check_var_fields (var : fb_var_screeninfo) (info : fb_info) :
    (warpfb_check_var var info).1.xres = (check_var_resolution var).xres ∧
      (warpfb_check_var var info).1.yres = (check_var_resolution var).yres ∧
      (warpfb_check_var var info).1.grayscale = var.grayscale ∧
      (warpfb_check_var var info).1.bits_per_pixel =
        (if var.bits_per_pixel ≤ 8 then 8 else if var.bits_per_pixel ≤ 16 then 16
          else if var.bits_per_pixel ≤ 32 then 32 else var.bits_per_pixel) := by
  obtain ⟨h1, h2, h3, h4⟩ := check_var_virtual_fields var info
  rw [warpfb_check_var_depth]
  split_ifs <;>
    simp [(check_var_memory_fields _).1, (check_var_memory_fields _).2.1,
      (check_var_memory_fields _).2.2.1, (check_var_memory_fields _).2.2.2.1, h1, h2, h3, h4]
theorem check_var_colour_layout (w : fb_var_screeninfo) :
    (w.bits_per_pixel = 8 →
      (check_var_colour w).red = { offset := 0, length := 8 } ∧
      (check_var_colour w).green = { offset := 0, length := 8 } ∧
      (check_var_colour w).blue = { offset := 0, length := 8 } ∧
      (check_var_colour w).transp = { offset := 0, length := 0 }) ∧
    (w.bits_per_pixel = 16 →
      (check_var_colour w).red = { offset := 11, length := 5 } ∧
      (check_var_colour w).green = { offset := 5, length := 6 } ∧
      (check_var_colour w).blue = { offset := 0, length := 5 } ∧
      (check_var_colour w).transp = { offset := 0, length := 0 }) ∧
    (w.bits_per_pixel = 32 →
      (check_var_colour w).red = { offset := 8, length := 8 } ∧
      (check_var_colour w).green = { offset := 16, length := 8 } ∧
      (check_var_colour w).blue = { offset := 24, length := 8 } ∧
      (check_var_colour w).transp = { offset := 0, length := 0 }) := by
  refine ⟨?_, ?_, ?_⟩ <;> intro h <;> simp [check_var_colour, h]

theorem warpfb_check_var_ret (var : fb_var_screeninfo) (info : fb_info) :
    ((warpfb_check_var var info).2 = - EINVAL ↔ 32 < var.bits_per_pixel) ∧
      ((warpfb_check_var var info).2 = 0 →
        ∃ w, (warpfb_check_var var info).1 = check_var_colour w ∧
          w.bits_per_pixel = (warpfb_check_var var info).1.bits_per_pixel ∧
          w.grayscale = var.grayscale) := by
  obtain ⟨-, -, -, hg⟩ := check_var_virtual_fields var info
  have hne : ∀ v, (check_var_memory v).2 ≠ - EINVAL := by
    intro v h
    rcases (check_var_memory_fields v).2.2.2.2.1 with h0 | h0 <;> rw [h0] at h <;>
      simp [EINVAL, ENOMEM] at h
  have hcol : ∀ v, v.grayscale = var.grayscale → (check_var_memory v).2 = 0 →
      ∃ w, (check_var_memory v).1 = check_var_colour w ∧
        w.bits_per_pixel = (check_var_memory v).1.bits_per_pixel ∧
        w.grayscale = var.grayscale := by
    intro v hv h
    obtain ⟨w, e1, e2, e3⟩ := (check_var_memory_fields v).2.2.2.2.2 h
    exact ⟨w, e1, by rw [e2, (check_var_memory_fields v).2.2.1], by rw [e3, hv]⟩
  rw [warpfb_check_var_depth]
  split_ifs with h1 h2 h3
  · exact ⟨⟨fun h => absurd h (hne _), fun h => by omega⟩, hcol _ hg⟩
  · exact ⟨⟨fun h => absurd h (hne _), fun h => by omega⟩, hcol _ hg⟩
  · exact ⟨⟨fun h => absurd h (hne _), fun h => by omega⟩, hcol _ hg⟩
  · exact ⟨⟨fun _ => by omega, fun _ => rfl⟩, fun h => by simp [EINVAL] at h⟩
/-! ## Frame buffer: colour registers -/

theorem warpfb_setcolreg_truecolor (regno red green blue transp : Nat) (info : fb_info)
    (hvis : info.fix.visual = FB_VISUAL_TRUECOLOR) (hreg : regno < 16) :
    warpfb_setcolreg regno red green blue transp info =
      if info.var.bits_per_pixel = 16 ∨ info.var.bits_per_pixel = 24 ∨
          info.var.bits_per_pixel = 32 then
        ({ info with
            pseudo_palette := Function.update info.pseudo_palette regno
              ((CNVT_TOHW (if info.var.grayscale ≠ 0 then gray_level red green blue else red)
                info.var.red.length <<< info.var.red.offset) % 4294967296 |||
              (CNVT_TOHW (if info.var.grayscale ≠ 0 then gray_level red green blue else green)
                info.var.green.length <<< info.var.green.offset) % 4294967296 |||
              (CNVT_TOHW (if info.var.grayscale ≠ 0 then gray_level red green blue else blue)
                info.var.blue.length <<< info.var.blue.offset) % 4294967296 |||
              (CNVT_TOHW transp info.var.transp.length <<< info.var.transp.offset) %
                4294967296) }, 0)
      else (info, 0) := by
  have h256 : ¬ regno ≥ 256 := by omega
  have h16 : ¬ regno ≥ 16 := by omega
  have hp : ¬ (FB_VISUAL_TRUECOLOR = FB_VISUAL_PSEUDOCOLOR) := by decide
  unfold warpfb_setcolreg
  simp only [h256, h16, hvis, hp, if_false, if_true, true_or]

theorem warpfb_setcolreg_pseudocolor (regno red green blue transp : Nat) (info : fb_info)
    (hvis : info.fix.visual = FB_VISUAL_PSEUDOCOLOR) (hreg : regno < 256) :
    warpfb_setcolreg regno red green blue transp info =
      ({ info with
          clut := Function.update info.clut regno
            ((((if info.var.grayscale ≠ 0 then gray_level red green blue else red) >>> 8) <<< 16) %
              4294967296 |||
            (((if info.var.grayscale ≠ 0 then gray_level red green blue else green) >>> 8)
              <<< 8) % 4294967296 |||
            ((if info.var.grayscale ≠ 0 then gray_level red green blue else blue) >>> 8)) },
        0) := by
  have h256 : ¬ regno ≥ 256 := by omega
  have hp : ¬ (FB_VISUAL_PSEUDOCOLOR = FB_VISUAL_TRUECOLOR) := by decide
  unfold warpfb_setcolreg
  simp only [h256, hvis, hp, if_false, if_true]

theorem warpfb_setcolreg_invalid (regno red green blue transp : Nat) (info : fb_info) :
    (regno ≥ 256 → warpfb_setcolreg regno red green blue transp info = (info, 1)) ∧
      (info.fix.visual = FB_VISUAL_TRUECOLOR → regno ≥ 16 →
        warpfb_setcolreg regno red green blue transp info = (info, 1)) := by
  have hp : ¬ (FB_VISUAL_TRUECOLOR = FB_VISUAL_PSEUDOCOLOR) := by decide
  constructor
  · intro h
    unfold warpfb_setcolreg
    rw [if_pos h]
  · intro hvis h
    unfold warpfb_setcolreg
    by_cases h256 : regno ≥ 256
    · rw [if_pos h256]
    · simp only [h256, h, hvis, hp, if_false, if_true]

theorem CNVT_TOHW_exact (c w : Nat) (hc : c < 65536) (hw : w ≤ 15) :
    CNVT_TOHW c w = ((c <<< w) + 0x7FFF - c) >>> 16 := by
  have h1 : c <<< w = c * 2 ^ w := Nat.shiftLeft_eq c w
  have h2 : 2 ^ w ≤ 2 ^ 15 := Nat.pow_le_pow_right (by omega) hw
  have h3 : 1 ≤ 2 ^ w := Nat.one_le_two_pow
  have h4 : c * 2 ^ w ≤ 65535 * 2 ^ 15 := Nat.mul_le_mul (by omega) h2
  have h5 : c * 1 ≤ c * 2 ^ w := Nat.mul_le_mul_left c h3
  unfold CNVT_TOHW
  rw [h1]
  generalize c * 2 ^ w = x at h4 h5
  norm_num at h4
  congr 1
  omega
theorem CNVT_TOHW_div (c w : Nat) (hc : c < 65536) (hw : w ≤ 15) :
    CNVT_TOHW c w = (c * 2 ^ w + 32767 - c) / 65536 := by
  rw [CNVT_TOHW_exact c w hc hw, Nat.shiftLeft_eq, Nat.shiftRight_eq_div_pow]

theorem CNVT_TOHW_five (c : Nat) (hc : c < 65536) :
    CNVT_TOHW c 5 = (31 * c + 32767) / 65536 ∧ CNVT_TOHW c 5 ≤ 31 := by
  rw [CNVT_TOHW_div c 5 hc (by omega)]
  have : c * 2 ^ 5 + 32767 - c = 31 * c + 32767 := by omega
  rw [this]
  exact ⟨rfl, by omega⟩

theorem CNVT_TOHW_six (c : Nat) (hc : c < 65536) :
    CNVT_TOHW c 6 = (63 * c + 32767) / 65536 ∧ CNVT_TOHW c 6 ≤ 63 := by
  rw [CNVT_TOHW_div c 6 hc (by omega)]
  have : c * 2 ^ 6 + 32767 - c = 63 * c + 32767 := by omega
  rw [this]
  exact ⟨rfl, by omega⟩

theorem CNVT_TOHW_zero_width (t : Nat) : CNVT_TOHW t 0 = 0 := by
  unfold CNVT_TOHW
  have h : (t <<< 0 % 4294967296 + 32767 + (4294967296 - t % 4294967296)) % 4294967296 =
      32767 := by
    rw [Nat.shiftLeft_zero]
    omega
  rw [h]
  decide

theorem gray_level_lt (red green blue : Nat) (hr : red < 65536) (hg : green < 65536)
    (hb : blue < 65536) : gray_level red green blue < 65536 := by
  unfold gray_level
  rw [Nat.shiftRight_eq_div_pow,
    Nat.mod_eq_of_lt (show red * 77 + green * 151 + blue * 28 < 4294967296 by omega)]
  have h : red * 77 + green * 151 + blue * 28 < 65536 * 2 ^ 8 := by omega
  exact Nat.div_lt_of_lt_mul (by omega)

theorem rgb565_pack (r g b : Nat) (hr : r ≤ 31) (hg : g ≤ 63) (hb : b ≤ 31) :
    (r <<< 11) % 4294967296 ||| (g <<< 5) % 4294967296 ||| (b <<< 0) % 4294967296 |||
      (0 <<< 0) % 4294967296 = r * 2048 + g * 32 + b := by
  have e1 : (r <<< 11) % 4294967296 = 2 ^ 11 * r := by
    rw [Nat.shiftLeft_eq]
    omega
  have e2 : (g <<< 5) % 4294967296 = 2 ^ 5 * g := by
    rw [Nat.shiftLeft_eq]
    omega
  have e3 : (b <<< 0) % 4294967296 = b := by
    rw [Nat.shiftLeft_zero]
    omega
  have e4 : (0 <<< 0) % 4294967296 = 0 := by decide
  rw [e1, e2, e3, e4, Nat.or_zero,
    ← Nat.mul_add_lt_is_or (show 2 ^ 5 * g < 2 ^ 11 by omega) r]
  have e5 : 2 ^ 11 * r + 2 ^ 5 * g = 2 ^ 5 * (64 * r + g) := by omega
  rw [e5, ← Nat.mul_add_lt_is_or (show b < 2 ^ 5 by omega) (64 * r + g)]
  omega

theorem rgb565_or (r g b : Nat) (hr : r ≤ 31) (hg : g ≤ 63) (hb : b ≤ 31) :
    (r <<< 11) ||| (g <<< 5) ||| b = r * 2048 + g * 32 + b := by
  have h := rgb565_pack r g b hr hg hb
  have e1 : (r <<< 11) % 4294967296 = r <<< 11 := by
    rw [Nat.shiftLeft_eq]
    omega
  have e2 : (g <<< 5) % 4294967296 = g <<< 5 := by
    rw [Nat.shiftLeft_eq]
    omega
  have e3 : (b <<< 0) % 4294967296 = b := by
    rw [Nat.shiftLeft_zero]
    omega
  have e4 : (0 <<< 0) % 4294967296 = 0 := by decide
  rw [e1, e2, e3, e4, Nat.or_zero] at h
  exact h

theorem check_var_memory_checked (v : fb_var_screeninfo) (h : (check_var_memory v).2 = 0) :
    (check_var_memory v).1.xoffset = v.xoffset ∧ (check_var_memory v).1.yoffset = v.yoffset ∧
      (v.xoffset + v.xres) % 4294967296 ≤ (check_var_memory v).1.xres_virtual ∧
      (v.yoffset + v.yres) % 4294967296 ≤ (check_var_memory v).1.yres_virtual ∧
      (get_line_length (check_var_memory v).1.xres_virtual
          (check_var_memory v).1.bits_per_pixel *
        (check_var_memory v).1.yres_virtual) % 4294967296 ≤ videomemorysize := by
  have hc := fun w => check_var_colour_fields w
  by_cases h1 : v.xres_virtual < (v.xoffset + v.xres) % 4294967296 <;>
    by_cases h2 : v.yres_virtual < (v.yoffset + v.yres) % 4294967296 <;>
    simp only [check_var_memory, h1, h2, if_true, if_false] at h ⊢ <;>
    split_ifs at h ⊢ with h3 <;>
    first
    | (exfalso; revert h; simp [ENOMEM]; done)
    | (simp only [(hc _).2.2.1, (hc _).2.2.2.1, (hc _).2.2.2.2.1, (hc _).2.2.2.2.2.1,
        (hc _).2.2.2.2.2.2.1]
       refine ⟨trivial, trivial, ?_, ?_, ?_⟩ <;> omega)

/-- What the checks of `warpfb_check_var` establish on a return of 0, in the 32-bit
arithmetic they are made in; with no wrap-around in the two sums and in the product this
is containment of the visible screen and fit in `videomemorysize`. -/
theorem warpfb_check_var_checked (var : fb_var_screeninfo) (info : fb_info)
    (h : (warpfb_check_var var info).2 = 0) :
    ((warpfb_check_var var info).1.xoffset + (warpfb_check_var var info).1.xres) %
        4294967296 ≤ (warpfb_check_var var info).1.xres_virtual ∧
      ((warpfb_check_var var info).1.yoffset + (warpfb_check_var var info).1.yres) %
        4294967296 ≤ (warpfb_check_var var info).1.yres_virtual ∧
      (get_line_length (warpfb_check_var var info).1.xres_virtual
          (warpfb_check_var var info).1.bits_per_pixel *
        (warpfb_check_var var info).1.yres_virtual) % 4294967296 ≤ videomemorysize := by
  have key : ∀ v, (check_var_memory v).2 = 0 →
      ((check_var_memory v).1.xoffset + (check_var_memory v).1.xres) % 4294967296 ≤
          (check_var_memory v).1.xres_virtual ∧
        ((check_var_memory v).1.yoffset + (check_var_memory v).1.yres) % 4294967296 ≤
          (check_var_memory v).1.yres_virtual ∧
        (get_line_length (check_var_memory v).1.xres_virtual
            (check_var_memory v).1.bits_per_pixel *
          (check_var_memory v).1.yres_virtual) % 4294967296 ≤ videomemorysize := by
    intro v hv
    obtain ⟨e1, e2, e3, e4, e5⟩ := check_var_memory_checked v hv
    obtain ⟨f1, f2, -⟩ := check_var_memory_fields v
    rw [e1, e2, f1, f2]
    exact ⟨e3, e4, e5⟩
  rw [warpfb_check_var_depth] at h ⊢
  split_ifs at h ⊢
  · exact key _ h
  · exact key _ h
  · exact key _ h
  · simp [EINVAL] at h


/-! ### Events added by a run, and when the calls return -/

theorem added_eq (m w : World) (t : List Ev) (h : w.trace = m.trace ++ t) :
    added m w = t := by
  unfold added
  rw [h, List.drop_left]

theorem ethGetMacAddress_some (m : World) (mac : Mem) :
    (∃ r, (ethGetMacAddress m mac).2 = some r) ↔ sendOk m.peer true = true := by
  rw [ethGetMacAddress_eq]
  by_cases h : sendOk m.peer true = false
  · rw [if_pos h, h]
    simp
  · rw [if_neg h]
    have h1 : sendOk m.peer true = true := by simpa using h
    rw [h1]
    split_ifs <;> simp

theorem warpnet_start_xmit_some (skb : List Byte) (m : World) :
    (∃ r, (warpnet_start_xmit skb m).2 = some r) ↔ sendOk m.peer false = true := by
  rw [warpnet_start_xmit_eq]
  by_cases h : sendOk m.peer false = true
  · rw [if_pos h]
    simp [h]
  · rw [if_neg h]
    simp [h]

theorem pollBody_some (m : World) (ha : m.skb_allocs.head? ≠ some false) :
    (∃ c, (pollBody m).2 = some c) ↔ sendOk m.peer true = true := by
  have h := pollBody_none m ha
  cases hb : (pollBody m).2 with
  | none =>
    rw [hb] at h
    have h1 := h.mp rfl
    simp [h1]
  | some c =>
    rw [hb] at h
    have h1 : sendOk m.peer true ≠ false := fun e => by simpa using h.mpr e
    simp [h1]
/-! ## Claims -/

/-- Claim C1.  One invocation of `warpnet_napi_poll` with budget `B` writes the receive
command into the window at most `max(B, 0)` times, starts `sendMsgToArm` (the write of
`0x80000005`) at most `max(B, 0)` times and takes at most `max(B, 0)` replies (the write of
`0x00000008`), whatever the peer does; with `B <= 0` it does nothing at all and returns 0. -/
theorem warpnet_napi_poll_budget (m : World) (budget : Int) :
    (∃ t, (warpnet_napi_poll m budget).1.trace = m.trace ++ t ∧
      ((dpramWrites t).count (OFF_header, enc32 dpcmdEthReceive.val) : Int) ≤ max budget 0 ∧
      ((crWrites t).count 0x80000005 : Int) ≤ max budget 0 ∧
      ((crWrites t).count 0x8 : Int) ≤ max budget 0) ∧
    (budget ≤ 0 → warpnet_napi_poll m budget = (m, some 0)) := by
  constructor
  · obtain ⟨t, ht, h1, h2, h3, -⟩ := warpnet_napi_poll_summary m budget
    refine ⟨t, ht, ?_, ?_, ?_⟩ <;> omega
  · intro hb
    have h0 : budget.toNat = 0 := by omega
    have hn : ¬ (0 : Int) < budget := by omega
    simp [warpnet_napi_poll, h0, pollLoop_zero, pollEnd, hn]

/-- Witness of `warpnet_napi_poll_budget` with budget -3. -/
theorem warpnet_napi_poll_budget_witness :
    (-3 : Int) ≤ 0 ∧ warpnet_napi_poll exRx (-3) = (exRx, some 0) :=
  ⟨by decide, (warpnet_napi_poll_budget exRx (-3)).2 (by decide)⟩

/-- Claim C2.  In any iteration of the receive loop (`rx_count < budget`) with promiscuous
mode off, when the round trip returns a receive reply with non-zero length whose first six
packet bytes are neither the interface address nor `ff:ff:ff:ff:ff:ff`, the loop is left at
that reply: the lock is released, the poll is marked complete and `rx_count` is returned; the
frame is not delivered, no counter moves, and the only register writes and window stores of
the iteration are those of its one round trip.  When the reply is the first of the
invocation, `warpnet_napi_poll` delivers nothing and returns 0. -/
theorem pollLoop_filtered (budget : Int) (fuel : Nat) (rx_count : Int) (m : World)
    (st : WarpAmiCommStatus) (hlt : rx_count < budget)
    (hrt : (rxRoundTrip m).2 = some st)
    (hhdr : rd32 (rxRoundTrip m).1.dpram OFF_header = dprplEthReceive.val)
    (hlen : rd16 (rxRoundTrip m).1.dpram OFF_pktSize ≠ 0)
    (hprom : m.promisc = false)
    (hown : rdBytes (rxRoundTrip m).1.dpram OFF_packet 6 ≠ rdBytes m.dev_addr 0 6)
    (hbc : rdBytes (rxRoundTrip m).1.dpram OFF_packet 6 ≠ [0xff, 0xff, 0xff, 0xff, 0xff, 0xff]) :
    pollLoop budget (fuel + 1) rx_count m =
      ({ (rxRoundTrip m).1 with
          trace := (rxRoundTrip m).1.trace ++
            [Ev.dpramRead OFF_header 4, Ev.dpramRead OFF_pktSize 2, Ev.dpramRead OFF_packet 6,
             Ev.dpramRead OFF_packet 6, Ev.unlock, Ev.napi_complete_done rx_count],
          napi_sched := false }, some rx_count) ∧
    delivered (pollLoop budget (fuel + 1) rx_count m).1.trace = delivered m.trace ∧
    crWrites (pollLoop budget (fuel + 1) rx_count m).1.trace =
      crWrites m.trace ++ [0x80000005, 0x11, 0x8] ∧
    dpramWrites (pollLoop budget (fuel + 1) rx_count m).1.trace =
      dpramWrites m.trace ++ [(OFF_header, enc32 dpcmdEthReceive.val)] ∧
    (pollLoop budget (fuel + 1) rx_count m).1.peer = sendRest m.peer true ∧
    (pollLoop budget (fuel + 1) rx_count m).1.rx_packets = m.rx_packets ∧
    (pollLoop budget (fuel + 1) rx_count m).1.rx_bytes = m.rx_bytes ∧
    (rx_count = 0 → fuel + 1 = budget.toNat →
      (warpnet_napi_poll m budget).2 = some 0 ∧
      delivered (warpnet_napi_poll m budget).1.trace = delivered m.trace) := by
  have hok := rxRoundTrip_returns m st hrt
  obtain ⟨-, f2, f3, f4, -, -, f7, -, -, f10, f11, -, -, -, -⟩ :=
    rxRoundTrip_facts m st hrt
  have hb : pollBody m = ({ (rxRoundTrip m).1 with trace := (rxRoundTrip m).1.trace ++
      [Ev.dpramRead OFF_header 4, Ev.dpramRead OFF_pktSize 2, Ev.dpramRead OFF_packet ETH_ALEN,
       Ev.dpramRead OFF_packet ETH_ALEN, Ev.unlock] }, some LoopCtl.brk) := by
    rw [pollBody_eq, if_neg (by simp [hok]), if_neg (by simp [hhdr]), if_neg hlen,
      if_pos ⟨hprom, hown, hbc⟩]
  have hd : delivered ((rxRoundTrip m).1.trace ++
      [Ev.dpramRead OFF_header 4, Ev.dpramRead OFF_pktSize 2, Ev.dpramRead OFF_packet ETH_ALEN,
       Ev.dpramRead OFF_packet ETH_ALEN, Ev.unlock, Ev.napi_complete_done rx_count]) =
      delivered m.trace := by
    simp [delivered_append, delivered_cons, delivered_nil, selDelivered, f4]
  rw [pollLoop_brk budget fuel rx_count m _ hlt hb]
  refine ⟨by simp [ETH_ALEN], ?_, ?_, ?_, f7, f10, f11, ?_⟩
  · simpa using hd
  · simp [crWrites_append, crWrites_cons, crWrites_nil, selCrWrite, f2]
  · simp [dpramWrites_append, dpramWrites_cons, dpramWrites_nil, selDpramWrite, f3]
  · intro h0 hf
    subst h0
    unfold warpnet_napi_poll
    rw [← hf, pollLoop_brk budget fuel 0 m _ hlt hb]
    exact ⟨rfl, by simpa using hd⟩

/-- Witness of `pollLoop_filtered`: first iteration with budget 8; the peer answers with a
frame for `02:00:00:00:00:01`. -/
theorem pollLoop_filtered_witness :
    (0 : Int) < 8 ∧
    (rxRoundTrip exFiltered).2 = some wacOK ∧
    rd32 (rxRoundTrip exFiltered).1.dpram OFF_header = dprplEthReceive.val ∧
    rd16 (rxRoundTrip exFiltered).1.dpram OFF_pktSize ≠ 0 ∧
    exFiltered.promisc = false ∧
    rdBytes (rxRoundTrip exFiltered).1.dpram OFF_packet 6 ≠ rdBytes exFiltered.dev_addr 0 6 ∧
    rdBytes (rxRoundTrip exFiltered).1.dpram OFF_packet 6 ≠
      [0xff, 0xff, 0xff, 0xff, 0xff, 0xff] ∧
    (pollLoop 8 (7 + 1) 0 exFiltered =
        ({ (rxRoundTrip exFiltered).1 with
            trace := (rxRoundTrip exFiltered).1.trace ++
              [Ev.dpramRead OFF_header 4, Ev.dpramRead OFF_pktSize 2, Ev.dpramRead OFF_packet 6,
               Ev.dpramRead OFF_packet 6, Ev.unlock, Ev.napi_complete_done 0],
            napi_sched := false }, some 0) ∧
      delivered (pollLoop 8 (7 + 1) 0 exFiltered).1.trace = delivered exFiltered.trace ∧
      crWrites (pollLoop 8 (7 + 1) 0 exFiltered).1.trace =
        crWrites exFiltered.trace ++ [0x80000005, 0x11, 0x8] ∧
      dpramWrites (pollLoop 8 (7 + 1) 0 exFiltered).1.trace =
        dpramWrites exFiltered.trace ++ [(OFF_header, enc32 dpcmdEthReceive.val)] ∧
      (pollLoop 8 (7 + 1) 0 exFiltered).1.peer = sendRest exFiltered.peer true ∧
      (pollLoop 8 (7 + 1) 0 exFiltered).1.rx_packets = exFiltered.rx_packets ∧
      (pollLoop 8 (7 + 1) 0 exFiltered).1.rx_bytes = exFiltered.rx_bytes ∧
      ((0 : Int) = 0 → 7 + 1 = (8 : Int).toNat →
        (warpnet_napi_poll exFiltered 8).2 = some 0 ∧
        delivered (warpnet_napi_poll exFiltered 8).1.trace = delivered exFiltered.trace)) :=
  ⟨by decide, by decide, by decide, by decide, rfl, by decide, by decide,
    pollLoop_filtered 8 7 0 exFiltered wacOK (by decide) (by decide) (by decide) (by decide) rfl
      (by decide) (by decide)⟩

/-- Claim C3, counterexample.  The peer answers the receive command with discriminant
`dprplEthReceive`, length 8 and a packet addressed to `ff:ff:ff:ff:ff:ff`, and
`netdev_alloc_skb` returns NULL: `warpnet_napi_poll` delivers nothing.  The unchecked
`skb_put_data` faults, the call does not return, and the lock is still held. -/
theorem pollLoop_deliver_alloc_counterexample :
    (rxRoundTrip exAllocFail).2 = some wacOK ∧
    rd32 (rxRoundTrip exAllocFail).1.dpram OFF_header = dprplEthReceive.val ∧
    rd16 (rxRoundTrip exAllocFail).1.dpram OFF_pktSize = 8 ∧
    rdBytes (rxRoundTrip exAllocFail).1.dpram OFF_packet 6 =
      [0xff, 0xff, 0xff, 0xff, 0xff, 0xff] ∧
    exAllocFail.skb_allocs.head? = some false ∧
    (warpnet_napi_poll exAllocFail 8).2 = none ∧
    delivered (warpnet_napi_poll exAllocFail 8).1.trace = [] ∧
    (warpnet_napi_poll exAllocFail 8).1.trace.getLast? = some (Ev.call KCall.null_deref) ∧
    lockScan false (warpnet_napi_poll exAllocFail 8).1.trace = some true ∧
    (warpnet_napi_poll exAllocFail 8).1.rx_packets = 0 := by
  decide

/-- Claim C3, as amended.  In any iteration of the receive loop (`rx_count < budget`), when
the round trip returns a reply with discriminant `dprplEthReceive` and payload length `n`,
`1 <= n <= 1514`, promiscuous mode is on or the first six packet bytes are the interface
address or `ff:ff:ff:ff:ff:ff`, and `netdev_alloc_skb` returns a buffer, the body hands to
`netif_receive_skb`, after releasing the lock, a frame of exactly the `n` bytes at the start
of the reply's packet field (all inside the 1514-byte field), counts it, and the loop goes
on with `rx_count + 1`. -/
theorem pollLoop_deliver (budget : Int) (fuel : Nat) (rx_count : Int) (m : World)
    (st : WarpAmiCommStatus) (n : Nat) (hlt : rx_count < budget)
    (hrt : (rxRoundTrip m).2 = some st)
    (hhdr : rd32 (rxRoundTrip m).1.dpram OFF_header = dprplEthReceive.val)
    (hlen : rd16 (rxRoundTrip m).1.dpram OFF_pktSize = n)
    (hn1 : 1 ≤ n) (hn2 : n ≤ 1514)
    (hdst : m.promisc = true ∨
      rdBytes (rxRoundTrip m).1.dpram OFF_packet 6 = rdBytes m.dev_addr 0 6 ∨
      rdBytes (rxRoundTrip m).1.dpram OFF_packet 6 = [0xff, 0xff, 0xff, 0xff, 0xff, 0xff])
    (halloc : m.skb_allocs.head? ≠ some false) :
    ∃ fr : List Ev, (∀ e ∈ fr, e = Ev.dpramRead OFF_packet 6) ∧
      pollBody m =
        ({ (rxRoundTrip m).1 with
            trace := (rxRoundTrip m).1.trace ++
              ([Ev.dpramRead OFF_header 4, Ev.dpramRead OFF_pktSize 2] ++ fr ++
               [Ev.dpramRead OFF_packet n, Ev.unlock,
                Ev.netif_receive_skb (rdBytes (rxRoundTrip m).1.dpram OFF_packet n)]),
            rx_packets := (m.rx_packets + 1) % 2 ^ 32,
            rx_bytes := (m.rx_bytes + n) % 2 ^ 32,
            skb_allocs := m.skb_allocs.tail }, some LoopCtl.next) ∧
      delivered (pollBody m).1.trace =
        delivered m.trace ++ [rdBytes (rxRoundTrip m).1.dpram OFF_packet n] ∧
      (rdBytes (rxRoundTrip m).1.dpram OFF_packet n).length = n ∧
      (∀ i, i < n →
        (rdBytes (rxRoundTrip m).1.dpram OFF_packet n)[i]? =
          some ((rxRoundTrip m).1.dpram (OFF_packet + i)) ∧
        i < ETH_MTU_AND_HDR_SIZE) ∧
      pollLoop budget (fuel + 1) rx_count m =
        pollLoop budget fuel (rx_count + 1) (pollBody m).1 ∧
      ∃ t2, (pollLoop budget (fuel + 1) rx_count m).1.trace = (pollBody m).1.trace ++ t2 := by
  have hok := rxRoundTrip_returns m st hrt
  obtain ⟨-, -, -, f4, -, -, -, -, -, -, -, -, -, -, -⟩ := rxRoundTrip_facts m st hrt
  have hn0 : ¬ rd16 (rxRoundTrip m).1.dpram OFF_pktSize = 0 := by omega
  have hnot : ¬ (m.promisc = false ∧
      rdBytes (rxRoundTrip m).1.dpram OFF_packet ETH_ALEN ≠ rdBytes m.dev_addr 0 ETH_ALEN ∧
      rdBytes (rxRoundTrip m).1.dpram OFF_packet ETH_ALEN ≠ List.replicate ETH_ALEN 0xff) := by
    rintro ⟨p1, p2, p3⟩
    rcases hdst with h | h | h
    · rw [p1] at h
      cases h
    · exact p2 h
    · exact p3 h
  have hb := pollBody_eq m
  rw [if_neg (by simp [hok]), if_neg (by simp [hhdr]), if_neg hn0, if_neg hnot,
    if_neg halloc, hlen, ulong_mod_eq] at hb
  have key : ∀ fr : List Ev, (∀ e ∈ fr, e = Ev.dpramRead OFF_packet 6) →
      pollBody m =
        ({ (rxRoundTrip m).1 with
            trace := (rxRoundTrip m).1.trace ++
              ([Ev.dpramRead OFF_header 4, Ev.dpramRead OFF_pktSize 2] ++ fr ++
               [Ev.dpramRead OFF_packet n, Ev.unlock,
                Ev.netif_receive_skb (rdBytes (rxRoundTrip m).1.dpram OFF_packet n)]),
            rx_packets := (m.rx_packets + 1) % 2 ^ 32,
            rx_bytes := (m.rx_bytes + n) % 2 ^ 32,
            skb_allocs := m.skb_allocs.tail }, some LoopCtl.next) →
      ∃ fr : List Ev, (∀ e ∈ fr, e = Ev.dpramRead OFF_packet 6) ∧
      pollBody m =
        ({ (rxRoundTrip m).1 with
            trace := (rxRoundTrip m).1.trace ++
              ([Ev.dpramRead OFF_header 4, Ev.dpramRead OFF_pktSize 2] ++ fr ++
               [Ev.dpramRead OFF_packet n, Ev.unlock,
                Ev.netif_receive_skb (rdBytes (rxRoundTrip m).1.dpram OFF_packet n)]),
            rx_packets := (m.rx_packets + 1) % 2 ^ 32,
            rx_bytes := (m.rx_bytes + n) % 2 ^ 32,
            skb_allocs := m.skb_allocs.tail }, some LoopCtl.next) ∧
      delivered (pollBody m).1.trace =
        delivered m.trace ++ [rdBytes (rxRoundTrip m).1.dpram OFF_packet n] ∧
      (rdBytes (rxRoundTrip m).1.dpram OFF_packet n).length = n ∧
      (∀ i, i < n →
        (rdBytes (rxRoundTrip m).1.dpram OFF_packet n)[i]? =
          some ((rxRoundTrip m).1.dpram (OFF_packet + i)) ∧
        i < ETH_MTU_AND_HDR_SIZE) ∧
      pollLoop budget (fuel + 1) rx_count m =
        pollLoop budget fuel (rx_count + 1) (pollBody m).1 ∧
      ∃ t2, (pollLoop budget (fuel + 1) rx_count m).1.trace = (pollBody m).1.trace ++ t2 := by
    intro fr hfr hbody
    have hdfr : delivered fr = [] := delivered_dpramReads fr OFF_packet 6 hfr
    have hnext := pollLoop_next budget fuel rx_count m _ hlt hbody
    refine ⟨fr, hfr, hbody, ?_, rdBytes_length _ _ _, ?_, ?_, ?_⟩
    · rw [hbody]
      simp [delivered_append, delivered_cons, delivered_nil, selDelivered, f4, hdfr]
    · intro i hi
      refine ⟨?_, by simp only [ETH_MTU_AND_HDR_SIZE]; omega⟩
      simp [rdBytes, hi]
    · rw [hnext, hbody]
    · rw [hnext, hbody]
      obtain ⟨t2, ht2, -⟩ := pollLoop_summary budget fuel (rx_count + 1)
        ({ (rxRoundTrip m).1 with
            trace := (rxRoundTrip m).1.trace ++
              ([Ev.dpramRead OFF_header 4, Ev.dpramRead OFF_pktSize 2] ++ fr ++
               [Ev.dpramRead OFF_packet n, Ev.unlock,
                Ev.netif_receive_skb (rdBytes (rxRoundTrip m).1.dpram OFF_packet n)]),
            rx_packets := (m.rx_packets + 1) % 2 ^ 32,
            rx_bytes := (m.rx_bytes + n) % 2 ^ 32,
            skb_allocs := m.skb_allocs.tail })
      exact ⟨t2, ht2⟩
  by_cases hp : m.promisc = true
  · rw [if_pos hp] at hb
    exact key [] (by simp) hb
  · rw [if_neg hp] at hb
    by_cases ho : rdBytes (rxRoundTrip m).1.dpram OFF_packet ETH_ALEN =
        rdBytes m.dev_addr 0 ETH_ALEN
    · rw [if_pos ho] at hb
      exact key [Ev.dpramRead OFF_packet 6] (by simp) hb
    · rw [if_neg ho] at hb
      exact key [Ev.dpramRead OFF_packet 6, Ev.dpramRead OFF_packet 6] (by simp) hb

/-- Witness of `pollLoop_deliver`: first iteration with budget 8; the peer answers with an
8-byte broadcast frame. -/
theorem pollLoop_deliver_witness :
    (0 : Int) < 8 ∧
    (rxRoundTrip exOneFrame).2 = some wacOK ∧
    rd32 (rxRoundTrip exOneFrame).1.dpram OFF_header = dprplEthReceive.val ∧
    rd16 (rxRoundTrip exOneFrame).1.dpram OFF_pktSize = 8 ∧
    1 ≤ 8 ∧
    8 ≤ 1514 ∧
    (exOneFrame.promisc = true ∨
      rdBytes (rxRoundTrip exOneFrame).1.dpram OFF_packet 6 = rdBytes exOneFrame.dev_addr 0 6 ∨
      rdBytes (rxRoundTrip exOneFrame).1.dpram OFF_packet 6 =
        [0xff, 0xff, 0xff, 0xff, 0xff, 0xff]) ∧
    exOneFrame.skb_allocs.head? ≠ some false ∧
    (∃ fr : List Ev, (∀ e ∈ fr, e = Ev.dpramRead OFF_packet 6) ∧
        pollBody exOneFrame =
          ({ (rxRoundTrip exOneFrame).1 with
              trace := (rxRoundTrip exOneFrame).1.trace ++
                ([Ev.dpramRead OFF_header 4, Ev.dpramRead OFF_pktSize 2] ++ fr ++
                 [Ev.dpramRead OFF_packet 8, Ev.unlock,
                  Ev.netif_receive_skb (rdBytes (rxRoundTrip exOneFrame).1.dpram OFF_packet 8)]),
              rx_packets := (exOneFrame.rx_packets + 1) % 2 ^ 32,
              rx_bytes := (exOneFrame.rx_bytes + 8) % 2 ^ 32,
              skb_allocs := exOneFrame.skb_allocs.tail }, some LoopCtl.next) ∧
        delivered (pollBody exOneFrame).1.trace =
          delivered exOneFrame.trace ++ [rdBytes (rxRoundTrip exOneFrame).1.dpram OFF_packet 8] ∧
        (rdBytes (rxRoundTrip exOneFrame).1.dpram OFF_packet 8).length = 8 ∧
        (∀ i, i < 8 →
          (rdBytes (rxRoundTrip exOneFrame).1.dpram OFF_packet 8)[i]? =
            some ((rxRoundTrip exOneFrame).1.dpram (OFF_packet + i)) ∧
          i < ETH_MTU_AND_HDR_SIZE) ∧
        pollLoop 8 (7 + 1) 0 exOneFrame =
          pollLoop 8 7 (0 + 1) (pollBody exOneFrame).1 ∧
        ∃ t2, (pollLoop 8 (7 + 1) 0 exOneFrame).1.trace = (pollBody exOneFrame).1.trace ++ t2) :=
  ⟨by decide, by decide, by decide, by decide, by decide, by decide, by decide, by decide,
    pollLoop_deliver 8 7 0 exOneFrame wacOK 8 (by decide) (by decide) (by decide) (by decide)
      (by decide) (by decide) (by decide) (by decide)⟩

/-- Claim C4.  In any iteration of the receive loop (`rx_count < budget`), when the round
trip returns a reply with discriminant `dprplEthReceive` and payload length zero, the loop is
left: the lock is released, the poll is marked complete and `rx_count`, the number of frames
delivered so far in the invocation, is returned.  No frame is delivered, no error is logged
and no counter moves. -/
theorem pollLoop_zero_length (budget : Int) (fuel : Nat) (rx_count : Int) (m : World)
    (st : WarpAmiCommStatus) (hlt : rx_count < budget)
    (hrt : (rxRoundTrip m).2 = some st)
    (hhdr : rd32 (rxRoundTrip m).1.dpram OFF_header = dprplEthReceive.val)
    (hlen : rd16 (rxRoundTrip m).1.dpram OFF_pktSize = 0) :
    pollLoop budget (fuel + 1) rx_count m =
      ({ (rxRoundTrip m).1 with
          trace := (rxRoundTrip m).1.trace ++
            [Ev.dpramRead OFF_header 4, Ev.dpramRead OFF_pktSize 2, Ev.unlock,
             Ev.napi_complete_done rx_count],
          napi_sched := false }, some rx_count) ∧
    delivered (pollLoop budget (fuel + 1) rx_count m).1.trace = delivered m.trace ∧
    errors (pollLoop budget (fuel + 1) rx_count m).1.trace = errors m.trace ∧
    completions (pollLoop budget (fuel + 1) rx_count m).1.trace =
      completions m.trace ++ [rx_count] ∧
    (pollLoop budget (fuel + 1) rx_count m).1.rx_packets = m.rx_packets ∧
    (pollLoop budget (fuel + 1) rx_count m).1.rx_bytes = m.rx_bytes ∧
    (pollLoop budget (fuel + 1) rx_count m).1.tx_packets = m.tx_packets ∧
    (pollLoop budget (fuel + 1) rx_count m).1.tx_bytes = m.tx_bytes ∧
    (pollLoop budget (fuel + 1) rx_count m).1.tx_errors = m.tx_errors := by
  have hok := rxRoundTrip_returns m st hrt
  obtain ⟨-, -, -, f4, f5, f6, -, -, -, f10, f11, f12, f13, f14, -⟩ :=
    rxRoundTrip_facts m st hrt
  have hb : pollBody m = ({ (rxRoundTrip m).1 with trace := (rxRoundTrip m).1.trace ++
      [Ev.dpramRead OFF_header 4, Ev.dpramRead OFF_pktSize 2, Ev.unlock] },
      some LoopCtl.brk) := by
    rw [pollBody_eq, if_neg (by simp [hok]), if_neg (by simp [hhdr]), if_pos hlen]
  rw [pollLoop_brk budget fuel rx_count m _ hlt hb]
  refine ⟨by simp, ?_, ?_, ?_, f10, f11, f12, f13, f14⟩
  · simp [delivered_append, delivered_cons, delivered_nil, selDelivered, f4]
  · simp [errors_append, f6]
    simp [errors, List.count_cons]
  · simp [completions_append, completions_cons, completions_nil, selCompletion, f5]

/-- Witness of `pollLoop_zero_length`: first iteration with budget 8; the peer answers with
length zero. -/
theorem pollLoop_zero_length_witness :
    (0 : Int) < 8 ∧
    (rxRoundTrip exEmpty).2 = some wacOK ∧
    rd32 (rxRoundTrip exEmpty).1.dpram OFF_header = dprplEthReceive.val ∧
    rd16 (rxRoundTrip exEmpty).1.dpram OFF_pktSize = 0 ∧
    (pollLoop 8 (7 + 1) 0 exEmpty =
        ({ (rxRoundTrip exEmpty).1 with
            trace := (rxRoundTrip exEmpty).1.trace ++
              [Ev.dpramRead OFF_header 4, Ev.dpramRead OFF_pktSize 2, Ev.unlock,
               Ev.napi_complete_done 0],
            napi_sched := false }, some 0) ∧
      delivered (pollLoop 8 (7 + 1) 0 exEmpty).1.trace = delivered exEmpty.trace ∧
      errors (pollLoop 8 (7 + 1) 0 exEmpty).1.trace = errors exEmpty.trace ∧
      completions (pollLoop 8 (7 + 1) 0 exEmpty).1.trace =
        completions exEmpty.trace ++ [0] ∧
      (pollLoop 8 (7 + 1) 0 exEmpty).1.rx_packets = exEmpty.rx_packets ∧
      (pollLoop 8 (7 + 1) 0 exEmpty).1.rx_bytes = exEmpty.rx_bytes ∧
      (pollLoop 8 (7 + 1) 0 exEmpty).1.tx_packets = exEmpty.tx_packets ∧
      (pollLoop 8 (7 + 1) 0 exEmpty).1.tx_bytes = exEmpty.tx_bytes ∧
      (pollLoop 8 (7 + 1) 0 exEmpty).1.tx_errors = exEmpty.tx_errors) :=
  ⟨by decide, by decide, by decide, by decide,
    pollLoop_zero_length 8 7 0 exEmpty wacOK (by decide) (by decide) (by decide) (by decide)⟩

/-- Claim C5.  In any iteration of the receive loop (`rx_count < budget`), when the round
trip returns and the reply's discriminant is not `dprplEthReceive`, the loop is left at once:
the lock is released, an error is logged, the poll is marked complete and `rx_count` is
returned.  Whatever length and packet bytes the reply holds, nothing is delivered, no counter
moves, and the only register writes and window stores of the iteration are those of its one
round trip. -/
theorem pollLoop_wrong_reply (budget : Int) (fuel : Nat) (rx_count : Int) (m : World)
    (st : WarpAmiCommStatus) (hlt : rx_count < budget)
    (hrt : (rxRoundTrip m).2 = some st)
    (hhdr : rd32 (rxRoundTrip m).1.dpram OFF_header ≠ dprplEthReceive.val) :
    pollLoop budget (fuel + 1) rx_count m =
      ({ (rxRoundTrip m).1 with
          trace := (rxRoundTrip m).1.trace ++
            [Ev.dpramRead OFF_header 4, Ev.unlock, Ev.netdev_err,
             Ev.napi_complete_done rx_count],
          napi_sched := false }, some rx_count) ∧
    delivered (pollLoop budget (fuel + 1) rx_count m).1.trace = delivered m.trace ∧
    errors (pollLoop budget (fuel + 1) rx_count m).1.trace = errors m.trace + 1 ∧
    completions (pollLoop budget (fuel + 1) rx_count m).1.trace =
      completions m.trace ++ [rx_count] ∧
    crWrites (pollLoop budget (fuel + 1) rx_count m).1.trace =
      crWrites m.trace ++ [0x80000005, 0x11, 0x8] ∧
    dpramWrites (pollLoop budget (fuel + 1) rx_count m).1.trace =
      dpramWrites m.trace ++ [(OFF_header, enc32 dpcmdEthReceive.val)] ∧
    (pollLoop budget (fuel + 1) rx_count m).1.peer = sendRest m.peer true ∧
    (pollLoop budget (fuel + 1) rx_count m).1.rx_packets = m.rx_packets ∧
    (pollLoop budget (fuel + 1) rx_count m).1.rx_bytes = m.rx_bytes ∧
    (pollLoop budget (fuel + 1) rx_count m).1.tx_packets = m.tx_packets ∧
    (pollLoop budget (fuel + 1) rx_count m).1.tx_bytes = m.tx_bytes ∧
    (pollLoop budget (fuel + 1) rx_count m).1.tx_errors = m.tx_errors := by
  have hok := rxRoundTrip_returns m st hrt
  obtain ⟨-, f2, f3, f4, f5, f6, f7, -, -, f10, f11, f12, f13, f14, -⟩ :=
    rxRoundTrip_facts m st hrt
  have hb : pollBody m = ({ (rxRoundTrip m).1 with trace := (rxRoundTrip m).1.trace ++
            [Ev.dpramRead OFF_header 4, Ev.unlock, Ev.netdev_err] }, some LoopCtl.brk) := by
    rw [pollBody_eq, if_neg (by simp [hok]), if_pos hhdr]
  rw [pollLoop_brk budget fuel rx_count m _ hlt hb]
  refine ⟨by simp, ?_, ?_, ?_, ?_, ?_, f7, f10, f11, f12, f13, f14⟩
  · simp [delivered_append, delivered_cons, delivered_nil, selDelivered, f4]
  · simp [errors_append, f6]
    simp [errors, List.count_cons]
  · simp [completions_append, completions_cons, completions_nil, selCompletion, f5]
  · simp [crWrites_append, crWrites_cons, crWrites_nil, selCrWrite, f2]
  · simp [dpramWrites_append, dpramWrites_cons, dpramWrites_nil, selDpramWrite, f3]

/-- Witness of `pollLoop_wrong_reply`: first iteration with budget 8; the peer answers with
discriminant 9. -/
theorem pollLoop_wrong_reply_witness :
    (0 : Int) < 8 ∧
    (rxRoundTrip exWrongReply).2 = some wacOK ∧
    rd32 (rxRoundTrip exWrongReply).1.dpram OFF_header ≠ dprplEthReceive.val ∧
    (pollLoop 8 (7 + 1) 0 exWrongReply =
        ({ (rxRoundTrip exWrongReply).1 with
            trace := (rxRoundTrip exWrongReply).1.trace ++
              [Ev.dpramRead OFF_header 4, Ev.unlock, Ev.netdev_err,
               Ev.napi_complete_done 0],
            napi_sched := false }, some 0) ∧
      delivered (pollLoop 8 (7 + 1) 0 exWrongReply).1.trace = delivered exWrongReply.trace ∧
      errors (pollLoop 8 (7 + 1) 0 exWrongReply).1.trace = errors exWrongReply.trace + 1 ∧
      completions (pollLoop 8 (7 + 1) 0 exWrongReply).1.trace =
        completions exWrongReply.trace ++ [0] ∧
      crWrites (pollLoop 8 (7 + 1) 0 exWrongReply).1.trace =
        crWrites exWrongReply.trace ++ [0x80000005, 0x11, 0x8] ∧
      dpramWrites (pollLoop 8 (7 + 1) 0 exWrongReply).1.trace =
        dpramWrites exWrongReply.trace ++ [(OFF_header, enc32 dpcmdEthReceive.val)] ∧
      (pollLoop 8 (7 + 1) 0 exWrongReply).1.peer = sendRest exWrongReply.peer true ∧
      (pollLoop 8 (7 + 1) 0 exWrongReply).1.rx_packets = exWrongReply.rx_packets ∧
      (pollLoop 8 (7 + 1) 0 exWrongReply).1.rx_bytes = exWrongReply.rx_bytes ∧
      (pollLoop 8 (7 + 1) 0 exWrongReply).1.tx_packets = exWrongReply.tx_packets ∧
      (pollLoop 8 (7 + 1) 0 exWrongReply).1.tx_bytes = exWrongReply.tx_bytes ∧
      (pollLoop 8 (7 + 1) 0 exWrongReply).1.tx_errors = exWrongReply.tx_errors) :=
  ⟨by decide, by decide, by decide,
    pollLoop_wrong_reply 8 7 0 exWrongReply wacOK (by decide) (by decide) (by decide)⟩

/-- Claim C6.  When `warpnet_napi_poll` returns `r` for budget `B`: it has called
`napi_complete_done` (once, with `r`) if and only if `r < B`; `0 <= r <= max(B, 0)`, so when
`B` frames were consumed it returns `B` without marking completion; and every value it wrote
to the control register is one of the three masks of `sendMsgToArm`, none of which is the
set-mask of the packet-arrived interrupt enable.  The invocation does return when the peer
answers `max(B, 0)` round trips and no call of `netdev_alloc_skb` fails. -/
theorem warpnet_napi_poll_completion (m : World) (budget : Int) :
    (∀ r, (warpnet_napi_poll m budget).2 = some r →
      ∃ t, (warpnet_napi_poll m budget).1.trace = m.trace ++ t ∧
        completions t = (if r < budget then [r] else []) ∧
        (completions t ≠ [] ↔ r < budget) ∧
        0 ≤ r ∧ r ≤ max budget 0 ∧
        (r = budget → completions t = []) ∧
        (warpnet_napi_poll m budget).1.napi_sched =
          (if r < budget then false else m.napi_sched) ∧
        (∀ v ∈ crWrites t, v = 0x80000005 ∨ v = 0x11 ∨ v = 0x8) ∧
        (∀ v ∈ crWrites t, v ≠ DPREG_CR_SET ||| DPREG_CR_IE_ETHRX) ∧
        (∀ v ∈ crWrites t, ¬ (v &&& DPREG_CR_SET ≠ 0 ∧ v &&& DPREG_CR_IE_ETHRX ≠ 0))) ∧
    (responsive budget.toNat m.peer = true → (∀ b ∈ m.skb_allocs, b = true) →
      ∃ r, (warpnet_napi_poll m budget).2 = some r) := by
  constructor
  · intro r h
    obtain ⟨t, ht, -, -, -, h4, -, -, -, -, -, hres⟩ := warpnet_napi_poll_summary m budget
    obtain ⟨e1, e2, -, -, e5, e6⟩ := hres r h
    refine ⟨t, ht, e5, ?_, by omega, by omega, ?_, e6, h4, ?_, ?_⟩
    · rw [e5]
      split_ifs with hlt <;> simp [hlt]
    · intro hrb
      rw [e5, if_neg (by omega)]
    · intro v hv
      rcases h4 v hv with rfl | rfl | rfl <;> decide
    · intro v hv
      rcases h4 v hv with rfl | rfl | rfl <;> decide
  · intro hresp hall
    exact pollLoop_returns budget budget.toNat 0 m (by omega) (by simpa using hresp) hall

/-- Witness of `warpnet_napi_poll_completion`: budget 3 with one frame delivered and the
second filtered (completion marked, 1 returned), and budget 1 with one frame delivered (no
completion, 1 returned). -/
theorem warpnet_napi_poll_completion_witness :
    responsive (3 : Int).toNat exRx.peer = true ∧
    (warpnet_napi_poll exRx 3).2 = some 1 ∧
    completions (warpnet_napi_poll exRx 3).1.trace = [1] ∧
    (warpnet_napi_poll exRx 1).2 = some 1 ∧
    completions (warpnet_napi_poll exRx 1).1.trace = [] ∧
    ((∀ r, (warpnet_napi_poll exRx 3).2 = some r →
      ∃ t, (warpnet_napi_poll exRx 3).1.trace = exRx.trace ++ t ∧
        completions t = (if r < 3 then [r] else []) ∧
        (completions t ≠ [] ↔ r < 3) ∧
        0 ≤ r ∧ r ≤ max 3 0 ∧
        (r = 3 → completions t = []) ∧
        (warpnet_napi_poll exRx 3).1.napi_sched =
          (if r < 3 then false else exRx.napi_sched) ∧
        (∀ v ∈ crWrites t, v = 0x80000005 ∨ v = 0x11 ∨ v = 0x8) ∧
        (∀ v ∈ crWrites t, v ≠ DPREG_CR_SET ||| DPREG_CR_IE_ETHRX) ∧
        (∀ v ∈ crWrites t, ¬ (v &&& DPREG_CR_SET ≠ 0 ∧ v &&& DPREG_CR_IE_ETHRX ≠ 0))) ∧
    (responsive (3 : Int).toNat exRx.peer = true → (∀ b ∈ exRx.skb_allocs, b = true) →
      ∃ r, (warpnet_napi_poll exRx 3).2 = some r)) :=
  ⟨by decide, by decide, by decide, by decide, by decide, warpnet_napi_poll_completion exRx 3⟩

/-- Claim C7.  When `warpnet_napi_poll` returns, the value returned is the number of frames
it handed to `netif_receive_skb`; `rx_packets` has grown by that number and `rx_bytes` by the
sum of the lengths of those frames, in `unsigned long` arithmetic (modulo 2^32, so exactly
when the sums stay below 2^32); nothing else moves the two counters.  The invocation does
return when the peer answers `max(budget, 0)` round trips and no call of `netdev_alloc_skb`
fails, and it fails to return only with the peer's script used up in a busy-wait or at the
unchecked use of a failed allocation (never the latter when no allocation fails). -/
theorem warpnet_napi_poll_counters (m : World) (budget : Int)
    (hp : m.rx_packets < 2 ^ 32) (hb : m.rx_bytes < 2 ^ 32) :
    (∀ r, (warpnet_napi_poll m budget).2 = some r →
      ∃ t, (warpnet_napi_poll m budget).1.trace = m.trace ++ t ∧
        r = ((delivered t).length : Int) ∧
        (warpnet_napi_poll m budget).1.rx_packets =
          (m.rx_packets + (delivered t).length) % 2 ^ 32 ∧
        (warpnet_napi_poll m budget).1.rx_bytes =
          (m.rx_bytes + ((delivered t).map List.length).sum) % 2 ^ 32 ∧
        (m.rx_packets + (delivered t).length < 2 ^ 32 →
          (warpnet_napi_poll m budget).1.rx_packets = m.rx_packets + (delivered t).length) ∧
        (m.rx_bytes + ((delivered t).map List.length).sum < 2 ^ 32 →
          (warpnet_napi_poll m budget).1.rx_bytes =
            m.rx_bytes + ((delivered t).map List.length).sum)) ∧
    (responsive budget.toNat m.peer = true → (∀ b ∈ m.skb_allocs, b = true) →
      ∃ r, (warpnet_napi_poll m budget).2 = some r) ∧
    ((warpnet_napi_poll m budget).2 = none →
      (warpnet_napi_poll m budget).1.peer = [] ∨
      (warpnet_napi_poll m budget).1.trace.getLast? = some (Ev.call KCall.null_deref)) ∧
    ((warpnet_napi_poll m budget).2 = none → (∀ b ∈ m.skb_allocs, b = true) →
      (warpnet_napi_poll m budget).1.peer = []) := by
  refine ⟨?_, ?_, ?_, ?_⟩
  · intro r h
    obtain ⟨t, ht, -, -, -, -, -, -, -, -, -, hres⟩ := warpnet_napi_poll_summary m budget
    obtain ⟨e1, -, e3, e4, -, -⟩ := hres r h
    have hpk : (warpnet_napi_poll m budget).1.rx_packets =
        (m.rx_packets + (delivered t).length) % 2 ^ 32 := by
      rw [e3, ulong_mod_eq]
      split_ifs with h0
      · rw [h0, Nat.add_zero]
        exact (Nat.mod_eq_of_lt hp).symm
      · rfl
    have hby : (warpnet_napi_poll m budget).1.rx_bytes =
        (m.rx_bytes + ((delivered t).map List.length).sum) % 2 ^ 32 := by
      rw [e4, ulong_mod_eq]
      split_ifs with h0
      · rw [List.length_eq_zero.mp h0]
        simp only [List.map_nil, List.sum_nil, Nat.add_zero]
        exact (Nat.mod_eq_of_lt hb).symm
      · rfl
    refine ⟨t, ht, by omega, hpk, hby, ?_, ?_⟩
    · intro hlt
      rw [hpk, Nat.mod_eq_of_lt hlt]
    · intro hlt
      rw [hby, Nat.mod_eq_of_lt hlt]
  · intro hresp hall
    exact pollLoop_returns budget budget.toNat 0 m (by omega) (by simpa using hresp) hall
  · intro hn
    exact pollLoop_none budget budget.toNat 0 m (by omega) hn
  · intro hn hall
    exact pollLoop_none_alloc budget budget.toNat 0 m (by omega) hall hn

/-- Witness of `warpnet_napi_poll_counters`: promiscuous interface, budget 3, two frames of
8 bytes delivered, the third reply empty. -/
theorem warpnet_napi_poll_counters_witness :
    exRxPromisc.rx_packets < 2 ^ 32 ∧ exRxPromisc.rx_bytes < 2 ^ 32 ∧
    (warpnet_napi_poll exRxPromisc 3).2 = some 2 ∧
    (warpnet_napi_poll exRxPromisc 3).1.rx_packets = 2 ∧
    (warpnet_napi_poll exRxPromisc 3).1.rx_bytes = 16 ∧
    responsive (3 : Int).toNat exRxPromisc.peer = true ∧
    ((∀ r, (warpnet_napi_poll exRxPromisc 3).2 = some r →
      ∃ t, (warpnet_napi_poll exRxPromisc 3).1.trace = exRxPromisc.trace ++ t ∧
        r = ((delivered t).length : Int) ∧
        (warpnet_napi_poll exRxPromisc 3).1.rx_packets =
          (exRxPromisc.rx_packets + (delivered t).length) % 2 ^ 32 ∧
        (warpnet_napi_poll exRxPromisc 3).1.rx_bytes =
          (exRxPromisc.rx_bytes + ((delivered t).map List.length).sum) % 2 ^ 32 ∧
        (exRxPromisc.rx_packets + (delivered t).length < 2 ^ 32 →
          (warpnet_napi_poll exRxPromisc 3).1.rx_packets =
            exRxPromisc.rx_packets + (delivered t).length) ∧
        (exRxPromisc.rx_bytes + ((delivered t).map List.length).sum < 2 ^ 32 →
          (warpnet_napi_poll exRxPromisc 3).1.rx_bytes =
            exRxPromisc.rx_bytes + ((delivered t).map List.length).sum)) ∧
    (responsive (3 : Int).toNat exRxPromisc.peer = true →
      (∀ b ∈ exRxPromisc.skb_allocs, b = true) →
      ∃ r, (warpnet_napi_poll exRxPromisc 3).2 = some r) ∧
    ((warpnet_napi_poll exRxPromisc 3).2 = none →
      (warpnet_napi_poll exRxPromisc 3).1.peer = [] ∨
      (warpnet_napi_poll exRxPromisc 3).1.trace.getLast? =
        some (Ev.call KCall.null_deref)) ∧
    ((warpnet_napi_poll exRxPromisc 3).2 = none →
      (∀ b ∈ exRxPromisc.skb_allocs, b = true) →
      (warpnet_napi_poll exRxPromisc 3).1.peer = [])) :=
  ⟨by decide, by decide, by decide, by decide, by decide, by decide,
    warpnet_napi_poll_counters exRxPromisc 3 (by decide) (by decide)⟩

/-- Claim C8.  Every run of `sendMsgToArm` that returns makes these writes to the control
register, in this order and no others: `0x80000005` (`DPREG_CR_SET`, `DPREG_CR_MP_ARM`,
`DPREG_CR_IE_ARM`); then, after reads that all showed bit 4 clear and one read that showed
it set, `0x00000011` (`DPREG_CR_MR_ARM`, `DPREG_CR_IE_ARM`); and, exactly when
`waitForReply` is true, after further reads that all showed bit 3 clear and one that showed
it set, `0x00000008` (`DPREG_CR_MP_68K`).  With `waitForReply` false nothing follows the
second write. -/
theorem sendMsgToArm_register_protocol (m : World) (waitForReply : Bool)
    (st : WarpAmiCommStatus) (h : (sendMsgToArm m waitForReply).2 = some st) :
    DPREG_CR_SET ||| DPREG_CR_MP_ARM ||| DPREG_CR_IE_ARM = 0x80000005 ∧
    DPREG_CR_CLR ||| DPREG_CR_MR_ARM ||| DPREG_CR_IE_ARM = 0x11 ∧
    DPREG_CR_CLR ||| DPREG_CR_MP_68K = 0x8 ∧
    crWrites (sendMsgToArm m waitForReply).1.trace =
      crWrites m.trace ++
        (if waitForReply then [0x80000005, 0x11, 0x8] else [0x80000005, 0x11]) ∧
    ∃ (pre1 : List Nat) (a : Nat), (∀ v ∈ pre1, v &&& 0x10 = 0) ∧ a &&& 0x10 ≠ 0 ∧
      ((waitForReply = false ∧
          (sendMsgToArm m waitForReply).1.trace =
            m.trace ++ Ev.crWrite 0x80000005 ::
              (pre1.map Ev.crRead ++ [Ev.crRead a, Ev.crWrite 0x11])) ∨
       (waitForReply = true ∧
          ∃ (pre2 : List Nat) (b : Nat), (∀ v ∈ pre2, v &&& 0x8 = 0) ∧ b &&& 0x8 ≠ 0 ∧
            (sendMsgToArm m waitForReply).1.trace =
              m.trace ++ Ev.crWrite 0x80000005 ::
                (pre1.map Ev.crRead ++ [Ev.crRead a, Ev.crWrite 0x11] ++
                  (pre2.map Ev.crRead ++ [Ev.crRead b, Ev.crWrite 0x8])))) := by
  rw [sendMsgToArm_eq] at h ⊢
  simp only at h ⊢
  have hok : sendOk m.peer waitForReply = true := by
    by_contra hc
    simp [hc] at h
  simp only [sendOk, Bool.and_eq_true, Bool.or_eq_true, Bool.not_eq_true'] at hok
  obtain ⟨h1, h2⟩ := hok
  obtain ⟨pre1, a, e1, hpre1, ha, -⟩ := spin_split _ _ h1
  have hA : DPREG_CR_SET ||| DPREG_CR_MP_ARM ||| DPREG_CR_IE_ARM = 0x80000005 := by decide
  have hB : DPREG_CR_CLR ||| DPREG_CR_MR_ARM ||| DPREG_CR_IE_ARM = 0x11 := by decide
  have hC : DPREG_CR_CLR ||| DPREG_CR_MP_68K = 0x8 := by decide
  have hm1 : DPREG_CR_MR_ARM = 0x10 := by decide
  have hm2 : DPREG_CR_MP_68K = 0x8 := by decide
  cases waitForReply with
  | false =>
    refine ⟨hA, hB, hC, ?_, pre1.map (fun p => p.cr), a.cr, ?_, ?_, Or.inl ⟨rfl, ?_⟩⟩
    · rw [crWrites_append, crWrites_sendTrace _ _ (by simp [sendOk, h1])]
    · intro v hv
      obtain ⟨q, hq, rfl⟩ := List.mem_map.mp hv
      simpa [hm1] using hpre1 q hq
    · simpa [hm1] using ha
    · simp [sendTrace, h1, e1, reads, hA, hB, Function.comp_def]
  | true =>
    simp at h2
    obtain ⟨pre2, b, e2, hpre2, hb, -⟩ := spin_split _ _ h2
    refine ⟨hA, hB, hC, ?_, pre1.map (fun p => p.cr), a.cr, ?_, ?_,
      Or.inr ⟨rfl, pre2.map (fun p => p.cr), b.cr, ?_, ?_, ?_⟩⟩
    · rw [crWrites_append, crWrites_sendTrace _ _ (by simp [sendOk, h1, h2])]
    · intro v hv
      obtain ⟨q, hq, rfl⟩ := List.mem_map.mp hv
      simpa [hm1] using hpre1 q hq
    · simpa [hm1] using ha
    · intro v hv
      obtain ⟨q, hq, rfl⟩ := List.mem_map.mp hv
      simpa [hm2] using hpre2 q hq
    · simpa [hm2] using hb
    · simp [sendTrace, h1, h2, e1, e2, reads, hA, hB, hC, Function.comp_def]

/-- Witness of `sendMsgToArm_register_protocol`: a waited round trip against a peer that
idles, acknowledges, idles and replies. -/
theorem sendMsgToArm_register_protocol_witness :
    (sendMsgToArm exRoundTrip true).2 = some wacOK ∧
    (DPREG_CR_SET ||| DPREG_CR_MP_ARM ||| DPREG_CR_IE_ARM = 0x80000005 ∧
    DPREG_CR_CLR ||| DPREG_CR_MR_ARM ||| DPREG_CR_IE_ARM = 0x11 ∧
    DPREG_CR_CLR ||| DPREG_CR_MP_68K = 0x8 ∧
    crWrites (sendMsgToArm exRoundTrip true).1.trace =
      crWrites exRoundTrip.trace ++
        (if true then [0x80000005, 0x11, 0x8] else [0x80000005, 0x11]) ∧
    ∃ (pre1 : List Nat) (a : Nat), (∀ v ∈ pre1, v &&& 0x10 = 0) ∧ a &&& 0x10 ≠ 0 ∧
      ((true = false ∧
          (sendMsgToArm exRoundTrip true).1.trace =
            exRoundTrip.trace ++ Ev.crWrite 0x80000005 ::
              (pre1.map Ev.crRead ++ [Ev.crRead a, Ev.crWrite 0x11])) ∨
       (true = true ∧
          ∃ (pre2 : List Nat) (b : Nat), (∀ v ∈ pre2, v &&& 0x8 = 0) ∧ b &&& 0x8 ≠ 0 ∧
            (sendMsgToArm exRoundTrip true).1.trace =
              exRoundTrip.trace ++ Ev.crWrite 0x80000005 ::
                (pre1.map Ev.crRead ++ [Ev.crRead a, Ev.crWrite 0x11] ++
                  (pre2.map Ev.crRead ++ [Ev.crRead b, Ev.crWrite 0x8]))))) :=
  ⟨by decide, sendMsgToArm_register_protocol exRoundTrip true wacOK (by decide)⟩

/-- Claim C9.  Against a peer that acknowledges the command (a read shows bit 4) and later
raises message-pending-to-host (a read shows bit 3), `sendMsgToArm` with `waitForReply` true
returns `wacOK`, makes no store into the frame window, consumes exactly the peer steps up to
the one that raised bit 3, and leaves the window as the stores of those peer steps made it. -/
theorem sendMsgToArm_round_trip (m : World) (pre1 : List PeerStep) (a : PeerStep)
    (pre2 : List PeerStep) (b : PeerStep) (post : List PeerStep)
    (hpeer : m.peer = pre1 ++ a :: (pre2 ++ b :: post))
    (hpre1 : ∀ q ∈ pre1, q.cr &&& 0x10 = 0) (ha : a.cr &&& 0x10 ≠ 0)
    (hpre2 : ∀ q ∈ pre2, q.cr &&& 0x8 = 0) (hb : b.cr &&& 0x8 ≠ 0) :
    (sendMsgToArm m true).2 = some wacOK ∧
    dpramWrites (sendMsgToArm m true).1.trace = dpramWrites m.trace ∧
    (sendMsgToArm m true).1.dpram = peerWrites (pre1 ++ a :: (pre2 ++ [b])) m.dpram ∧
    (sendMsgToArm m true).1.peer = post := by
  have hm1 : DPREG_CR_MR_ARM = 0x10 := by decide
  have hm2 : DPREG_CR_MP_68K = 0x8 := by decide
  obtain ⟨o1, p1, r1⟩ := spin_of_split DPREG_CR_MR_ARM pre1 a (pre2 ++ b :: post)
    (by simpa [hm1] using hpre1) (by simpa [hm1] using ha)
  obtain ⟨o2, p2, r2⟩ := spin_of_split DPREG_CR_MP_68K pre2 b post
    (by simpa [hm2] using hpre2) (by simpa [hm2] using hb)
  rw [sendMsgToArm_eq]
  simp only [hpeer]
  refine ⟨?_, ?_, ?_, ?_⟩
  · simp [sendOk, o1, r1, o2]
  · simp [dpramWrites_append, dpramWrites_sendTrace]
  · simp [sendConsumed, o1, p1, r1, p2]
  · simp [sendRest, o1, r1, r2]

/-- Witness of `sendMsgToArm_round_trip`: the peer idles, acknowledges, idles, then stores a
10-byte reply and raises bit 3; on return the window starts with those ten bytes. -/
theorem sendMsgToArm_round_trip_witness :
    (exRoundTrip.peer = [exIdle] ++ exAck ::
        ([exIdle] ++ exReply exMacReply :: [])) ∧
    rdBytes (sendMsgToArm exRoundTrip true).1.dpram 0 10 = exMacReply ∧
    (∀ q ∈ [exIdle], q.cr &&& 0x10 = 0) ∧ exAck.cr &&& 0x10 ≠ 0 ∧
    (∀ q ∈ [exIdle], q.cr &&& 0x8 = 0) ∧
    (exReply exMacReply).cr &&& 0x8 ≠ 0 ∧
    ((sendMsgToArm exRoundTrip true).2 = some wacOK ∧
      dpramWrites (sendMsgToArm exRoundTrip true).1.trace = dpramWrites exRoundTrip.trace ∧
      (sendMsgToArm exRoundTrip true).1.dpram =
        peerWrites ([exIdle] ++ exAck ::
          ([exIdle] ++ [exReply exMacReply])) exRoundTrip.dpram ∧
      (sendMsgToArm exRoundTrip true).1.peer = []) :=
  ⟨rfl, by decide, by decide, by decide, by decide, by decide,
    sendMsgToArm_round_trip exRoundTrip [exIdle] exAck [exIdle]
      (exReply exMacReply) [] rfl (by decide) (by decide) (by decide)
      (by decide)⟩

/-- Claim C10, refuted as stated.  After the receive command (24) is written, the peer
answers with the reply discriminant 9 instead of `dprplEthReceive` (10): the waited round
trip ends with the wrong discriminant in the window, and `sendMsgToArm` returns `wacOK`, not
`wacCOMERR`. -/
theorem sendMsgToArm_wrong_reply_counterexample :
    rd32 (rxRoundTrip exWrongReply).1.dpram OFF_header = 9 ∧
    rd32 (rxRoundTrip exWrongReply).1.dpram OFF_header ≠ dprplEthReceive.val ∧
    (rxRoundTrip exWrongReply).2 = some wacOK ∧
    (rxRoundTrip exWrongReply).2 ≠ some wacCOMERR := by
  decide

/-- Claim C10, amended.  `sendMsgToArm` makes no protocol check: every run that returns
returns `wacOK`, never `wacCOMERR`, whatever the frame window holds before and whatever the
peer stores into it. -/
theorem sendMsgToArm_status (m : World) (waitForReply : Bool) (st : WarpAmiCommStatus)
    (h : (sendMsgToArm m waitForReply).2 = some st) :
    st = wacOK ∧ st ≠ wacCOMERR ∧
    ∀ d : Mem, (sendMsgToArm { m with dpram := d } waitForReply).2 = some wacOK := by
  rw [sendMsgToArm_eq] at h
  simp only at h
  have hok : sendOk m.peer waitForReply = true := by
    by_contra hc
    simp [hc] at h
  simp [hok] at h
  refine ⟨h.symm, by rw [← h]; decide, fun d => ?_⟩
  rw [sendMsgToArm_eq]
  simp [hok]

/-- Witness of `sendMsgToArm_status` on the round trip answered with the wrong reply. -/
theorem sendMsgToArm_status_witness :
    (sendMsgToArm exWrongReply true).2 = some wacOK ∧
    (wacOK = wacOK ∧ wacOK ≠ wacCOMERR ∧
      ∀ d : Mem, (sendMsgToArm { exWrongReply with dpram := d } true).2 = some wacOK) :=
  ⟨by decide, sendMsgToArm_status exWrongReply true wacOK (by decide)⟩

/-- Claim C11.  `sendMsgToArm` has no timeout.  With the peer given by the values that the
successive reads of the control register return, the call returns if and only if some read
shows bit 4 set and, when `waitForReply` is true, some later read shows bit 3 set.  Against
a peer none of whose reads shows bit 4, however many reads there are, the call has not
returned: it has made its first write and all of these reads, and nothing else. -/
theorem sendMsgToArm_no_timeout (m : World) (waitForReply : Bool) :
    ((∃ st, (sendMsgToArm m waitForReply).2 = some st) ↔
      ∃ pre a rest, m.peer = pre ++ a :: rest ∧ a.cr &&& 0x10 ≠ 0 ∧
        (waitForReply = true → ∃ b ∈ rest, b.cr &&& 0x8 ≠ 0)) ∧
    ((∀ p ∈ m.peer, p.cr &&& 0x10 = 0) →
      (sendMsgToArm m waitForReply).2 = none ∧
      (sendMsgToArm m waitForReply).1.trace =
        m.trace ++ Ev.crWrite 0x80000005 :: m.peer.map (fun p => Ev.crRead p.cr) ∧
      (sendMsgToArm m waitForReply).1.peer = []) := by
  have hA : DPREG_CR_SET ||| DPREG_CR_MP_ARM ||| DPREG_CR_IE_ARM = 0x80000005 := by decide
  have hm1 : DPREG_CR_MR_ARM = 0x10 := by decide
  rw [sendMsgToArm_eq]
  constructor
  · rw [← sendOk_iff]
    simp only
    constructor
    · rintro ⟨st, hst⟩
      by_contra hc
      simp [hc] at hst
    · intro hok
      exact ⟨wacOK, by simp [hok]⟩
  · intro hall
    have hno : spinOk DPREG_CR_MR_ARM m.peer = false :=
      spinOk_false_of_all _ _ (by simpa [hm1] using hall)
    have hpre : spinPrefix DPREG_CR_MR_ARM m.peer = m.peer :=
      spinPrefix_of_all _ _ (by simpa [hm1] using hall)
    refine ⟨?_, ?_, ?_⟩
    · simp [sendOk, hno]
    · simp [sendTrace, hno, hpre, hA, reads]
    · simp [sendRest, hno]

/-- Witness of `sendMsgToArm_no_timeout`: five reads without bit 4; the call has not
returned after them. -/
theorem sendMsgToArm_no_timeout_witness :
    (∀ p ∈ exSilent.peer, p.cr &&& 0x10 = 0) ∧
    ((sendMsgToArm exSilent true).2 = none ∧
      (sendMsgToArm exSilent true).1.trace =
        exSilent.trace ++ Ev.crWrite 0x80000005 :: exSilent.peer.map (fun p => Ev.crRead p.cr) ∧
      (sendMsgToArm exSilent true).1.peer = []) :=
  ⟨by decide, (sendMsgToArm_no_timeout exSilent true).2 (by decide)⟩

/-- Claim C12.  `ethGetMacAddress` takes the lock, stores the discriminant
`dpcmdEthGetMACAddr` (25) at the start of the window, which is its only store, and makes one
round trip with `waitForReply` true.  When that returns: if the reply discriminant is
`dprplEthMACAddr` it copies the six bytes at window offset 4 to the start of the caller's
buffer, leaves the rest of the buffer alone and returns `wacOK`; otherwise it returns
`wacCOMERR` and the buffer is unchanged.  Both ways the lock is released. -/
theorem ethGetMacAddress_result (m : World) (mac : Mem) (st : WarpAmiCommStatus)
    (hrt : (macRoundTrip m).2 = some st) :
    dpcmdEthGetMACAddr.val = 25 ∧ dprplEthMACAddr.val = 11 ∧
    dpramWrites (ethGetMacAddress m mac).1.trace =
      dpramWrites m.trace ++ [(0, enc32 dpcmdEthGetMACAddr.val)] ∧
    crWrites (ethGetMacAddress m mac).1.trace =
      crWrites m.trace ++ [0x80000005, 0x11, 0x8] ∧
    (rd32 (macRoundTrip m).1.dpram 0 = dprplEthMACAddr.val →
      ethGetMacAddress m mac =
        ({ (macRoundTrip m).1 with trace := (macRoundTrip m).1.trace ++
            [Ev.dpramRead 0 4, Ev.dpramRead 4 6, Ev.unlock] },
          some (wacOK, storeBytes mac 0 (rdBytes (macRoundTrip m).1.dpram 4 6))) ∧
      rdBytes (storeBytes mac 0 (rdBytes (macRoundTrip m).1.dpram 4 6)) 0 6 =
        rdBytes (macRoundTrip m).1.dpram 4 6 ∧
      ∀ i, 6 ≤ i → storeBytes mac 0 (rdBytes (macRoundTrip m).1.dpram 4 6) i = mac i) ∧
    (rd32 (macRoundTrip m).1.dpram 0 ≠ dprplEthMACAddr.val →
      ethGetMacAddress m mac =
        ({ (macRoundTrip m).1 with trace := (macRoundTrip m).1.trace ++
            [Ev.dpramRead 0 4, Ev.unlock] }, some (wacCOMERR, mac))) := by
  have hok := macRoundTrip_returns m st hrt
  obtain ⟨-, f2, f3, -, -, -⟩ := macRoundTrip_facts m st hrt
  have heq := ethGetMacAddress_eq m mac
  rw [if_neg (by simp [hok])] at heq
  have hlen : (rdBytes (macRoundTrip m).1.dpram 4 6).length = 6 := rdBytes_length _ _ _
  refine ⟨by decide, by decide, ?_, ?_, ?_, ?_⟩
  · rw [heq]
    split_ifs <;>
      simp [dpramWrites_append, dpramWrites_cons, dpramWrites_nil, selDpramWrite, f3, OFF_header]
  · rw [heq]
    split_ifs <;> simp [crWrites_append, crWrites_cons, crWrites_nil, selCrWrite, f2]
  · intro hhdr
    refine ⟨?_, ?_, ?_⟩
    · rw [heq, if_neg (by simpa [OFF_header] using hhdr)]
      rfl
    · have h := rdBytes_storeBytes mac 0 (rdBytes (macRoundTrip m).1.dpram 4 6)
      rw [hlen] at h
      exact h
    · intro i hi
      exact storeBytes_of_ge mac 0 _ i (by rw [hlen]; omega)
  · intro hhdr
    rw [heq, if_pos (by simpa [OFF_header] using hhdr)]
    rfl

/-- Witness of `ethGetMacAddress_result`: the peer replies with `dprplEthMACAddr` and the
address `02:00:00:00:00:07`; and a peer that replies with discriminant 9. -/
theorem ethGetMacAddress_result_witness :
    (macRoundTrip exRoundTrip).2 = some wacOK ∧
    rd32 (macRoundTrip exRoundTrip).1.dpram 0 = dprplEthMACAddr.val ∧
    (ethGetMacAddress exRoundTrip (fun _ => 0)).2.map Prod.fst = some wacOK ∧
    (ethGetMacAddress exRoundTrip (fun _ => 0)).2.map (fun r => rdBytes r.2 0 8) =
      some [2, 0, 0, 0, 0, 7, 0, 0] ∧
    (ethGetMacAddress exWrongReply (fun _ => 0)).2.map Prod.fst = some wacCOMERR ∧
    (ethGetMacAddress exRoundTrip (fun _ => 0) =
        ({ (macRoundTrip exRoundTrip).1 with trace := (macRoundTrip exRoundTrip).1.trace ++
            [Ev.dpramRead 0 4, Ev.dpramRead 4 6, Ev.unlock] },
          some (wacOK, storeBytes (fun _ => 0) 0
            (rdBytes (macRoundTrip exRoundTrip).1.dpram 4 6))) ∧
      rdBytes (storeBytes (fun _ => 0) 0 (rdBytes (macRoundTrip exRoundTrip).1.dpram 4 6)) 0 6 =
        rdBytes (macRoundTrip exRoundTrip).1.dpram 4 6 ∧
      ∀ i, 6 ≤ i →
        storeBytes (fun _ => 0) 0 (rdBytes (macRoundTrip exRoundTrip).1.dpram 4 6) i =
          (fun _ => (0 : Byte)) i) :=
  ⟨by decide, by decide, by decide, by decide, by decide,
    (ethGetMacAddress_result exRoundTrip (fun _ => 0) wacOK (by decide)).2.2.2.2.1
      (by decide)⟩

/-- Claim C13.  In `warpnet_probe`, with the interface allocated, the control device found
and the IRQ allocated, against a peer that answers the address query: probe returns 0
whatever the reply.  If the reply discriminant is `dprplEthMACAddr`, `eth_hw_addr_set` is
called and the interface address is the six bytes at window offset 4; otherwise one error
line is logged, `eth_hw_addr_random` is called and the interface address is the generated
one.  In both cases the polling timer is set up afterwards. -/
theorem warpnet_probe_address (HZ : Nat) (env : ProbeEnv) (m : World) (pre1 : List PeerStep)
    (a : PeerStep) (pre2 : List PeerStep) (b : PeerStep) (post : List PeerStep)
    (halloc : env.alloc_ok = true) (hctrl : env.ctrl_found = true)
    (hirq : env.request_irq_ret = 0)
    (hpeer : m.peer = pre1 ++ a :: (pre2 ++ b :: post))
    (hpre1 : ∀ q ∈ pre1, q.cr &&& 0x10 = 0) (ha : a.cr &&& 0x10 ≠ 0)
    (hpre2 : ∀ q ∈ pre2, q.cr &&& 0x8 = 0) (hb : b.cr &&& 0x8 ≠ 0) :
    (warpnet_probe HZ env m).2 = some 0 ∧
    (rd32 (peerWrites (pre1 ++ a :: (pre2 ++ [b]))
        (storeBytes m.dpram 0 (enc32 dpcmdEthGetMACAddr.val))) 0 = dprplEthMACAddr.val →
      rdBytes (warpnet_probe HZ env m).1.dev_addr 0 6 =
        rdBytes (peerWrites (pre1 ++ a :: (pre2 ++ [b]))
          (storeBytes m.dpram 0 (enc32 dpcmdEthGetMACAddr.val))) 4 6 ∧
      calls (warpnet_probe HZ env m).1.trace = calls m.trace ++
        [KCall.alloc_etherdev, KCall.netif_napi_add_weight 8, KCall.register_netdev,
          KCall.request_irq, KCall.eth_hw_addr_set, KCall.timer_setup] ∧
      errors (warpnet_probe HZ env m).1.trace = errors m.trace) ∧
    (rd32 (peerWrites (pre1 ++ a :: (pre2 ++ [b]))
        (storeBytes m.dpram 0 (enc32 dpcmdEthGetMACAddr.val))) 0 ≠ dprplEthMACAddr.val →
      rdBytes (warpnet_probe HZ env m).1.dev_addr 0 6 = rdBytes env.random_addr 0 6 ∧
      calls (warpnet_probe HZ env m).1.trace = calls m.trace ++
        [KCall.alloc_etherdev, KCall.netif_napi_add_weight 8, KCall.register_netdev,
          KCall.request_irq, KCall.eth_hw_addr_random, KCall.timer_setup] ∧
      errors (warpnet_probe HZ env m).1.trace = errors m.trace + 1) := by
  have hm1 : DPREG_CR_MR_ARM = 0x10 := by decide
  have hm2 : DPREG_CR_MP_68K = 0x8 := by decide
  obtain ⟨o1, p1, r1⟩ := spin_of_split DPREG_CR_MR_ARM pre1 a (pre2 ++ b :: post)
    (by simpa [hm1] using hpre1) (by simpa [hm1] using ha)
  obtain ⟨o2, p2, -⟩ := spin_of_split DPREG_CR_MP_68K pre2 b post
    (by simpa [hm2] using hpre2) (by simpa [hm2] using hb)
  obtain ⟨q1, q2, q3⟩ := probeQuery_facts HZ m
  have hok : sendOk (probeQuery HZ m).peer true = true := by
    rw [q1, hpeer]
    simp [sendOk, o1, r1, o2]
  have hcons : sendConsumed (probeQuery HZ m).peer true = pre1 ++ a :: (pre2 ++ [b]) := by
    rw [q1, hpeer]
    simp [sendConsumed, o1, p1, r1, p2]
  have hrt : (macRoundTrip (probeQuery HZ m)).2 = some wacOK := by
    rw [macRoundTrip_eq]
    simp [hok]
  obtain ⟨f1, -, -, f4, -, -⟩ := macRoundTrip_facts (probeQuery HZ m) wacOK hrt
  have h0 : OFF_header = 0 := rfl
  rw [hcons, q2, h0] at f4
  have hlen : ∀ (d : Mem) (off : Nat), (rdBytes d off 6).length = 6 :=
    fun d off => rdBytes_length d off 6
  have hE : ETH_ALEN = 6 := rfl
  have h4 : OFF_mac = 4 := rfl
  have hcalls : calls (macRoundTrip (probeQuery HZ m)).1.trace = calls m.trace ++
      [KCall.alloc_etherdev, KCall.netif_napi_add_weight 8, KCall.register_netdev,
        KCall.request_irq] := by
    rw [f1, q3]
    simp [calls_append, calls_cons, calls_sendTrace, calls_nil]
  have herrs : errors (macRoundTrip (probeQuery HZ m)).1.trace = errors m.trace := by
    rw [f1, q3]
    have hs := errors_sendTrace (probeQuery HZ m).peer true
    simp only [errors] at hs ⊢
    simp [List.count_cons, hs]
  have heq := warpnet_probe_eq HZ env m halloc hctrl hirq
  rw [ethGetMacAddress_eq, if_neg (by simp [hok]), h0, f4] at heq
  refine ⟨?_, ?_, ?_⟩
  · rw [heq]
    split_ifs <;> rfl
  · intro hhdr
    rw [heq, if_neg (by simpa using hhdr)]
    refine ⟨?_, ?_, ?_⟩
    · simp only [eth_hw_addr_set, emit, if_true, hE, h4]
      rw [rdBytes_storeBytes_len _ 0 6 _ (hlen _ _), rdBytes_storeBytes_len _ 0 6 _ (hlen _ _)]
    · simp [eth_hw_addr_set, emit, calls_append, calls_cons, calls_nil, hcalls]
    · simp only [eth_hw_addr_set, emit, if_true]
      rw [← herrs]
      simp [errors, List.count_cons]
  · intro hhdr
    rw [heq, if_pos (by simpa using hhdr)]
    refine ⟨?_, ?_, ?_⟩
    · simp only [eth_hw_addr_random, emit, hE]
      rw [if_neg (by decide), rdBytes_storeBytes_len _ 0 6 _ (hlen _ _)]
    · simp [eth_hw_addr_random, emit, calls_append, calls_cons, calls_nil, hcalls]
    · rw [← herrs]
      simp [eth_hw_addr_random, emit, errors, List.count_cons]

/-- Witness of `warpnet_probe_address`: the peer reports `02:00:00:00:00:07` and probe adopts
it; a peer that replies with discriminant 9 leaves the interface with the generated address
`06:01:02:03:04:05`.  Probe returns 0 both times. -/
theorem warpnet_probe_address_witness :
    exProbeEnv.alloc_ok = true ∧ exProbeEnv.ctrl_found = true ∧
    exProbeEnv.request_irq_ret = 0 ∧
    exRoundTrip.peer = [exIdle] ++ exAck :: ([exIdle] ++ exReply exMacReply :: []) ∧
    (∀ q ∈ [exIdle], q.cr &&& 0x10 = 0) ∧ exAck.cr &&& 0x10 ≠ 0 ∧
    (∀ q ∈ [exIdle], q.cr &&& 0x8 = 0) ∧ (exReply exMacReply).cr &&& 0x8 ≠ 0 ∧
    rdBytes (warpnet_probe 100 exProbeEnv exRoundTrip).1.dev_addr 0 6 = [2, 0, 0, 0, 0, 7] ∧
    (warpnet_probe 100 exProbeEnv exWrongReply).2 = some 0 ∧
    rdBytes (warpnet_probe 100 exProbeEnv exWrongReply).1.dev_addr 0 6 = [6, 1, 2, 3, 4, 5] ∧
    (warpnet_probe 100 exProbeEnv exRoundTrip).2 = some 0 ∧
    calls (warpnet_probe 100 exProbeEnv exRoundTrip).1.trace = calls exRoundTrip.trace ++
      [KCall.alloc_etherdev, KCall.netif_napi_add_weight 8, KCall.register_netdev,
        KCall.request_irq, KCall.eth_hw_addr_set, KCall.timer_setup] :=
  ⟨rfl, rfl, rfl, rfl, by decide, by decide, by decide, by decide, by decide, by decide,
    by decide,
    (warpnet_probe_address 100 exProbeEnv exRoundTrip [exIdle] exAck [exIdle]
      (exReply exMacReply) [] rfl rfl rfl rfl (by decide) (by decide) (by decide)
      (by decide)).1,
    ((warpnet_probe_address 100 exProbeEnv exRoundTrip [exIdle] exAck [exIdle]
      (exReply exMacReply) [] rfl rfl rfl rfl (by decide) (by decide) (by decide)
      (by decide)).2.1 (by decide)).2.1⟩

/-- Claim C14.  For a packet of length `L ≤ 1514` and a peer that acknowledges the command,
`warpnet_start_xmit` returns `NETDEV_TX_OK`.  Its stores into the window are the
discriminant `dpcmdEthTransmit` (23) at offset 0, the 16-bit length at offset 4 and the `L`
packet bytes at offset 6, all below the end of the 1514-byte packet field; the window it
sends reads back as discriminant 23, length `L` and the packet data, and is otherwise as
before; on return the window is that window with the stores of the consumed peer steps.  The
send is the one with `waitForReply` false: the register writes are `0x80000005` then `0x11`
and never `0x8`, and the register is read only until the acknowledgement.  `tx_packets`
grows by 1 and `tx_bytes` by `L` in `unsigned long` arithmetic (exactly so below 2^32). -/
theorem warpnet_start_xmit_effects (skb : List Byte) (m : World) (pre : List PeerStep)
    (a : PeerStep) (post : List PeerStep) (hlen : skb.length ≤ ETH_MTU_AND_HDR_SIZE)
    (hpeer : m.peer = pre ++ a :: post) (hpre : ∀ q ∈ pre, q.cr &&& 0x10 = 0)
    (ha : a.cr &&& 0x10 ≠ 0) :
    (warpnet_start_xmit skb m).2 = some netdev_tx_t.NETDEV_TX_OK ∧
    dpcmdEthTransmit.val = 23 ∧
    rd32 (xmitWindow skb m.dpram) 0 = dpcmdEthTransmit.val ∧
    rd16 (xmitWindow skb m.dpram) 4 = skb.length ∧
    rdBytes (xmitWindow skb m.dpram) 6 skb.length = skb ∧
    (∀ i, 6 + skb.length ≤ i → xmitWindow skb m.dpram i = m.dpram i) ∧
    6 + skb.length ≤ 6 + 1514 ∧
    dpramWrites (warpnet_start_xmit skb m).1.trace = dpramWrites m.trace ++
      [(0, enc32 dpcmdEthTransmit.val), (4, enc16 skb.length), (6, skb)] ∧
    (warpnet_start_xmit skb m).1.dpram = peerWrites (pre ++ [a]) (xmitWindow skb m.dpram) ∧
    ((∀ q ∈ pre ++ [a], q.wr = []) →
      (warpnet_start_xmit skb m).1.dpram = xmitWindow skb m.dpram) ∧
    (warpnet_start_xmit skb m).1.peer = post ∧
    crWrites (warpnet_start_xmit skb m).1.trace = crWrites m.trace ++ [0x80000005, 0x11] ∧
    (warpnet_start_xmit skb m).1.trace = m.trace ++
      [Ev.lock, Ev.dpramWrite 0 (enc32 dpcmdEthTransmit.val),
        Ev.dpramWrite 4 (enc16 skb.length), Ev.dpramWrite 6 skb, Ev.crWrite 0x80000005] ++
      reads (pre ++ [a]) ++ [Ev.crWrite 0x11, Ev.unlock, Ev.call KCall.dev_kfree_skb] ∧
    (warpnet_start_xmit skb m).1.tx_packets = (m.tx_packets + 1) % 2 ^ 32 ∧
    (warpnet_start_xmit skb m).1.tx_bytes = (m.tx_bytes + skb.length) % 2 ^ 32 ∧
    (m.tx_packets + 1 < 2 ^ 32 →
      (warpnet_start_xmit skb m).1.tx_packets = m.tx_packets + 1) ∧
    (m.tx_bytes + skb.length < 2 ^ 32 →
      (warpnet_start_xmit skb m).1.tx_bytes = m.tx_bytes + skb.length) := by
  have hm1 : DPREG_CR_MR_ARM = 0x10 := by decide
  have hA : DPREG_CR_SET ||| DPREG_CR_MP_ARM ||| DPREG_CR_IE_ARM = 0x80000005 := by decide
  have hB : DPREG_CR_CLR ||| DPREG_CR_MR_ARM ||| DPREG_CR_IE_ARM = 0x11 := by decide
  have hL : ETH_MTU_AND_HDR_SIZE = 1514 := by decide
  rw [hL] at hlen
  obtain ⟨o1, p1, r1⟩ := spin_of_split DPREG_CR_MR_ARM pre a post
    (by simpa [hm1] using hpre) (by simpa [hm1] using ha)
  rw [← hpeer] at o1 p1 r1
  have hok : sendOk m.peer false = true := by simp [sendOk, o1]
  have hcons : sendConsumed m.peer false = pre ++ [a] := by simp [sendConsumed, p1]
  have hrest : sendRest m.peer false = post := by simp [sendRest, o1, r1]
  have htr : sendTrace m.peer false =
      Ev.crWrite 0x80000005 :: reads (pre ++ [a]) ++ [Ev.crWrite 0x11] := by
    simp [sendTrace, o1, p1, hA, hB]
  have hcr := crWrites_sendTrace m.peer false hok
  have heq := warpnet_start_xmit_eq skb m
  rw [if_pos hok, hcons, hrest] at heq
  have hdp : (warpnet_start_xmit skb m).1.dpram =
      peerWrites (pre ++ [a]) (xmitWindow skb m.dpram) := by rw [heq]
  have hpk : (warpnet_start_xmit skb m).1.tx_packets = (m.tx_packets + 1) % 2 ^ 32 := by
    rw [heq, ulong_mod_eq]
  have hby : (warpnet_start_xmit skb m).1.tx_bytes =
      (m.tx_bytes + skb.length) % 2 ^ 32 := by
    rw [heq, ulong_mod_eq]
  refine ⟨by rw [heq], by decide, xmitWindow_header skb m.dpram,
    xmitWindow_pktSize skb m.dpram (by omega), xmitWindow_packet skb m.dpram,
    fun i hi => xmitWindow_beyond skb m.dpram i hi, by omega, ?_, hdp, ?_, by rw [heq], ?_, ?_,
    hpk, hby, ?_, ?_⟩
  · rw [heq]
    simp [dpramWrites_append, dpramWrites_cons, dpramWrites_nil, selDpramWrite,
      dpramWrites_sendTrace, OFF_header, OFF_pktSize, OFF_packet]
  · intro hq
    rw [hdp]
    exact peerWrites_of_no_wr _ _ hq
  · rw [heq]
    simp [crWrites_append, crWrites_cons, crWrites_nil, selCrWrite, hcr]
  · rw [heq, htr]
    simp [OFF_header, OFF_pktSize, OFF_packet]
  · intro hlt
    rw [hpk, Nat.mod_eq_of_lt hlt]
  · intro hlt
    rw [hby, Nat.mod_eq_of_lt hlt]

/-- Witness of `warpnet_start_xmit_effects`: an 8-byte packet, 41 packets and 1000 bytes sent
before, a peer that idles once and then acknowledges. -/
theorem warpnet_start_xmit_effects_witness :
    exSkb.length ≤ ETH_MTU_AND_HDR_SIZE ∧ exXmit.peer = [exIdle] ++ exAck :: [exIdle] ∧
    (∀ q ∈ [exIdle], q.cr &&& 0x10 = 0) ∧ exAck.cr &&& 0x10 ≠ 0 ∧
    rdBytes (warpnet_start_xmit exSkb exXmit).1.dpram 0 14 =
      [0, 0, 0, 23, 0, 8, 2, 0, 0, 0, 0, 1, 0xaa, 0x55] ∧
    (warpnet_start_xmit exSkb exXmit).1.tx_packets = 42 ∧
    (warpnet_start_xmit exSkb exXmit).1.tx_bytes = 1008 ∧
    (warpnet_start_xmit exSkb exXmit).2 = some netdev_tx_t.NETDEV_TX_OK ∧
    crWrites (warpnet_start_xmit exSkb exXmit).1.trace =
      crWrites exXmit.trace ++ [0x80000005, 0x11] :=
  ⟨by decide, rfl, by decide, by decide, by decide, by decide, by decide,
    (warpnet_start_xmit_effects exSkb exXmit [exIdle] exAck [exIdle] (by decide) rfl
      (by decide) (by decide)).1,
    (warpnet_start_xmit_effects exSkb exXmit [exIdle] exAck [exIdle] (by decide) rfl
      (by decide) (by decide)).2.2.2.2.2.2.2.2.2.2.2.1⟩

/-- Claim C15.  `warpnet_tx_timeout` changes nothing but `tx_errors` (one more, in
`unsigned long` arithmetic), the transmit timestamp (set to the current `jiffies`) and the
stopped state of the transmit queue (left not stopped); it logs one error and calls
`netif_stop_queue`, `netif_trans_update`, `netif_wake_queue`.  It makes no register write, no
register read, no store into the frame window, and neither takes nor releases the window
lock; the window and the peer are untouched. -/
theorem warpnet_tx_timeout_effects (m : World) :
    warpnet_tx_timeout m =
      { m with tx_errors := (m.tx_errors + 1) % 2 ^ 32, trans_start := m.jiffies,
               queue_stopped := false,
               trace := m.trace ++ [Ev.netdev_err, Ev.call KCall.netif_stop_queue,
                 Ev.call KCall.netif_trans_update, Ev.call KCall.netif_wake_queue] } ∧
    crWrites (warpnet_tx_timeout m).trace = crWrites m.trace ∧
    dpramWrites (warpnet_tx_timeout m).trace = dpramWrites m.trace ∧
    (warpnet_tx_timeout m).trace.count Ev.lock = m.trace.count Ev.lock ∧
    (warpnet_tx_timeout m).trace.count Ev.unlock = m.trace.count Ev.unlock ∧
    (∀ v, (warpnet_tx_timeout m).trace.count (Ev.crRead v) = m.trace.count (Ev.crRead v)) ∧
    (warpnet_tx_timeout m).dpram = m.dpram ∧
    (warpnet_tx_timeout m).peer = m.peer ∧
    (warpnet_tx_timeout m).queue_stopped = false ∧
    (warpnet_tx_timeout m).trans_start = m.jiffies ∧
    (warpnet_tx_timeout m).tx_errors = (m.tx_errors + 1) % 2 ^ 32 ∧
    (m.tx_errors + 1 < 2 ^ 32 → (warpnet_tx_timeout m).tx_errors = m.tx_errors + 1) := by
  rw [warpnet_tx_timeout_eq]
  refine ⟨rfl, ?_, ?_, ?_, ?_, ?_, rfl, rfl, rfl, rfl, rfl, ?_⟩
  · simp [crWrites_append, crWrites_cons, crWrites_nil, selCrWrite]
  · simp [dpramWrites_append, dpramWrites_cons, dpramWrites_nil, selDpramWrite]
  · simp [List.count_cons]
  · simp [List.count_cons]
  · intro v
    simp [List.count_cons]
  · intro h
    simp only
    rw [Nat.mod_eq_of_lt h]

/-- Witness of `warpnet_tx_timeout_effects`: a stopped queue with 5 errors at clock 1000. -/
theorem warpnet_tx_timeout_effects_witness :
    (5 + 1 < 2 ^ 32) ∧
    (warpnet_tx_timeout { tx_errors := 5, queue_stopped := true, jiffies := 1000 }).tx_errors
      = 6 ∧
    (warpnet_tx_timeout { tx_errors := 5, queue_stopped := true, jiffies := 1000 }).queue_stopped
      = false ∧
    (warpnet_tx_timeout { tx_errors := 5, queue_stopped := true, jiffies := 1000 }).trans_start
      = 1000 ∧
    (({ tx_errors := 5, queue_stopped := true, jiffies := 1000 } : World).tx_errors + 1 < 2 ^ 32 →
      (warpnet_tx_timeout { tx_errors := 5, queue_stopped := true, jiffies := 1000 }).tx_errors =
        ({ tx_errors := 5, queue_stopped := true, jiffies := 1000 } : World).tx_errors + 1) :=
  ⟨by decide, by decide, by decide, by decide,
    (warpnet_tx_timeout_effects
      { tx_errors := 5, queue_stopped := true, jiffies := 1000 }).2.2.2.2.2.2.2.2.2.2.2⟩

/-- Claim C16.  Let `p.cr` be the value of the control register that the handler's one read
returns.  `warpnet_irq` returns `IRQ_HANDLED` if and only if bit 9 of it is set.  In that case
its only register write is the clear-mask `0x00000200`, which under the write rule clears
bit 9 and leaves bits 0 to 31 otherwise as they were, and it enqueues a poll exactly when
none was scheduled, the flag being set afterwards.  Otherwise it returns `IRQ_NONE` with no
write and nothing scheduled. -/
theorem warpnet_irq_handled (m : World) (p : PeerStep) (rest : List PeerStep)
    (hpeer : m.peer = p :: rest) :
    ((∃ m1, warpnet_irq m = some (m1, irqreturn_t.IRQ_HANDLED)) ↔ p.cr.testBit 9 = true) ∧
    ((∃ m1, warpnet_irq m = some (m1, irqreturn_t.IRQ_NONE)) ↔ p.cr.testBit 9 = false) ∧
    (p.cr.testBit 9 = true →
      warpnet_irq m =
        some ({ m with dpram := applyWr p.wr m.dpram, peer := rest, napi_sched := true,
                       trace := m.trace ++ ([Ev.crRead p.cr, Ev.crWrite 0x200] ++
                         (if m.napi_sched then [] else [Ev.call KCall.napi_schedule])) },
              irqreturn_t.IRQ_HANDLED)) ∧
    (p.cr.testBit 9 = false →
      warpnet_irq m =
        some ({ m with dpram := applyWr p.wr m.dpram, peer := rest,
                       trace := m.trace ++ [Ev.crRead p.cr] }, irqreturn_t.IRQ_NONE)) ∧
    DPREG_CR_CLR ||| DPREG_CR_IF_ETHRX = 0x200 ∧
    (dpregWrite p.cr 0x200).testBit 9 = false ∧
    (∀ i, i < 32 → i ≠ 9 → (dpregWrite p.cr 0x200).testBit i = p.cr.testBit i) := by
  have hbit : p.cr &&& 0x200 ≠ 0 ↔ p.cr.testBit 9 = true := by
    have e : (0x200 : Nat) = 2 ^ 9 := by norm_num
    rw [e]
    exact and_two_pow_ne_zero p.cr 9
  have heq := warpnet_irq_eq m p rest hpeer
  have hw : ∀ i, i < 32 →
      (dpregWrite p.cr 0x200).testBit i = (p.cr.testBit i && !(Nat.testBit 0x200 i)) := by
    intro i hi
    have h := dpregWrite_clr_testBit p.cr 0x200 i (by norm_num) hi
    have e : DPREG_CR_CLR ||| 0x200 = 0x200 := by decide
    rw [e] at h
    exact h
  by_cases hb : p.cr.testBit 9 = true
  · rw [if_pos (hbit.mpr hb)] at heq
    refine ⟨⟨fun _ => hb, fun _ => ⟨_, heq⟩⟩, ⟨?_, ?_⟩, fun _ => heq, ?_, by decide, ?_, ?_⟩
    · rintro ⟨m1, h1⟩
      rw [heq] at h1
      simp at h1
    · intro hf
      rw [hb] at hf
      cases hf
    · intro hf
      rw [hb] at hf
      cases hf
    · have e9 : Nat.testBit 0x200 9 = true := by decide
      rw [hw 9 (by norm_num), e9]
      simp
    · intro i hi hne
      have e : (0x200 : Nat) = 2 ^ 9 := by norm_num
      rw [hw i hi, e, Nat.testBit_two_pow_of_ne (fun hc => hne hc.symm)]
      simp
  · have hbf : p.cr.testBit 9 = false := by simpa using hb
    rw [if_neg (fun hc => hb (hbit.mp hc))] at heq
    refine ⟨⟨?_, fun hc => absurd hc hb⟩, ⟨fun _ => hbf, fun _ => ⟨_, heq⟩⟩,
      fun hc => absurd hc hb, fun _ => heq, by decide, ?_, ?_⟩
    · rintro ⟨m1, h1⟩
      rw [heq] at h1
      simp at h1
    · have e9 : Nat.testBit 0x200 9 = true := by decide
      rw [hw 9 (by norm_num), e9]
      simp
    · intro i hi hne
      have e : (0x200 : Nat) = 2 ^ 9 := by norm_num
      rw [hw i hi, e, Nat.testBit_two_pow_of_ne (fun hc => hne hc.symm)]
      simp

/-- Witness of `warpnet_irq_handled`: the read returns `0x240` (flag and enable set) on an
idle interface: handled, the register becomes `0x40`, one poll is enqueued. -/
theorem warpnet_irq_handled_witness :
    exIrq.peer = exIrqStep :: [exIrqStep] ∧
    exIrqStep.cr.testBit 9 = true ∧
    dpregWrite exIrqStep.cr 0x200 = 0x40 ∧
    (warpnet_irq exIrq).map Prod.snd = some irqreturn_t.IRQ_HANDLED ∧
    (warpnet_irq exIrqNone).map Prod.snd = some irqreturn_t.IRQ_NONE ∧
    (warpnet_irq exIrq =
        some ({ exIrq with
                dpram := applyWr exIrqStep.wr exIrq.dpram,
                peer := [exIrqStep], napi_sched := true,
                trace := exIrq.trace ++ ([Ev.crRead exIrqStep.cr, Ev.crWrite 0x200] ++
                  (if exIrq.napi_sched then [] else [Ev.call KCall.napi_schedule])) },
              irqreturn_t.IRQ_HANDLED)) :=
  ⟨rfl, by decide, by decide, by decide, by decide,
    (warpnet_irq_handled exIrq exIrqStep [exIrqStep] rfl).2.2.1 (by decide)⟩

/-- Claim C17.  With the poll-scheduled flag a check-and-set (cleared by
`napi_complete_done`), on an idle interface: a packet-arrived interrupt enqueues the poll
once and sets the flag; a second packet-arrived interrupt before the poll has begun, and
likewise a timer tick after the interrupt, enqueue nothing more; and so does an interrupt
after a timer tick.  In each case exactly one poll is enqueued. -/
theorem poll_scheduled_once (HZ : Nat) (m : World) (p1 p2 : PeerStep) (rest : List PeerStep)
    (hidle : m.napi_sched = false) (hpeer : m.peer = p1 :: p2 :: rest)
    (h1 : p1.cr.testBit 9 = true) (h2 : p2.cr.testBit 9 = true) :
    ∃ m1 m2 m3,
      warpnet_irq m = some (m1, irqreturn_t.IRQ_HANDLED) ∧
      warpnet_irq m1 = some (m2, irqreturn_t.IRQ_HANDLED) ∧
      warpnet_irq (pollTimerCallback HZ m) = some (m3, irqreturn_t.IRQ_HANDLED) ∧
      (calls m1.trace).count KCall.napi_schedule =
        (calls m.trace).count KCall.napi_schedule + 1 ∧
      m1.napi_sched = true ∧
      (calls m2.trace).count KCall.napi_schedule =
        (calls m.trace).count KCall.napi_schedule + 1 ∧
      m2.napi_sched = true ∧
      (calls (pollTimerCallback HZ m1).trace).count KCall.napi_schedule =
        (calls m.trace).count KCall.napi_schedule + 1 ∧
      (pollTimerCallback HZ m1).napi_sched = true ∧
      (calls (pollTimerCallback HZ m).trace).count KCall.napi_schedule =
        (calls m.trace).count KCall.napi_schedule + 1 ∧
      (calls m3.trace).count KCall.napi_schedule =
        (calls m.trace).count KCall.napi_schedule + 1 ∧
      m3.napi_sched = true := by
  have hb : ∀ p : PeerStep, p.cr.testBit 9 = true → p.cr &&& 0x200 ≠ 0 := by
    intro p hp
    have e : (0x200 : Nat) = 2 ^ 9 := by norm_num
    rw [e]
    exact (and_two_pow_ne_zero p.cr 9).mpr hp
  have e1 := warpnet_irq_eq m p1 (p2 :: rest) hpeer
  rw [if_pos (hb p1 h1), hidle] at e1
  have e2 := warpnet_irq_eq
    { m with dpram := applyWr p1.wr m.dpram, peer := p2 :: rest, napi_sched := true,
             trace := m.trace ++ ([Ev.crRead p1.cr, Ev.crWrite 0x200] ++
               (if false = true then [] else [Ev.call KCall.napi_schedule])) }
    p2 rest rfl
  rw [if_pos (hb p2 h2)] at e2
  have e3 := warpnet_irq_eq (pollTimerCallback HZ m) p1 (p2 :: rest)
    (by rw [pollTimerCallback_eq]; exact hpeer)
  rw [if_pos (hb p1 h1)] at e3
  refine ⟨_, _, _, e1, e2, e3, ?_, rfl, ?_, rfl, ?_, ?_, ?_, ?_, rfl⟩
  · simp [calls, List.filterMap_append, List.filterMap_cons, List.count_cons]
  · simp [calls, List.filterMap_append, List.filterMap_cons, List.count_cons]
  · rw [pollTimerCallback_eq]
    simp [calls, List.filterMap_append, List.filterMap_cons, List.count_cons]
  · rw [pollTimerCallback_eq]
  · rw [pollTimerCallback_eq, hidle]
    simp [calls, List.filterMap_append, List.filterMap_cons, List.count_cons]
  · rw [pollTimerCallback_eq, hidle]
    simp [calls, List.filterMap_append, List.filterMap_cons, List.count_cons]

/-- Witness of `poll_scheduled_once`: two reads of `0x240` on an idle interface. -/
theorem poll_scheduled_once_witness :
    exIrq.napi_sched = false ∧ exIrq.peer = exIrqStep :: exIrqStep :: [] ∧
    exIrqStep.cr.testBit 9 = true ∧
    ((warpnet_irq exIrq).bind (fun r => warpnet_irq r.1)).map
        (fun r => (calls r.1.trace).count KCall.napi_schedule) = some 1 ∧
    ((warpnet_irq exIrq).map
        (fun r => (calls (pollTimerCallback 100 r.1).trace).count KCall.napi_schedule)) =
      some 1 ∧
    (∃ m1 m2 m3,
      warpnet_irq exIrq = some (m1, irqreturn_t.IRQ_HANDLED) ∧
      warpnet_irq m1 = some (m2, irqreturn_t.IRQ_HANDLED) ∧
      warpnet_irq (pollTimerCallback 100 exIrq) = some (m3, irqreturn_t.IRQ_HANDLED) ∧
      (calls m1.trace).count KCall.napi_schedule =
        (calls exIrq.trace).count KCall.napi_schedule + 1 ∧
      m1.napi_sched = true ∧
      (calls m2.trace).count KCall.napi_schedule =
        (calls exIrq.trace).count KCall.napi_schedule + 1 ∧
      m2.napi_sched = true ∧
      (calls (pollTimerCallback 100 m1).trace).count KCall.napi_schedule =
        (calls exIrq.trace).count KCall.napi_schedule + 1 ∧
      (pollTimerCallback 100 m1).napi_sched = true ∧
      (calls (pollTimerCallback 100 exIrq).trace).count KCall.napi_schedule =
        (calls exIrq.trace).count KCall.napi_schedule + 1 ∧
      (calls m3.trace).count KCall.napi_schedule =
        (calls exIrq.trace).count KCall.napi_schedule + 1 ∧
      m3.napi_sched = true) :=
  ⟨rfl, rfl, by decide, by decide, by decide,
    poll_scheduled_once 100 exIrq exIrqStep exIrqStep [] rfl rfl (by decide) (by decide)⟩

/-- Claim C18.  `warpnet_open` returns 0 and makes two register writes, the clear-mask
`0x00000FFE` of all flags and then the set-mask `0x80000040` of `DPREG_CR_IE_ETHRX`, with
`napi_enable`, `netif_start_queue` and `netif_carrier_on` between them, and then arms the
timer for `jiffies + TMR_POLL_INTERVAL` (in `unsigned long` arithmetic).  Under the write
rule, from every register value `reg`, these writes leave bits 2 to 5 and 9 to 11 clear, bit
6 set, bits 1, 7 and 8 clear and bit 0 as it was. -/
theorem warpnet_open_register (HZ : Nat) (m : World) (reg : Nat) :
    (warpnet_open HZ m).2 = 0 ∧
    ∃ t, (warpnet_open HZ m).1.trace = m.trace ++ t ∧
      t = [Ev.crWrite 0xFFE, Ev.call KCall.napi_enable, Ev.call KCall.netif_start_queue,
           Ev.call KCall.netif_carrier_on, Ev.crWrite 0x80000040,
           Ev.call (KCall.mod_timer ((m.jiffies + TMR_POLL_INTERVAL HZ) % 2 ^ 32))] ∧
      crWrites t = [DPREG_CR_CLR ||| 0xFFE, DPREG_CR_SET ||| DPREG_CR_IE_ETHRX] ∧
      (∀ i ∈ [2, 3, 4, 5, 9, 10, 11], (dpregAfter reg t).testBit i = false) ∧
      (dpregAfter reg t).testBit 6 = true ∧
      (∀ i ∈ [1, 7, 8], (dpregAfter reg t).testBit i = false) ∧
      (dpregAfter reg t).testBit 0 = reg.testBit 0 ∧
      (warpnet_open HZ m).1.timer = some ((m.jiffies + TMR_POLL_INTERVAL HZ) % 2 ^ 32) ∧
      (m.jiffies + TMR_POLL_INTERVAL HZ < 2 ^ 32 →
        (warpnet_open HZ m).1.timer = some (m.jiffies + TMR_POLL_INTERVAL HZ)) ∧
      (warpnet_open HZ m).1.queue_stopped = false ∧
      (warpnet_open HZ m).1.carrier = true ∧
      (warpnet_open HZ m).1.napi_sched = false := by
  rw [warpnet_open_eq]
  have key : ∀ i, i < 31 →
      (dpregAfter reg
        [Ev.crWrite 0xFFE, Ev.call KCall.napi_enable, Ev.call KCall.netif_start_queue,
         Ev.call KCall.netif_carrier_on, Ev.crWrite 0x80000040,
         Ev.call (KCall.mod_timer ((m.jiffies + TMR_POLL_INTERVAL HZ) % 2 ^ 32))]).testBit i =
      ((reg.testBit i && !(Nat.testBit 0xFFE i)) || Nat.testBit 0x40 i) := by
    intro i hi
    have e : dpregAfter reg
        [Ev.crWrite 0xFFE, Ev.call KCall.napi_enable, Ev.call KCall.netif_start_queue,
         Ev.call KCall.netif_carrier_on, Ev.crWrite 0x80000040,
         Ev.call (KCall.mod_timer ((m.jiffies + TMR_POLL_INTERVAL HZ) % 2 ^ 32))] =
        dpregWrite (dpregWrite reg 0xFFE) 0x80000040 := rfl
    rw [e, dpregWrite_enable_testBit _ i hi, dpregWrite_cleanup_testBit _ i (by omega)]
  refine ⟨rfl, _, rfl, rfl, rfl, ?_, ?_, ?_, ?_, rfl, ?_, rfl, rfl, rfl⟩
  · intro i hi
    simp only [List.mem_cons, List.mem_singleton, List.not_mem_nil, or_false] at hi
    have hr : 1 ≤ i ∧ i ≤ 11 ∧ i ≠ 6 := by omega
    rw [key i (by omega), testBit_cleanup_mask i hr.1 hr.2.1, testBit_enable_mask i hr.2.2]
    simp
  · rw [key 6 (by norm_num), testBit_cleanup_mask 6 (by norm_num) (by norm_num)]
    simp
    decide
  · intro i hi
    simp only [List.mem_cons, List.mem_singleton, List.not_mem_nil, or_false] at hi
    have hr : 1 ≤ i ∧ i ≤ 11 ∧ i ≠ 6 := by omega
    rw [key i (by omega), testBit_cleanup_mask i hr.1 hr.2.1, testBit_enable_mask i hr.2.2]
    simp
  · rw [key 0 (by norm_num), testBit_enable_mask 0 (by norm_num)]
    have e0 : Nat.testBit 0xFFE 0 = false := by decide
    rw [e0]
    simp
  · intro hlt
    simp only
    rw [Nat.mod_eq_of_lt hlt]

/-- Witness of `warpnet_open_register`: register `0xFFF` on entry, `HZ` 100, clock
1000: timer armed for 1010. -/
theorem warpnet_open_register_witness :
    (1000 + TMR_POLL_INTERVAL 100 < 2 ^ 32) ∧
    (warpnet_open 100 { jiffies := 1000 }).1.timer = some 1010 ∧
    dpregAfter 0xFFF (warpnet_open 100 { jiffies := 1000 }).1.trace = 0x80000041 ∧
    ((warpnet_open 100 { jiffies := 1000 }).2 = 0 ∧
      ∃ t, (warpnet_open 100 { jiffies := 1000 }).1.trace =
          ({ jiffies := 1000 } : World).trace ++ t ∧
        t = [Ev.crWrite 0xFFE, Ev.call KCall.napi_enable, Ev.call KCall.netif_start_queue,
             Ev.call KCall.netif_carrier_on, Ev.crWrite 0x80000040,
             Ev.call (KCall.mod_timer
               ((({ jiffies := 1000 } : World).jiffies + TMR_POLL_INTERVAL 100) % 2 ^ 32))] ∧
        crWrites t = [DPREG_CR_CLR ||| 0xFFE, DPREG_CR_SET ||| DPREG_CR_IE_ETHRX] ∧
        (∀ i ∈ [2, 3, 4, 5, 9, 10, 11], (dpregAfter 0xFFF t).testBit i = false) ∧
        (dpregAfter 0xFFF t).testBit 6 = true ∧
        (∀ i ∈ [1, 7, 8], (dpregAfter 0xFFF t).testBit i = false) ∧
        (dpregAfter 0xFFF t).testBit 0 = Nat.testBit 0xFFF 0 ∧
        (warpnet_open 100 { jiffies := 1000 }).1.timer =
          some ((({ jiffies := 1000 } : World).jiffies + TMR_POLL_INTERVAL 100) % 2 ^ 32) ∧
        (({ jiffies := 1000 } : World).jiffies + TMR_POLL_INTERVAL 100 < 2 ^ 32 →
          (warpnet_open 100 { jiffies := 1000 }).1.timer =
            some (({ jiffies := 1000 } : World).jiffies + TMR_POLL_INTERVAL 100)) ∧
        (warpnet_open 100 { jiffies := 1000 }).1.queue_stopped = false ∧
        (warpnet_open 100 { jiffies := 1000 }).1.carrier = true ∧
        (warpnet_open 100 { jiffies := 1000 }).1.napi_sched = false) :=
  ⟨by decide, by decide, by decide, warpnet_open_register 100 { jiffies := 1000 } 0xFFF⟩

/-- Claim C19.  `warpnet_close` returns 0; it first calls `del_timer_sync` (the timer is
disarmed), then makes its one register write, the clear-mask `0x00000FFE`, then calls
`netif_carrier_off`, `netif_stop_queue` and `napi_disable`.  Under the write rule, from
every register value `reg`, bits 1 to 11 are zero afterwards, bit 6 among them. -/
theorem warpnet_close_register (m : World) (reg : Nat) :
    (warpnet_close m).2 = 0 ∧
    ∃ t, (warpnet_close m).1.trace = m.trace ++ t ∧
      t = [Ev.call KCall.del_timer_sync, Ev.crWrite 0xFFE, Ev.call KCall.netif_carrier_off,
           Ev.call KCall.netif_stop_queue, Ev.call KCall.napi_disable] ∧
      crWrites t = [DPREG_CR_CLR ||| 0xFFE] ∧
      (∃ t2, t = Ev.call KCall.del_timer_sync :: t2) ∧
      (warpnet_close m).1.timer = none ∧
      (∀ i, 1 ≤ i → i ≤ 11 → (dpregAfter reg t).testBit i = false) ∧
      (dpregAfter reg t).testBit 6 = false ∧
      (warpnet_close m).1.queue_stopped = true ∧
      (warpnet_close m).1.napi_sched = true := by
  rw [warpnet_close_eq]
  have key : ∀ i, 1 ≤ i → i ≤ 11 →
      (dpregAfter reg
        [Ev.call KCall.del_timer_sync, Ev.crWrite 0xFFE, Ev.call KCall.netif_carrier_off,
         Ev.call KCall.netif_stop_queue, Ev.call KCall.napi_disable]).testBit i = false := by
    intro i h1 h2
    have e : dpregAfter reg
        [Ev.call KCall.del_timer_sync, Ev.crWrite 0xFFE, Ev.call KCall.netif_carrier_off,
         Ev.call KCall.netif_stop_queue, Ev.call KCall.napi_disable] =
        dpregWrite reg 0xFFE := rfl
    rw [e, dpregWrite_cleanup_testBit _ i (by omega), testBit_cleanup_mask i h1 h2]
    simp
  exact ⟨rfl, _, rfl, rfl, rfl, ⟨_, rfl⟩, rfl, key, key 6 (by norm_num) (by norm_num), rfl, rfl⟩

/-- Witness of `warpnet_close_register`: register `0xFFF` on entry, timer armed. -/
theorem warpnet_close_register_witness :
    (1 ≤ 6 ∧ 6 ≤ 11) ∧
    (warpnet_close { timer := some 1010 }).1.timer = none ∧
    dpregAfter 0xFFF (warpnet_close { timer := some 1010 }).1.trace = 0x001 ∧
    ((warpnet_close { timer := some 1010 }).2 = 0 ∧
      ∃ t, (warpnet_close { timer := some 1010 }).1.trace =
          ({ timer := some 1010 } : World).trace ++ t ∧
        t = [Ev.call KCall.del_timer_sync, Ev.crWrite 0xFFE, Ev.call KCall.netif_carrier_off,
             Ev.call KCall.netif_stop_queue, Ev.call KCall.napi_disable] ∧
        crWrites t = [DPREG_CR_CLR ||| 0xFFE] ∧
        (∃ t2, t = Ev.call KCall.del_timer_sync :: t2) ∧
        (warpnet_close { timer := some 1010 }).1.timer = none ∧
        (∀ i, 1 ≤ i → i ≤ 11 → (dpregAfter 0xFFF t).testBit i = false) ∧
        (dpregAfter 0xFFF t).testBit 6 = false ∧
        (warpnet_close { timer := some 1010 }).1.queue_stopped = true ∧
        (warpnet_close { timer := some 1010 }).1.napi_sched = true) :=
  ⟨by decide, by decide, by decide, warpnet_close_register { timer := some 1010 } 0xFFF⟩

/-- Claim C20.  The twelve flag constants of the control register are, in the order of the
header, the single bits 0 to 11 (so pairwise distinct, below the selector bit and different
from it); `DPREG_CR_SET` is the selector bit `0x80000000` and `DPREG_CR_CLR` has it clear.
Hence the two masks the driver builds with `DPREG_CR_SET` carry the selector and the four it
builds with `DPREG_CR_CLR` do not, and under the write rule a write of `DPREG_CR_SET | b`
sets exactly the bits of `b` among bits 0 to 30 and a write of `DPREG_CR_CLR | b` clears
exactly the bits of `b`. -/
theorem dpreg_constants :
    [DPREG_CR_IE_ARM, DPREG_CR_IE_68K, DPREG_CR_MP_ARM, DPREG_CR_MP_68K, DPREG_CR_MR_ARM,
      DPREG_CR_MR_68K, DPREG_CR_IE_ETHRX, DPREG_CR_IE_ETHTX, DPREG_CR_IE_ETHST,
      DPREG_CR_IF_ETHRX, DPREG_CR_IF_ETHTX, DPREG_CR_IF_ETHST] =
      (List.range 12).map (fun k => 2 ^ k) ∧
    [DPREG_CR_IE_ARM, DPREG_CR_IE_68K, DPREG_CR_MP_ARM, DPREG_CR_MP_68K, DPREG_CR_MR_ARM,
      DPREG_CR_MR_68K, DPREG_CR_IE_ETHRX, DPREG_CR_IE_ETHTX, DPREG_CR_IE_ETHST,
      DPREG_CR_IF_ETHRX, DPREG_CR_IF_ETHTX, DPREG_CR_IF_ETHST].Nodup ∧
    (∀ f ∈ [DPREG_CR_IE_ARM, DPREG_CR_IE_68K, DPREG_CR_MP_ARM, DPREG_CR_MP_68K,
      DPREG_CR_MR_ARM, DPREG_CR_MR_68K, DPREG_CR_IE_ETHRX, DPREG_CR_IE_ETHTX,
      DPREG_CR_IE_ETHST, DPREG_CR_IF_ETHRX, DPREG_CR_IF_ETHTX, DPREG_CR_IF_ETHST],
      f ≠ 0x80000000 ∧ f &&& 0x80000000 = 0 ∧ f < 2 ^ 31) ∧
    DPREG_CR_SET = 0x80000000 ∧ DPREG_CR_CLR &&& 0x80000000 = 0 ∧
    (∀ v ∈ [DPREG_CR_SET ||| DPREG_CR_MP_ARM ||| DPREG_CR_IE_ARM,
      DPREG_CR_SET ||| DPREG_CR_IE_ETHRX], v &&& 0x80000000 ≠ 0) ∧
    (∀ v ∈ [DPREG_CR_CLR ||| DPREG_CR_MP_68K ||| DPREG_CR_MP_ARM ||| DPREG_CR_MR_68K |||
        DPREG_CR_MR_ARM ||| DPREG_CR_IE_68K ||| DPREG_CR_IE_ETHRX ||| DPREG_CR_IE_ETHST |||
        DPREG_CR_IE_ETHTX ||| DPREG_CR_IF_ETHRX ||| DPREG_CR_IF_ETHST ||| DPREG_CR_IF_ETHTX,
      DPREG_CR_CLR ||| DPREG_CR_IF_ETHRX, DPREG_CR_CLR ||| DPREG_CR_MR_ARM ||| DPREG_CR_IE_ARM,
      DPREG_CR_CLR ||| DPREG_CR_MP_68K], v &&& 0x80000000 = 0 ∧ v < 2 ^ 31) ∧
    (∀ reg b i : Nat, i < 31 →
      (dpregWrite reg (DPREG_CR_SET ||| b)).testBit i = (reg.testBit i || b.testBit i)) ∧
    (∀ reg b i : Nat, b < 2 ^ 31 → i < 32 →
      (dpregWrite reg (DPREG_CR_CLR ||| b)).testBit i = (reg.testBit i && !b.testBit i)) := by
  refine ⟨by decide, by decide, by decide, rfl, by decide, by decide, by decide, ?_, ?_⟩
  · intro reg b i hi
    exact dpregWrite_set_testBit reg b i hi
  · intro reg b i hb hi
    exact dpregWrite_clr_testBit reg b i hb hi

/-- Witness of `dpreg_constants`: on a register with bits 1 to 11 set, the clear-mask of
`DPREG_CR_IF_ETHRX` clears bit 9, and on the zero register the set-mask of
`DPREG_CR_IE_ETHRX` sets bit 6. -/
theorem dpreg_constants_witness :
    6 < 31 ∧ DPREG_CR_IF_ETHRX < 2 ^ 31 ∧ 9 < 32 ∧
    (dpregWrite 0 (DPREG_CR_SET ||| DPREG_CR_IE_ETHRX)).testBit 6 =
      (Nat.testBit 0 6 || DPREG_CR_IE_ETHRX.testBit 6) ∧
    (dpregWrite 0xFFE (DPREG_CR_CLR ||| DPREG_CR_IF_ETHRX)).testBit 9 =
      (Nat.testBit 0xFFE 9 && !DPREG_CR_IF_ETHRX.testBit 9) ∧
    (dpregWrite 0 (DPREG_CR_SET ||| DPREG_CR_IE_ETHRX)).testBit 6 = true ∧
    (dpregWrite 0xFFE (DPREG_CR_CLR ||| DPREG_CR_IF_ETHRX)).testBit 9 = false :=
  ⟨by decide, by decide, by decide,
    dpreg_constants.2.2.2.2.2.2.2.1 0 DPREG_CR_IE_ETHRX 6 (by decide),
    dpreg_constants.2.2.2.2.2.2.2.2 0xFFE DPREG_CR_IF_ETHRX 9 (by decide) (by decide),
    by decide, by decide⟩

/-- Claim C22.  Laid out with 2-byte packing, every variant of the command frame
`DprCmdFrame` starts with the 4-byte discriminant at offset 0; the frame is as large as its
largest variant, the disk-write command: 3602 bytes, the 4-byte discriminant plus a payload
of 3598.  `DprCmdEthSend` and `DprRplEthRecv` both take 1520 bytes, with the 16-bit length
at offset 4 and the 1514-byte packet field at offset 6; these, and offset 4 of the address
in `DprRplEthMACAddr`, are the offsets the driver model uses. -/
theorem DprCmdFrame_layout :
    PACK = 2 ∧ CType.sizeof PACK DprCmdHeader = 4 ∧ CType.sizeof PACK DprRplHeader = 4 ∧
    (CType.members DprCmdFrame).toList.map (fun p =>
        (((CType.members p.2).offsets PACK 0).head?,
          (CType.members p.2).toList.head?.map (fun f => CType.sizeof PACK f.2))) =
      (some ("cmd", 0), some 4) :: List.replicate 16 (some ("header", 0), some 4) ∧
    CType.sizeof PACK DprCmdFrame = 3602 ∧
    CType.sizeof PACK DprCmdDiskWriteBlocks = 3602 ∧
    CType.sizeof PACK DprCmdDiskWriteBlocks - CType.sizeof PACK DprCmdHeader = 3598 ∧
    (3602 : Nat) = 4 + 3598 ∧
    (∀ p ∈ (CType.members DprCmdFrame).toList,
      CType.sizeof PACK p.2 ≤ CType.sizeof PACK DprCmdDiskWriteBlocks) ∧
    CType.sizeof PACK DprCmdEthSend = 1520 ∧ CType.sizeof PACK DprRplEthRecv = 1520 ∧
    (CType.members DprCmdEthSend).offsets PACK 0 =
      [("header", 0), ("pktSize", 4), ("packet", 6)] ∧
    (CType.members DprRplEthRecv).offsets PACK 0 =
      [("header", 0), ("pktSize", 4), ("packet", 6)] ∧
    (CType.members DprCmdEthSend).toList.map (fun f => CType.sizeof PACK f.2) =
      [4, 2, 1514] ∧
    (CType.members DprRplEthRecv).toList.map (fun f => CType.sizeof PACK f.2) =
      [4, 2, 1514] ∧
    (CType.members DprRplEthMACAddr).offsets PACK 0 = [("header", 0), ("mac", 4)] ∧
    OFF_header = 0 ∧ OFF_pktSize = 4 ∧ OFF_packet = 6 ∧ OFF_mac = 4 ∧
    ETH_MTU_AND_HDR_SIZE = 1514 := by
  refine ⟨rfl, by decide, by decide, by decide, by decide, by decide, by decide, rfl,
    by decide, by decide, by decide, by decide, by decide, by decide, by decide, by decide,
    rfl, rfl, rfl, rfl, by decide⟩

/-- Claim C23.  Lock discipline of each single call, as a property of the events it adds to
the trace (`added`), in every run, returning or not.  `ethGetMacAddress`,
`warpnet_start_xmit` and one iteration of the receive loop each take the lock exactly once;
`lockScan` from free never reports a violation, so every store into the window, every
access to the control register and every load of the reply comes while the lock is held,
and the delivery to `netif_receive_skb` while it is free.  A run that returns (whatever the
exit: wrong discriminant, zero length, filtered address or delivery) has released the lock
exactly once and ends with the lock free; a run that does not return (a busy-wait the peer
never answers, or the fault on a failed allocation) has not released it and holds it.  The
calls do return when the peer answers the send (and, for the loop body, the allocation does
not fail).  A whole `warpnet_napi_poll` is never in violation either, and when it returns the
lock is free with as many releases as acquisitions. -/
theorem lock_discipline :
    (∀ (m : World) (mac : Mem),
      (ethGetMacAddress m mac).1.trace = m.trace ++ added m (ethGetMacAddress m mac).1 ∧
      (added m (ethGetMacAddress m mac).1).count Ev.lock = 1 ∧
      ((∃ r, (ethGetMacAddress m mac).2 = some r) ↔ sendOk m.peer true = true) ∧
      ((∃ r, (ethGetMacAddress m mac).2 = some r) →
        lockScan false (added m (ethGetMacAddress m mac).1) = some false ∧
        (added m (ethGetMacAddress m mac).1).count Ev.unlock = 1) ∧
      ((ethGetMacAddress m mac).2 = none →
        lockScan false (added m (ethGetMacAddress m mac).1) = some true ∧
        (added m (ethGetMacAddress m mac).1).count Ev.unlock = 0)) ∧
    (∀ (skb : List Byte) (m : World),
      (warpnet_start_xmit skb m).1.trace = m.trace ++ added m (warpnet_start_xmit skb m).1 ∧
      (added m (warpnet_start_xmit skb m).1).count Ev.lock = 1 ∧
      ((∃ r, (warpnet_start_xmit skb m).2 = some r) ↔ sendOk m.peer false = true) ∧
      ((∃ r, (warpnet_start_xmit skb m).2 = some r) →
        lockScan false (added m (warpnet_start_xmit skb m).1) = some false ∧
        (added m (warpnet_start_xmit skb m).1).count Ev.unlock = 1) ∧
      ((warpnet_start_xmit skb m).2 = none →
        lockScan false (added m (warpnet_start_xmit skb m).1) = some true ∧
        (added m (warpnet_start_xmit skb m).1).count Ev.unlock = 0)) ∧
    (∀ (m : World),
      (pollBody m).1.trace = m.trace ++ added m (pollBody m).1 ∧
      (added m (pollBody m).1).count Ev.lock = 1 ∧
      (m.skb_allocs.head? ≠ some false →
        ((∃ c, (pollBody m).2 = some c) ↔ sendOk m.peer true = true)) ∧
      ((∃ c, (pollBody m).2 = some c) →
        lockScan false (added m (pollBody m).1) = some false ∧
        (added m (pollBody m).1).count Ev.unlock = 1) ∧
      ((pollBody m).2 = some LoopCtl.brk → delivered (added m (pollBody m).1) = []) ∧
      ((pollBody m).2 = none →
        lockScan false (added m (pollBody m).1) = some true ∧
        (added m (pollBody m).1).count Ev.unlock = 0)) ∧
    (∀ (m : World) (budget : Int),
      (warpnet_napi_poll m budget).1.trace =
        m.trace ++ added m (warpnet_napi_poll m budget).1 ∧
      lockScan false (added m (warpnet_napi_poll m budget).1) ≠ none ∧
      (responsive budget.toNat m.peer = true → (∀ b ∈ m.skb_allocs, b = true) →
        ∃ r, (warpnet_napi_poll m budget).2 = some r) ∧
      ((∃ r, (warpnet_napi_poll m budget).2 = some r) →
        lockScan false (added m (warpnet_napi_poll m budget).1) = some false ∧
        (added m (warpnet_napi_poll m budget).1).count Ev.lock =
          (added m (warpnet_napi_poll m budget).1).count Ev.unlock)) := by
  refine ⟨?_, ?_, ?_, ?_⟩
  · intro m mac
    obtain ⟨t, h1, h2, h3, h4⟩ := ethGetMacAddress_lock m mac
    rw [added_eq m _ t h1]
    exact ⟨h1, h2, ethGetMacAddress_some m mac, fun ⟨r, hr⟩ => h4 r hr, h3⟩
  · intro skb m
    obtain ⟨t, h1, h2, h3, h4⟩ := warpnet_start_xmit_lock skb m
    rw [added_eq m _ t h1]
    exact ⟨h1, h2, warpnet_start_xmit_some skb m, fun ⟨r, hr⟩ => h4 r hr, h3⟩
  · intro m
    obtain ⟨t, h1, h2, h3, h4, h5⟩ := pollBody_lock m
    rw [added_eq m _ t h1]
    exact ⟨h1, h2, pollBody_some m, fun ⟨c, hc⟩ => h4 c hc, h5, h3⟩
  · intro m budget
    obtain ⟨t, h, h1, h2, h3⟩ := pollLoop_lock budget budget.toNat 0 m
    have h1p : (warpnet_napi_poll m budget).1.trace = m.trace ++ t := h1
    rw [added_eq m _ t h1p]
    refine ⟨h1p, by rw [h2]; simp, ?_, ?_⟩
    · intro hresp hall
      exact pollLoop_returns budget budget.toNat 0 m (by omega) (by simpa using hresp) hall
    · rintro ⟨r, hr⟩
      obtain ⟨e1, e2⟩ := h3 r hr
      rw [e1] at h2
      exact ⟨h2, e2⟩

/-- Witness of `lock_discipline`: each of the three calls on a peer that answers and on a
peer that does not, the loop body on a failed allocation, a poll that delivers two frames,
and three orders of events the scan rejects. -/
theorem lock_discipline_witness :
    lockScan false [Ev.dpramWrite 0 [], Ev.lock, Ev.unlock] = none ∧
    lockScan false [Ev.lock, Ev.netif_receive_skb [], Ev.unlock] = none ∧
    lockScan false [Ev.lock, Ev.dpramRead 0 4] = some true ∧
    (pollBody exWrongReply).2 = some LoopCtl.brk ∧
    (pollBody exRx).2 = some LoopCtl.next ∧
    (warpnet_napi_poll exRxPromisc 3).2 = some 2 ∧
    (added exRxPromisc (warpnet_napi_poll exRxPromisc 3).1).count Ev.lock = 3 ∧
    (lockScan false (added exRoundTrip (ethGetMacAddress exRoundTrip (fun _ => 0)).1) =
        some false ∧
      (added exRoundTrip (ethGetMacAddress exRoundTrip (fun _ => 0)).1).count Ev.unlock = 1) ∧
    (lockScan false (added exSilent (ethGetMacAddress exSilent (fun _ => 0)).1) = some true ∧
      (added exSilent (ethGetMacAddress exSilent (fun _ => 0)).1).count Ev.unlock = 0) ∧
    (lockScan false (added exXmit (warpnet_start_xmit exSkb exXmit).1) = some false ∧
      (added exXmit (warpnet_start_xmit exSkb exXmit).1).count Ev.unlock = 1) ∧
    (lockScan false (added exSilent (warpnet_start_xmit exSkb exSilent).1) = some true ∧
      (added exSilent (warpnet_start_xmit exSkb exSilent).1).count Ev.unlock = 0) ∧
    (lockScan false (added exFiltered (pollBody exFiltered).1) = some false ∧
      (added exFiltered (pollBody exFiltered).1).count Ev.unlock = 1) ∧
    delivered (added exFiltered (pollBody exFiltered).1) = [] ∧
    (lockScan false (added exAllocFail (pollBody exAllocFail).1) = some true ∧
      (added exAllocFail (pollBody exAllocFail).1).count Ev.unlock = 0) ∧
    (lockScan false (added exRxPromisc (warpnet_napi_poll exRxPromisc 3).1) = some false ∧
      (added exRxPromisc (warpnet_napi_poll exRxPromisc 3).1).count Ev.lock =
        (added exRxPromisc (warpnet_napi_poll exRxPromisc 3).1).count Ev.unlock) :=
  ⟨by decide, by decide, by decide, by decide, by decide, by decide, by decide,
    (lock_discipline.1 exRoundTrip (fun _ => 0)).2.2.2.1
      ((lock_discipline.1 exRoundTrip (fun _ => 0)).2.2.1.mpr (by decide)),
    (lock_discipline.1 exSilent (fun _ => 0)).2.2.2.2 rfl,
    (lock_discipline.2.1 exSkb exXmit).2.2.2.1 ⟨netdev_tx_t.NETDEV_TX_OK, by decide⟩,
    (lock_discipline.2.1 exSkb exSilent).2.2.2.2 (by decide),
    (lock_discipline.2.2.1 exFiltered).2.2.2.1
      (((lock_discipline.2.2.1 exFiltered).2.2.1 (by decide)).mpr (by decide)),
    (lock_discipline.2.2.1 exFiltered).2.2.2.2.1 (by decide),
    (lock_discipline.2.2.1 exAllocFail).2.2.2.2.2 (by decide),
    (lock_discipline.2.2.2 exRxPromisc 3).2.2.2
      ((lock_discipline.2.2.2 exRxPromisc 3).2.2.1 (by decide) (by decide))⟩
/-- Claim C24.  The command and the reply discriminant are the same four bytes of the
window, and `dpcmdEthReceive` (24) differs from `dprplEthReceive` (10), `dpcmdEthGetMACAddr`
(25) from `dprplEthMACAddr` (11).  So whenever the round trip returns and the window still
holds the command, an iteration of `warpnet_napi_poll` leaves the loop by the wrong-reply
exit, with one error logged, nothing delivered and the receive counters unchanged (a poll
with a positive budget returns 0), and `ethGetMacAddress` returns `wacCOMERR` with the
caller's buffer unchanged.  The window does still hold the command when the peer
acknowledges and answers without storing into those four bytes. -/
theorem stale_window_mismatch :
    OFF_header = 0 ∧
    dpcmdEthReceive.val = 24 ∧ dprplEthReceive.val = 10 ∧
    dpcmdEthGetMACAddr.val = 25 ∧ dprplEthMACAddr.val = 11 ∧
    (∀ (m : World) (st : WarpAmiCommStatus), (rxRoundTrip m).2 = some st →
      rd32 (rxRoundTrip m).1.dpram OFF_header = dpcmdEthReceive.val →
      (∀ (budget : Int) (fuel : Nat) (rx_count : Int), rx_count < budget →
        (pollLoop budget (fuel + 1) rx_count m).2 = some rx_count ∧
        delivered (pollLoop budget (fuel + 1) rx_count m).1.trace = delivered m.trace ∧
        errors (pollLoop budget (fuel + 1) rx_count m).1.trace = errors m.trace + 1 ∧
        (pollLoop budget (fuel + 1) rx_count m).1.rx_packets = m.rx_packets ∧
        (pollLoop budget (fuel + 1) rx_count m).1.rx_bytes = m.rx_bytes) ∧
      (∀ budget : Int, 0 < budget →
        (warpnet_napi_poll m budget).2 = some 0 ∧
        delivered (warpnet_napi_poll m budget).1.trace = delivered m.trace ∧
        errors (warpnet_napi_poll m budget).1.trace = errors m.trace + 1)) ∧
    (∀ (m : World) (st : WarpAmiCommStatus) (mac : Mem), (macRoundTrip m).2 = some st →
      rd32 (macRoundTrip m).1.dpram OFF_header = dpcmdEthGetMACAddr.val →
      (ethGetMacAddress m mac).2 = some (wacCOMERR, mac)) ∧
    (∀ (m : World) (pre1 : List PeerStep) (a : PeerStep) (pre2 : List PeerStep)
        (b : PeerStep) (post : List PeerStep),
      m.peer = pre1 ++ a :: (pre2 ++ b :: post) →
      (∀ q ∈ pre1, q.cr &&& 0x10 = 0) → a.cr &&& 0x10 ≠ 0 →
      (∀ q ∈ pre2, q.cr &&& 0x8 = 0) → b.cr &&& 0x8 ≠ 0 →
      (∀ q ∈ pre1 ++ a :: (pre2 ++ [b]), ∀ w ∈ q.wr, 4 ≤ w.1) →
      (rxRoundTrip m).2 = some wacOK ∧ (macRoundTrip m).2 = some wacOK ∧
      rd32 (rxRoundTrip m).1.dpram OFF_header = dpcmdEthReceive.val ∧
      rd32 (macRoundTrip m).1.dpram OFF_header = dpcmdEthGetMACAddr.val) := by
  refine ⟨rfl, by decide, by decide, by decide, by decide, ?_, ?_, ?_⟩
  · intro m st hrt hstill
    have hok := rxRoundTrip_returns m st hrt
    have hne : rd32 (rxRoundTrip m).1.dpram OFF_header ≠ dprplEthReceive.val := by
      rw [hstill]
      decide
    have hb0 : pollBody m = ({ (rxRoundTrip m).1 with trace := (rxRoundTrip m).1.trace ++
        [Ev.dpramRead OFF_header 4, Ev.unlock, Ev.netdev_err] }, some LoopCtl.brk) := by
      rw [pollBody_eq, if_neg (by simp [hok]), if_pos hne]
    obtain ⟨-, -, -, f4, -, f6, -, -, -, f10, f11, -, -, -, -⟩ := rxRoundTrip_facts m st hrt
    have hloop : ∀ (budget : Int) (fuel : Nat) (rx_count : Int), rx_count < budget →
        (pollLoop budget (fuel + 1) rx_count m).2 = some rx_count ∧
        delivered (pollLoop budget (fuel + 1) rx_count m).1.trace = delivered m.trace ∧
        errors (pollLoop budget (fuel + 1) rx_count m).1.trace = errors m.trace + 1 ∧
        (pollLoop budget (fuel + 1) rx_count m).1.rx_packets = m.rx_packets ∧
        (pollLoop budget (fuel + 1) rx_count m).1.rx_bytes = m.rx_bytes := by
      intro budget fuel rx_count hlt
      rw [pollLoop_brk budget fuel rx_count m _ hlt hb0]
      refine ⟨rfl, ?_, ?_, f10, f11⟩
      · simp [delivered_append, delivered_cons, delivered_nil, selDelivered, f4]
      · simp [errors_append, f6]
        simp [errors, List.count_cons]
    refine ⟨hloop, ?_⟩
    intro budget hpos
    obtain ⟨k, hk⟩ : ∃ k, budget.toNat = k + 1 := ⟨budget.toNat - 1, by omega⟩
    unfold warpnet_napi_poll
    rw [hk]
    obtain ⟨e1, e2, e3, -, -⟩ := hloop budget k 0 hpos
    exact ⟨e1, e2, e3⟩
  · intro m st mac hrt hstill
    have hok := macRoundTrip_returns m st hrt
    rw [ethGetMacAddress_eq, if_neg (by simp [hok]), if_pos (by rw [hstill]; decide)]
  · intro m pre1 a pre2 b post hpeer hpre1 ha hpre2 hb hkeep
    obtain ⟨hok, hcons, -⟩ := sendConsumed_of_split pre1 a pre2 b post hpre1 ha hpre2 hb
    rw [← hpeer] at hok hcons
    have hrx : (rxRoundTrip m).2 = some wacOK := by
      rw [rxRoundTrip_eq]
      simp [hok]
    have hmac : (macRoundTrip m).2 = some wacOK := by
      rw [macRoundTrip_eq]
      simp [hok]
    refine ⟨hrx, hmac, ?_, ?_⟩
    · have hr := congrArg Prod.fst (rxRoundTrip_eq m)
      simp only at hr
      rw [hr]
      simp only
      show rd32 (peerWrites (sendConsumed m.peer true) _) 0 = _
      rw [hcons, rd32_peerWrites_keep _ _ hkeep]
      exact rd32_storeBytes_enc32 m.dpram 0 dpcmdEthReceive.val (by decide)
    · obtain ⟨-, -, -, f4, -, -⟩ := macRoundTrip_facts m wacOK hmac
      rw [f4, hcons]
      show rd32 (peerWrites _ _) 0 = _
      rw [rd32_peerWrites_keep _ _ hkeep]
      exact rd32_storeBytes_enc32 m.dpram 0 dpcmdEthGetMACAddr.val (by decide)

/-- Witness of `stale_window_mismatch`: the peer acknowledges, stores three bytes behind the
discriminant and raises message-pending-to-host; the poll returns 0 with one error and the
address query returns `wacCOMERR`. -/
theorem stale_window_mismatch_witness :
    exStale.peer = [] ++ exAck :: ([] ++ exStaleStep :: []) ∧
    (∀ q ∈ ([] : List PeerStep), q.cr &&& 0x10 = 0) ∧ exAck.cr &&& 0x10 ≠ 0 ∧
    (∀ q ∈ ([] : List PeerStep), q.cr &&& 0x8 = 0) ∧ exStaleStep.cr &&& 0x8 ≠ 0 ∧
    (∀ q ∈ [] ++ exAck :: ([] ++ [exStaleStep]), ∀ w ∈ q.wr, 4 ≤ w.1) ∧
    rdBytes (rxRoundTrip exStale).1.dpram 0 7 = [0, 0, 0, 24, 0, 8, 0xff] ∧
    (warpnet_napi_poll exStale 4).2 = some 0 ∧
    errors (warpnet_napi_poll exStale 4).1.trace = 1 ∧
    (ethGetMacAddress exStale (fun _ => 0)).2.map Prod.fst = some wacCOMERR ∧
    ((rxRoundTrip exStale).2 = some wacOK ∧ (macRoundTrip exStale).2 = some wacOK ∧
      rd32 (rxRoundTrip exStale).1.dpram OFF_header = dpcmdEthReceive.val ∧
      rd32 (macRoundTrip exStale).1.dpram OFF_header = dpcmdEthGetMACAddr.val) ∧
    ((warpnet_napi_poll exStale 4).2 = some 0 ∧
      delivered (warpnet_napi_poll exStale 4).1.trace = delivered exStale.trace ∧
      errors (warpnet_napi_poll exStale 4).1.trace = errors exStale.trace + 1) :=
  ⟨rfl, by decide, by decide, by decide, by decide, by decide, by decide, by decide,
    by decide, by decide,
    stale_window_mismatch.2.2.2.2.2.2.2 exStale [] exAck [] exStaleStep [] rfl (by decide)
      (by decide) (by decide) (by decide) (by decide),
    (stale_window_mismatch.2.2.2.2.2.1 exStale wacOK (by decide) (by decide)).2 4
      (by decide)⟩

/-- Claim C25, the code at the failing input.  The start address `warpfb_pan_display`
programs on an accepted request is `((xoffset * line_length) >> 4) +
((xoffset * bytes_per_pixel + 8) >> 4)` in 32-bit arithmetic: `yoffset` does not enter it.
In the 640x480 mode with a virtual screen of 960 lines and 1280 bytes per line, the requests
with `yoffset` 0 and `yoffset` 480 (`xoffset` 0) are both accepted and both program start
address 0, where the claim's formula gives 0 and 38400. -/
theorem warpfb_pan_display_ignores_yoffset :
    (∀ (var : fb_var_screeninfo) (info : fb_info) (stat : Nat),
      (warpfb_pan_display var info stat).1.disp_addr =
        if (warpfb_pan_display var info stat).2.2 = 0 then
          ((((var.xoffset * info.fix.line_length) % 4294967296) >>> 4) +
            ((((var.xoffset * (info.var.bits_per_pixel >>> 3)) % 4294967296 + 8) %
              4294967296) >>> 4)) % 4294967296
        else info.disp_addr) ∧
    exInfo565.fix.line_length = 1280 ∧ exInfo565.var.bits_per_pixel >>> 3 = 2 ∧
    exInfo565.var.yres = 480 ∧ exInfo565.var.yres_virtual = 960 ∧
    (warpfb_pan_display { xoffset := 0, yoffset := 0 } exInfo565 0).2.2 = 0 ∧
    (warpfb_pan_display { xoffset := 0, yoffset := 480 } exInfo565 0).2.2 = 0 ∧
    (warpfb_pan_display { xoffset := 0, yoffset := 480 } exInfo565 0).1.var.yoffset = 480 ∧
    (warpfb_pan_display { xoffset := 0, yoffset := 0 } exInfo565 0).1.disp_addr = 0 ∧
    (warpfb_pan_display { xoffset := 0, yoffset := 480 } exInfo565 0).1.disp_addr = 0 ∧
    ((480 * 1280) >>> 4) + ((0 * 2 + 8) >>> 4) = 38400 ∧
    (warpfb_pan_display { xoffset := 0, yoffset := 480 } exInfo565 0).1.disp_addr ≠
      ((480 * 1280) >>> 4) + ((0 * 2 + 8) >>> 4) := by
  refine ⟨?_, by decide, by decide, by decide, by decide, by decide, by decide, by decide,
    by decide, by decide, by decide, by decide⟩
  intro var info stat
  unfold warpfb_pan_display
  simp only
  split_ifs with h1 h2 h2
  · simp [EINVAL] at h2
  · rfl
  · rfl
  · exact absurd rfl h2

/-- Claim C26.  Whatever mode is requested and whatever `warpfb_check_var` returns, the
visible resolution it leaves in `*var` is one of 640x480, 800x600, 1024x768, 1280x720 and
1280x1024: the requested one when that is one of the five, and 640x480 otherwise.  The
five are the resolutions of the entries of `vid_modedb`, so each entry keeps its own. -/
theorem warpfb_check_var_resolution (var : fb_var_screeninfo) (info : fb_info) :
    ((warpfb_check_var var info).1.xres, (warpfb_check_var var info).1.yres) ∈
      [(640, 480), (800, 600), (1024, 768), (1280, 720), (1280, 1024)] ∧
    ((warpfb_check_var var info).1.xres, (warpfb_check_var var info).1.yres) =
      (if (var.xres, var.yres) ∈
          [(640, 480), (800, 600), (1024, 768), (1280, 720), (1280, 1024)]
        then (var.xres, var.yres) else (640, 480)) ∧
    vid_modedb.map (fun e => (e.xres, e.yres)) =
      [(640, 480), (800, 600), (1024, 768), (1280, 720), (1280, 1024)] ∧
    (∀ e ∈ vid_modedb, var.xres = e.xres → var.yres = e.yres →
      (warpfb_check_var var info).1.xres = e.xres ∧
      (warpfb_check_var var info).1.yres = e.yres) := by
  obtain ⟨h1, h2, -, -⟩ := warpfb_check_var_fields var info
  have heq := check_var_resolution_eq var
  rw [← h1, ← h2] at heq
  have hdb : vid_modedb.map (fun e => (e.xres, e.yres)) =
      [(640, 480), (800, 600), (1024, 768), (1280, 720), (1280, 1024)] := rfl
  refine ⟨?_, heq, hdb, ?_⟩
  · rw [heq]
    split_ifs with h
    · exact h
    · simp
  · intro e he hx hy
    have hmem : (e.xres, e.yres) ∈ vid_modedb.map (fun e => (e.xres, e.yres)) :=
      List.mem_map_of_mem _ he
    rw [hdb, ← hx, ← hy] at hmem
    rw [if_pos hmem] at heq
    rw [← hx, ← hy]
    exact ⟨congrArg Prod.fst heq, congrArg Prod.snd heq⟩

/-- Witness of `warpfb_check_var_resolution`: a request for 800x600 keeps it, a request for
1000x700 becomes 640x480, also when the call fails for its depth. -/
theorem warpfb_check_var_resolution_witness :
    ((warpfb_check_var exVar800 {}).1.xres, (warpfb_check_var exVar800 {}).1.yres) =
      (800, 600) ∧
    (warpfb_check_var exVar800 {}).2 = 0 ∧
    ((warpfb_check_var { xres := 1000, yres := 700, bits_per_pixel := 40 } {}).1.xres,
      (warpfb_check_var { xres := 1000, yres := 700, bits_per_pixel := 40 } {}).1.yres) =
      (640, 480) ∧
    (warpfb_check_var { xres := 1000, yres := 700, bits_per_pixel := 40 } {}).2 = - EINVAL ∧
    ((warpfb_check_var exVar800 {}).1.xres, (warpfb_check_var exVar800 {}).1.yres) ∈
      [(640, 480), (800, 600), (1024, 768), (1280, 720), (1280, 1024)] :=
  ⟨by decide, by decide, by decide, by decide, (warpfb_check_var_resolution exVar800 {}).1⟩

/-- Claim C27, the code at two failing inputs.  For the request 1024x768 at 32 bits per
pixel with 1048576 virtual lines `warpfb_check_var` returns 0: the line length is 4096
bytes and the product `4096 * 1048576 = 2^32` wraps to 0 in the `u_long` comparison with
`videomemorysize`, while as an exact integer it exceeds 24 MiB.  For the request 640x480 at
16 bits with `xoffset = 0xFFFFFFFF` it returns 0 as well: `xoffset + xres` wraps to 639, so
`xres_virtual` stays 640, below `xoffset + xres`. -/
theorem warpfb_check_var_wraps :
    (warpfb_check_var exVarTall {}).2 = 0 ∧
    (warpfb_check_var exVarTall {}).1.xres_virtual = 1024 ∧
    (warpfb_check_var exVarTall {}).1.yres_virtual = 1048576 ∧
    (warpfb_check_var exVarTall {}).1.bits_per_pixel = 32 ∧
    get_line_length 1024 32 = 4096 ∧
    get_line_length (warpfb_check_var exVarTall {}).1.xres_virtual
        (warpfb_check_var exVarTall {}).1.bits_per_pixel *
      (warpfb_check_var exVarTall {}).1.yres_virtual = 4294967296 ∧
    videomemorysize = 24 * 1024 * 1024 ∧
    ¬ (get_line_length (warpfb_check_var exVarTall {}).1.xres_virtual
          (warpfb_check_var exVarTall {}).1.bits_per_pixel *
        (warpfb_check_var exVarTall {}).1.yres_virtual ≤ 24 * 1024 * 1024) ∧
    (warpfb_check_var exVarFar {}).2 = 0 ∧
    (warpfb_check_var exVarFar {}).1.xres = 640 ∧
    (warpfb_check_var exVarFar {}).1.xoffset = 4294967295 ∧
    (warpfb_check_var exVarFar {}).1.xres_virtual = 640 ∧
    ¬ ((warpfb_check_var exVarFar {}).1.xres_virtual ≥
        (warpfb_check_var exVarFar {}).1.xoffset + (warpfb_check_var exVarFar {}).1.xres) := by
  decide

/-- Claim C28.  `warpfb_check_var` returns `-EINVAL` if and only if the requested
`bits_per_pixel` is above 32 (the depth is then left as requested).  Otherwise the depth
becomes the least of 8, 16, 32 that is not below the request.  On a return of 0 the depth is
8, 16 or 32 and the colour layout is the one the second `switch` gives for that depth, so its
cases 1 and 24 are never taken. -/
theorem warpfb_check_var_bits_per_pixel (var : fb_var_screeninfo) (info : fb_info) :
    ((warpfb_check_var var info).2 = - EINVAL ↔ 32 < var.bits_per_pixel) ∧
    (32 < var.bits_per_pixel →
      (warpfb_check_var var info).1.bits_per_pixel = var.bits_per_pixel) ∧
    (var.bits_per_pixel ≤ 32 →
      (warpfb_check_var var info).1.bits_per_pixel ∈ [8, 16, 32] ∧
      var.bits_per_pixel ≤ (warpfb_check_var var info).1.bits_per_pixel ∧
      ∀ d ∈ [8, 16, 32], var.bits_per_pixel ≤ d →
        (warpfb_check_var var info).1.bits_per_pixel ≤ d) ∧
    ((warpfb_check_var var info).2 = 0 →
      (warpfb_check_var var info).1.bits_per_pixel ∈ [8, 16, 32] ∧
      (warpfb_check_var var info).1.bits_per_pixel ≠ 1 ∧
      (warpfb_check_var var info).1.bits_per_pixel ≠ 24 ∧
      (∃ w, (warpfb_check_var var info).1 = check_var_colour w ∧
        w.bits_per_pixel ∈ [8, 16, 32]) ∧
      ((warpfb_check_var var info).1.bits_per_pixel = 8 →
        (warpfb_check_var var info).1.red = { offset := 0, length := 8 } ∧
        (warpfb_check_var var info).1.green = { offset := 0, length := 8 } ∧
        (warpfb_check_var var info).1.blue = { offset := 0, length := 8 } ∧
        (warpfb_check_var var info).1.transp = { offset := 0, length := 0 }) ∧
      ((warpfb_check_var var info).1.bits_per_pixel = 16 →
        (warpfb_check_var var info).1.red = { offset := 11, length := 5 } ∧
        (warpfb_check_var var info).1.green = { offset := 5, length := 6 } ∧
        (warpfb_check_var var info).1.blue = { offset := 0, length := 5 } ∧
        (warpfb_check_var var info).1.transp = { offset := 0, length := 0 }) ∧
      ((warpfb_check_var var info).1.bits_per_pixel = 32 →
        (warpfb_check_var var info).1.red = { offset := 8, length := 8 } ∧
        (warpfb_check_var var info).1.green = { offset := 16, length := 8 } ∧
        (warpfb_check_var var info).1.blue = { offset := 24, length := 8 } ∧
        (warpfb_check_var var info).1.transp = { offset := 0, length := 0 })) := by
  obtain ⟨hret, hcol⟩ := warpfb_check_var_ret var info
  obtain ⟨-, -, -, hb⟩ := warpfb_check_var_fields var info
  have hround : var.bits_per_pixel ≤ 32 →
      (warpfb_check_var var info).1.bits_per_pixel ∈ [8, 16, 32] ∧
      var.bits_per_pixel ≤ (warpfb_check_var var info).1.bits_per_pixel ∧
      ∀ d ∈ [8, 16, 32], var.bits_per_pixel ≤ d →
        (warpfb_check_var var info).1.bits_per_pixel ≤ d := by
    intro hle
    rw [hb]
    split_ifs <;> simp <;> omega
  refine ⟨hret, ?_, hround, ?_⟩
  · intro h
    rw [hb]
    split_ifs <;> first | rfl | omega
  · intro h0
    have hle : var.bits_per_pixel ≤ 32 := by
      by_contra hc
      have := hret.mpr (by omega)
      rw [this] at h0
      simp [EINVAL] at h0
    obtain ⟨m1, -, -⟩ := hround hle
    obtain ⟨w, e1, e2, -⟩ := hcol h0
    obtain ⟨l8, l16, l32⟩ := check_var_colour_layout w
    refine ⟨m1, ?_, ?_, ⟨w, e1, by rw [e2]; exact m1⟩, ?_, ?_, ?_⟩
    · intro h
      rw [h] at m1
      simp at m1
    · intro h
      rw [h] at m1
      simp at m1
    · intro h
      rw [e1]
      exact l8 (by rw [e2, h])
    · intro h
      rw [e1]
      exact l16 (by rw [e2, h])
    · intro h
      rw [e1]
      exact l32 (by rw [e2, h])

/-- Witness of `warpfb_check_var_bits_per_pixel`: depths 15 and 24 are rounded to 16 and 32
with the RGB 565 and RGBA 8888 layouts, depth 33 is refused. -/
theorem warpfb_check_var_bits_per_pixel_witness :
    (warpfb_check_var { exVar800 with bits_per_pixel := 15 } {}).2 = 0 ∧
    (warpfb_check_var { exVar800 with bits_per_pixel := 15 } {}).1.bits_per_pixel = 16 ∧
    (warpfb_check_var { exVar800 with bits_per_pixel := 24 } {}).2 = 0 ∧
    (warpfb_check_var { exVar800 with bits_per_pixel := 24 } {}).1.bits_per_pixel = 32 ∧
    (warpfb_check_var { exVar800 with bits_per_pixel := 24 } {}).1.red =
      { offset := 8, length := 8 } ∧
    (warpfb_check_var { exVar800 with bits_per_pixel := 33 } {}).2 = - EINVAL ∧
    (warpfb_check_var exVar800 {}).1.red = { offset := 11, length := 5 } ∧
    (warpfb_check_var exVar800 {}).1.bits_per_pixel ∈ [8, 16, 32] :=
  ⟨by decide, by decide, by decide, by decide, by decide, by decide,
    (((warpfb_check_var_bits_per_pixel exVar800 {}).2.2.2 (by decide)).2.2.2.2.2.1
      (by decide)).1,
    ((warpfb_check_var_bits_per_pixel exVar800 {}).2.2.2 (by decide)).1⟩

/-- Claim C29, counterexample.  In the RGB 565 truecolor mode `warpfb_check_var` set up from
a request with `grayscale` set, `warpfb_setcolreg` with components `0xFFFF, 0, 0` stores
`0x4A69` in the palette, not `(CNVT_TOHW(0xFFFF, 5) << 11) | (CNVT_TOHW(0, 6) << 5) |
CNVT_TOHW(0, 5)`, which is `0xF800`. -/
theorem warpfb_setcolreg_rgb565_counterexample :
    exInfo565Gray.var.bits_per_pixel = 16 ∧
    exInfo565Gray.fix.visual = FB_VISUAL_TRUECOLOR ∧
    exInfo565Gray.var.red = { offset := 11, length := 5 } ∧
    exInfo565Gray.var.green = { offset := 5, length := 6 } ∧
    exInfo565Gray.var.blue = { offset := 0, length := 5 } ∧
    (warpfb_setcolreg 0 0xFFFF 0 0 0 exInfo565Gray).1.pseudo_palette 0 = 0x4A69 ∧
    (CNVT_TOHW 0xFFFF 5 <<< 11) ||| (CNVT_TOHW 0 6 <<< 5) ||| CNVT_TOHW 0 5 = 0xF800 ∧
    (warpfb_setcolreg 0 0xFFFF 0 0 0 exInfo565Gray).1.pseudo_palette 0 ≠
      (CNVT_TOHW 0xFFFF 5 <<< 11) ||| (CNVT_TOHW 0 6 <<< 5) ||| CNVT_TOHW 0 5 := by
  decide

/-- Claim C29, as amended.  In the 16-bit truecolor mode set up by `warpfb_check_var` (RGB
565), for 16-bit components and `regno < 16`, `warpfb_setcolreg` returns 0 and stores in
palette entry `regno`, and in no other, `(r5 << 11) | (g6 << 5) | b5` with each field
`CNVT_TOHW(c, width)` of its component `c` when `var.grayscale` is 0, and of the gray level
`(77 red + 151 green + 28 blue) >> 8` (itself 16 bits) when it is set.  Here
`CNVT_TOHW(c, width) = ((c << width) + 0x7FFF - c) >> 16` is at most `2^width - 1`, maps 0
to 0 and `0xFFFF` to all ones, and is monotone; so the fields do not overlap (the value is
`r5 * 2^11 + g6 * 2^5 + b5`), the stored value is below `2^16`, and the transparency
contribution `CNVT_TOHW(transp, 0)` is 0. -/
theorem warpfb_setcolreg_rgb565 (v : fb_var_screeninfo) (i0 info : fb_info)
    (regno red green blue transp : Nat)
    (hmode : info.var = (warpfb_check_var v i0).1) (hret : (warpfb_check_var v i0).2 = 0)
    (hbpp : info.var.bits_per_pixel = 16) (hvis : info.fix.visual = FB_VISUAL_TRUECOLOR)
    (hregno : regno < 16) (hr : red < 65536) (hg : green < 65536) (hb : blue < 65536) :
    (info.var.red = { offset := 11, length := 5 } ∧
      info.var.green = { offset := 5, length := 6 } ∧
      info.var.blue = { offset := 0, length := 5 } ∧
      info.var.transp = { offset := 0, length := 0 }) ∧
    (warpfb_setcolreg regno red green blue transp info).2 = 0 ∧
    (info.var.grayscale = 0 →
      (warpfb_setcolreg regno red green blue transp info).1.pseudo_palette regno =
        (CNVT_TOHW red 5 <<< 11) ||| (CNVT_TOHW green 6 <<< 5) ||| CNVT_TOHW blue 5) ∧
    (info.var.grayscale ≠ 0 →
      (warpfb_setcolreg regno red green blue transp info).1.pseudo_palette regno =
        (CNVT_TOHW (gray_level red green blue) 5 <<< 11) |||
          (CNVT_TOHW (gray_level red green blue) 6 <<< 5) |||
          CNVT_TOHW (gray_level red green blue) 5) ∧
    gray_level red green blue < 65536 ∧
    (∀ i, i ≠ regno →
      (warpfb_setcolreg regno red green blue transp info).1.pseudo_palette i =
        info.pseudo_palette i) ∧
    (warpfb_setcolreg regno red green blue transp info).1.clut = info.clut ∧
    (warpfb_setcolreg regno red green blue transp info).1.pseudo_palette regno < 65536 ∧
    CNVT_TOHW transp 0 = 0 ∧
    (∀ c, c < 65536 →
      CNVT_TOHW c 5 = ((c <<< 5) + 0x7FFF - c) >>> 16 ∧ CNVT_TOHW c 5 ≤ 31 ∧
      CNVT_TOHW c 6 = ((c <<< 6) + 0x7FFF - c) >>> 16 ∧ CNVT_TOHW c 6 ≤ 63) ∧
    CNVT_TOHW 0 5 = 0 ∧ CNVT_TOHW 0 6 = 0 ∧
    CNVT_TOHW 0xFFFF 5 = 31 ∧ CNVT_TOHW 0xFFFF 6 = 63 ∧
    (∀ c d, c ≤ d → d < 65536 →
      CNVT_TOHW c 5 ≤ CNVT_TOHW d 5 ∧ CNVT_TOHW c 6 ≤ CNVT_TOHW d 6) ∧
    (∀ r g b, r ≤ 31 → g ≤ 63 → b ≤ 31 →
      (r <<< 11) ||| (g <<< 5) ||| b = r * 2048 + g * 32 + b) := by
  obtain ⟨w, e1, e2, -⟩ := (warpfb_check_var_ret v i0).2 hret
  rw [← hmode] at e1 e2
  obtain ⟨l1, l2, l3, l4⟩ := (check_var_colour_layout w).2.1 (by rw [e2, hbpp])
  rw [← e1] at l1 l2 l3 l4
  have hgl := gray_level_lt red green blue hr hg hb
  have heq := warpfb_setcolreg_truecolor regno red green blue transp info hvis hregno
  rw [if_pos (Or.inl hbpp), l1, l2, l3, l4] at heq
  simp only [CNVT_TOHW_zero_width] at heq
  have key : ∀ c, c < 65536 →
      (warpfb_setcolreg regno red green blue transp info).1.pseudo_palette regno =
        ((CNVT_TOHW (if info.var.grayscale ≠ 0 then gray_level red green blue else red)
            5 <<< 11) % 4294967296 |||
          (CNVT_TOHW (if info.var.grayscale ≠ 0 then gray_level red green blue else green)
            6 <<< 5) % 4294967296 |||
          (CNVT_TOHW (if info.var.grayscale ≠ 0 then gray_level red green blue else blue)
            5 <<< 0) % 4294967296 ||| (0 <<< 0) % 4294967296) := by
    intro _ _
    rw [heq]
    simp
  have val : ∀ a b c, a < 65536 → b < 65536 → c < 65536 →
      (CNVT_TOHW a 5 <<< 11) % 4294967296 ||| (CNVT_TOHW b 6 <<< 5) % 4294967296 |||
        (CNVT_TOHW c 5 <<< 0) % 4294967296 ||| (0 <<< 0) % 4294967296 =
      (CNVT_TOHW a 5 <<< 11) ||| (CNVT_TOHW b 6 <<< 5) ||| CNVT_TOHW c 5 ∧
      (CNVT_TOHW a 5 <<< 11) ||| (CNVT_TOHW b 6 <<< 5) ||| CNVT_TOHW c 5 < 65536 := by
    intro a b c ha hb hc
    have ba := (CNVT_TOHW_five a ha).2
    have bb := (CNVT_TOHW_six b hb).2
    have bc := (CNVT_TOHW_five c hc).2
    rw [rgb565_pack _ _ _ ba bb bc, rgb565_or _ _ _ ba bb bc]
    exact ⟨rfl, by omega⟩
  refine ⟨⟨l1, l2, l3, l4⟩, by rw [heq], ?_, ?_, hgl, ?_, by rw [heq], ?_,
    CNVT_TOHW_zero_width transp, ?_, by decide, by decide, by decide, by decide, ?_,
    rgb565_or⟩
  · intro h0
    rw [key 0 (by omega), if_neg (by simp [h0]), if_neg (by simp [h0]), if_neg (by simp [h0])]
    exact (val red green blue hr hg hb).1
  · intro h0
    rw [key 0 (by omega), if_pos h0, if_pos h0, if_pos h0]
    exact (val _ _ _ hgl hgl hgl).1
  · intro i hi
    rw [heq]
    exact Function.update_noteq hi _ _
  · rw [key 0 (by omega)]
    by_cases h0 : info.var.grayscale ≠ 0
    · rw [if_pos h0, if_pos h0, if_pos h0, (val _ _ _ hgl hgl hgl).1]
      exact (val _ _ _ hgl hgl hgl).2
    · rw [if_neg h0, if_neg h0, if_neg h0, (val _ _ _ hr hg hb).1]
      exact (val _ _ _ hr hg hb).2
  · intro c hc
    exact ⟨CNVT_TOHW_exact c 5 hc (by omega), (CNVT_TOHW_five c hc).2,
      CNVT_TOHW_exact c 6 hc (by omega), (CNVT_TOHW_six c hc).2⟩
  · intro c d hcd hd
    rw [(CNVT_TOHW_five c (by omega)).1, (CNVT_TOHW_five d hd).1,
      (CNVT_TOHW_six c (by omega)).1, (CNVT_TOHW_six d hd).1]
    exact ⟨by omega, by omega⟩

/-- Witness of `warpfb_setcolreg_rgb565`: colour mode, register 3, components
`0xFFFF, 0x8000, 0`: the value stored is `0xFBE0`. -/
theorem warpfb_setcolreg_rgb565_witness :
    exInfo565.var = (warpfb_check_var
      { xres := 640, yres := 480, yres_virtual := 960, bits_per_pixel := 16 } {}).1 ∧
    (warpfb_check_var
      { xres := 640, yres := 480, yres_virtual := 960, bits_per_pixel := 16 } {}).2 = 0 ∧
    exInfo565.var.bits_per_pixel = 16 ∧ exInfo565.fix.visual = FB_VISUAL_TRUECOLOR ∧
    exInfo565.var.grayscale = 0 ∧
    (warpfb_setcolreg 3 0xFFFF 0x8000 0 0 exInfo565).1.pseudo_palette 3 = 0xFBE0 ∧
    (warpfb_setcolreg 3 0xFFFF 0x8000 0 0 exInfo565).1.pseudo_palette 3 =
      (CNVT_TOHW 0xFFFF 5 <<< 11) ||| (CNVT_TOHW 0x8000 6 <<< 5) ||| CNVT_TOHW 0 5 :=
  ⟨rfl, by decide, by decide, by decide, by decide, by decide,
    (warpfb_setcolreg_rgb565
      { xres := 640, yres := 480, yres_virtual := 960, bits_per_pixel := 16 } {} exInfo565
      3 0xFFFF 0x8000 0 0 rfl (by decide) (by decide) (by decide) (by decide) (by decide)
      (by decide) (by decide)).2.2.1 (by decide)⟩

/-- Claim C30, counterexample.  In pseudocolor with `var.grayscale` set, `warpfb_setcolreg`
with register 0 and components `0xFFFF, 0, 0` writes `0x4C4C4C` to CLUT entry 0, not
`((red >> 8) << 16) | ((green >> 8) << 8) | (blue >> 8)`, which is `0xFF0000`. -/
theorem warpfb_setcolreg_clut_counterexample :
    exInfoPseudoGray.fix.visual = FB_VISUAL_PSEUDOCOLOR ∧
    (warpfb_setcolreg 0 0xFFFF 0 0 0 exInfoPseudoGray).2 = 0 ∧
    (warpfb_setcolreg 0 0xFFFF 0 0 0 exInfoPseudoGray).1.clut 0 = 0x4C4C4C ∧
    ((0xFFFF >>> 8) <<< 16) ||| ((0 >>> 8) <<< 8) ||| (0 >>> 8) = 0xFF0000 ∧
    (warpfb_setcolreg 0 0xFFFF 0 0 0 exInfoPseudoGray).1.clut 0 ≠
      ((0xFFFF >>> 8) <<< 16) ||| ((0 >>> 8) <<< 8) ||| (0 >>> 8) := by
  decide

/-- Claim C30, as amended.  `warpfb_setcolreg` never writes outside its tables and returns
non-zero for an invalid register number.  For `regno >= 256` it returns 1 and changes
nothing.  In truecolor it returns 1 and changes nothing for `regno >= 16`; otherwise it
returns 0, leaves the CLUT alone and changes no pseudo-palette entry other than `regno`
(below 16, the size of `pseudo_col`).  In pseudocolor, for `regno < 256`, it returns 0,
leaves the pseudo-palette alone and writes CLUT entry `regno` only, with
`((r >> 8) << 16) | ((g >> 8) << 8) | (b >> 8)`, where `r, g, b` are `red, green, blue`
when `var.grayscale` is 0 and all three the gray level `(77 red + 151 green + 28 blue) >> 8`
when it is set; for 16-bit components that value is below `2^24`. -/
theorem warpfb_setcolreg_tables (regno red green blue transp : Nat) (info : fb_info) :
    (regno ≥ 256 → warpfb_setcolreg regno red green blue transp info = (info, 1)) ∧
    (info.fix.visual = FB_VISUAL_TRUECOLOR → regno ≥ 16 →
      warpfb_setcolreg regno red green blue transp info = (info, 1)) ∧
    (info.fix.visual = FB_VISUAL_TRUECOLOR → regno < 16 →
      (warpfb_setcolreg regno red green blue transp info).2 = 0 ∧
      (warpfb_setcolreg regno red green blue transp info).1.clut = info.clut ∧
      ∀ i, i ≠ regno →
        (warpfb_setcolreg regno red green blue transp info).1.pseudo_palette i =
          info.pseudo_palette i) ∧
    (info.fix.visual = FB_VISUAL_PSEUDOCOLOR → regno < 256 →
      (warpfb_setcolreg regno red green blue transp info).2 = 0 ∧
      (warpfb_setcolreg regno red green blue transp info).1.pseudo_palette =
        info.pseudo_palette ∧
      (∀ i, i ≠ regno →
        (warpfb_setcolreg regno red green blue transp info).1.clut i = info.clut i) ∧
      (info.var.grayscale = 0 →
        (warpfb_setcolreg regno red green blue transp info).1.clut regno =
          ((red >>> 8) <<< 16) % 4294967296 ||| ((green >>> 8) <<< 8) % 4294967296 |||
            (blue >>> 8)) ∧
      (info.var.grayscale ≠ 0 →
        (warpfb_setcolreg regno red green blue transp info).1.clut regno =
          ((gray_level red green blue >>> 8) <<< 16) % 4294967296 |||
            ((gray_level red green blue >>> 8) <<< 8) % 4294967296 |||
            (gray_level red green blue >>> 8)) ∧
      (red < 65536 → green < 65536 → blue < 65536 →
        (warpfb_setcolreg regno red green blue transp info).1.clut regno < 2 ^ 24 ∧
        (info.var.grayscale = 0 →
          (warpfb_setcolreg regno red green blue transp info).1.clut regno =
            ((red >>> 8) <<< 16) ||| ((green >>> 8) <<< 8) ||| (blue >>> 8)))) := by
  obtain ⟨i1, i2⟩ := warpfb_setcolreg_invalid regno red green blue transp info
  refine ⟨i1, i2, ?_, ?_⟩
  · intro hvis hreg
    rw [warpfb_setcolreg_truecolor regno red green blue transp info hvis hreg]
    by_cases hd : info.var.bits_per_pixel = 16 ∨ info.var.bits_per_pixel = 24 ∨
        info.var.bits_per_pixel = 32
    · rw [if_pos hd]
      exact ⟨rfl, rfl, fun i hi => Function.update_noteq hi _ _⟩
    · rw [if_neg hd]
      exact ⟨rfl, rfl, fun _ _ => rfl⟩
  · intro hvis hreg
    have heq := warpfb_setcolreg_pseudocolor regno red green blue transp info hvis hreg
    have hval : ∀ a b c, a < 65536 → b < 65536 → c < 65536 →
        ((a >>> 8) <<< 16) % 4294967296 ||| ((b >>> 8) <<< 8) % 4294967296 ||| (c >>> 8) =
          ((a >>> 8) <<< 16) ||| ((b >>> 8) <<< 8) ||| (c >>> 8) ∧
        ((a >>> 8) <<< 16) ||| ((b >>> 8) <<< 8) ||| (c >>> 8) < 2 ^ 24 := by
      intro a b c ha hb hc
      have a8 : a >>> 8 < 256 := by
        rw [Nat.shiftRight_eq_div_pow]
        omega
      have b8 : b >>> 8 < 256 := by
        rw [Nat.shiftRight_eq_div_pow]
        omega
      have c8 : c >>> 8 < 256 := by
        rw [Nat.shiftRight_eq_div_pow]
        omega
      have e1 : ((a >>> 8) <<< 16) % 4294967296 = (a >>> 8) <<< 16 := by
        rw [Nat.shiftLeft_eq]
        omega
      have e2 : ((b >>> 8) <<< 8) % 4294967296 = (b >>> 8) <<< 8 := by
        rw [Nat.shiftLeft_eq]
        omega
      rw [e1, e2]
      refine ⟨rfl, Nat.or_lt_two_pow (Nat.or_lt_two_pow ?_ ?_) (by omega)⟩
      · rw [Nat.shiftLeft_eq]
        omega
      · rw [Nat.shiftLeft_eq]
        omega
    refine ⟨by rw [heq], by rw [heq], ?_, ?_, ?_, ?_⟩
    · intro i hi
      rw [heq]
      exact Function.update_noteq hi _ _
    · intro h0
      rw [heq]
      simp [h0]
    · intro h0
      rw [heq]
      simp [h0]
    · intro hr hg hb
      have hgl := gray_level_lt red green blue hr hg hb
      rw [heq]
      simp only [Function.update_same]
      by_cases h0 : info.var.grayscale ≠ 0
      · simp only [if_pos h0]
        rw [(hval _ _ _ hgl hgl hgl).1]
        exact ⟨(hval _ _ _ hgl hgl hgl).2, fun h => absurd h h0⟩
      · simp only [if_neg h0]
        rw [(hval _ _ _ hr hg hb).1]
        exact ⟨(hval _ _ _ hr hg hb).2, fun _ => rfl⟩

/-- Witness of `warpfb_setcolreg_tables`: register 300 is refused; in truecolor register
16 is refused and register 15 changes palette entry 15 only; in pseudocolor register 255
gets `0x123456` from components `0x12ab, 0x34cd, 0x56ef`. -/
theorem warpfb_setcolreg_tables_witness :
    (warpfb_setcolreg 300 1 2 3 0 exInfoPseudo).2 = 1 ∧
    (warpfb_setcolreg 16 1 2 3 0 exInfo565).2 = 1 ∧
    (warpfb_setcolreg 15 0xFFFF 0xFFFF 0xFFFF 0 exInfo565).1.pseudo_palette 15 = 0xFFFF ∧
    (warpfb_setcolreg 15 0xFFFF 0xFFFF 0xFFFF 0 exInfo565).1.pseudo_palette 14 = 0 ∧
    exInfoPseudo.fix.visual = FB_VISUAL_PSEUDOCOLOR ∧ exInfoPseudo.var.grayscale = 0 ∧
    (warpfb_setcolreg 255 0x12ab 0x34cd 0x56ef 0 exInfoPseudo).1.clut 255 = 0x123456 ∧
    (warpfb_setcolreg 255 0x12ab 0x34cd 0x56ef 0 exInfoPseudo).1.clut 255 =
      ((0x12ab >>> 8) <<< 16) % 4294967296 ||| ((0x34cd >>> 8) <<< 8) % 4294967296 |||
        (0x56ef >>> 8) ∧
    warpfb_setcolreg 16 1 2 3 0 exInfo565 = (exInfo565, 1) :=
  ⟨by decide, by decide, by decide, by decide, by decide, by decide, by decide,
    ((warpfb_setcolreg_tables 255 0x12ab 0x34cd 0x56ef 0 exInfoPseudo).2.2.2 (by decide)
      (by decide)).2.2.2.1 (by decide),
    (warpfb_setcolreg_tables 16 1 2 3 0 exInfo565).2.1 (by decide) (by decide)⟩

end AmiWarp
